import Mathlib

/-!
Editor tabs of the screenwriting editor: scene lists, treatments and autosave.

A shallow embedding of `src/components/editor/EscaletaTab.jsx`,
`src/components/editor/TratamientoTab.jsx` and
`src/components/editor/EditorAdBanner.jsx`.

* Scene records, the treatment map and the project snapshot are plain data.
* The event handlers (`addScene`, `updateScene`, `deleteScene`, `updateTreatment`)
  are first given as pure functions of the values their closure reads.
* The component itself (hooks, effects, the browser timer queue, the writes sent
  to the store and the calls of `onUpdateProject`) is a state type with one
  transition function per handler, effect and callback.
* The ad banners are given by what they read from and write to the DOM (heights,
  markup, the wrapper's style, the clones) and, for `EditorAdBanner`, by a state
  machine of its refs, its refresh counter and its retry timers.
-/

namespace Cineasta

/-! ## Data model -/

/-- A scene record `{ id, number, description }`. The id is a `Date.now()`
reading (milliseconds), the number is the 1-based label shown in the UI. -/
structure Scene where
  id : Nat
  number : Nat
  description : String
deriving DecidableEq, Repr

/-- The treatment object: scene id to free text; `none` is an absent key. -/
abbrev TreatmentMap := Nat → Option String

/-- The object literal `{}`. -/
def emptyTreatments : TreatmentMap := fun _ => none

/-- The object spread `{ ...prev, [id]: text }`. -/
def setKey (prev : TreatmentMap) (id : Nat) (text : String) : TreatmentMap :=
  fun k => if k = id then some text else prev k

/-- The `last_state` object: surface key to scroll offset. -/
abbrev LastState := String → Option Nat

/-- The project snapshot handed down by the parent. A field that is missing
(or `null`) is `none`. -/
structure Project where
  id : Nat
  escaleta_data : Option (List Scene)
  tratamiento_data : Option TreatmentMap
  last_state : Option LastState

/-! ## JavaScript array helpers -/

/-- The clamping of a relative index done by `Array.prototype.slice`: a negative
index counts from the end, and the result is clamped to `0..len`. -/
def relIndex (len : Nat) (i : Int) : Nat :=
  if i < 0 then (max ((len : Int) + i) 0).toNat else min i.toNat len

/-- The call `xs.slice(start, stop)`. -/
def jsSlice {α : Type} (xs : List α) (start stop : Int) : List α :=
  let k := relIndex xs.length start
  let fin := relIndex xs.length stop
  (xs.drop k).take (fin - k)

/-- The call `xs.slice(start)`. -/
def jsSliceFrom {α : Type} (xs : List α) (start : Int) : List α :=
  xs.drop (relIndex xs.length start)

/-- What a caller can pass as the `index` argument of `addScene`. -/
inductive IndexArg where
  /-- no argument (`undefined`) -/
  | undefined
  /-- the value `null` -/
  | null
  /-- an integer -/
  | num (i : Int)
  /-- an object, such as the click event a bare `onClick={addScene}` passes -/
  | object
deriving DecidableEq, Repr

/-- The integer that `slice` makes of the expression `index + 1`:
`undefined + 1` is `NaN` and an object plus `1` is a string that is no number,
both read as `0`; `null + 1` is `1`. -/
def IndexArg.plusOne : IndexArg → Int
  | .undefined => 0
  | .null => 1
  | .num i => i + 1
  | .object => 0

/-- The callback `(scene, idx) => ({ ...scene, number: idx + 1 })`. -/
def withNumber (idx : Nat) (scene : Scene) : Scene :=
  { scene with number := idx + 1 }

/-- The scene literal `{ id: Date.now(), number: 0, description: '' }`. -/
def newScene (now : Nat) : Scene :=
  { id := now, number := 0, description := "" }

/-- The numbering invariant of a scene list: the scene at 0-based position `i`
has number `i + 1`. -/
def Numbered (scenes : List Scene) : Prop :=
  ∀ (i : Nat) (s : Scene), scenes[i]? = some s → s.number = i + 1

/-- What a numbering leaves alone: the id and the description of a scene. -/
def Scene.content (s : Scene) : Nat × String := (s.id, s.description)

/-- The list `result` is `scenes` with a blank scene of id `now` put right after
0-based position `index`, renumbered by position. -/
def InsertedAfter (scenes : List Scene) (now index : Nat) (result : List Scene) : Prop :=
  result.length = scenes.length + 1 ∧
  result[index + 1]? = some { id := now, number := index + 2, description := "" } ∧
  (∀ (j : Nat) (s : Scene), j ≤ index → scenes[j]? = some s →
    result[j]? = some { s with number := j + 1 }) ∧
  (∀ (j : Nat) (s : Scene), index < j → scenes[j]? = some s →
    result[j + 1]? = some { s with number := j + 2 })

/-! ## EscaletaTab: the handlers as functions of the values they read -/

namespace EscaletaTab

/-- The list that `addScene(index)` passes to `setScenes`; `none` when the
handler returns early because of `readOnly`. The parameter default
`index = null` turns `undefined` into `null`. -/
def addSceneResult (readOnly : Bool) (now : Nat) (index : IndexArg)
    (scenes : List Scene) : Option (List Scene) :=
  if readOnly then none
  else
    let index := if index = .undefined then IndexArg.null else index
    let newScenes :=
      if index ≠ .null then
        jsSlice scenes 0 index.plusOne ++ [newScene now] ++ jsSliceFrom scenes index.plusOne
      else
        scenes ++ [newScene now]
    some (newScenes.mapIdx withNumber)

/-- The list that `updateScene(id, newDescription)` passes to `setScenes`. -/
def updateSceneResult (readOnly : Bool) (id : Nat) (newDescription : String)
    (scenes : List Scene) : Option (List Scene) :=
  if readOnly then none
  else
    some (scenes.map fun scene =>
      if scene.id = id then { scene with description := newDescription } else scene)

/-- The list that `deleteScene(id)` passes to `setScenes`. -/
def deleteSceneResult (readOnly : Bool) (id : Nat) (scenes : List Scene) :
    Option (List Scene) :=
  if readOnly then none
  else
    let newScenes := scenes.filter fun s => s.id ≠ id
    some (newScenes.mapIdx withNumber)

/-- The scene list after a call of `addScene`: the argument of `setScenes`, or
the old list when the handler returned early. -/
def addScene (readOnly : Bool) (now : Nat) (index : IndexArg) (scenes : List Scene) :
    List Scene :=
  (addSceneResult readOnly now index scenes).getD scenes

/-- The scene list after a call of `updateScene`. -/
def updateScene (readOnly : Bool) (id : Nat) (newDescription : String)
    (scenes : List Scene) : List Scene :=
  (updateSceneResult readOnly id newDescription scenes).getD scenes

/-- The scene list after a call of `deleteScene`. -/
def deleteScene (readOnly : Bool) (id : Nat) (scenes : List Scene) : List Scene :=
  (deleteSceneResult readOnly id scenes).getD scenes

/-- A structural call of the outline editor. -/
inductive Call where
  | add (now : Nat) (index : IndexArg)
  | delete (id : Nat)
deriving DecidableEq, Repr

/-- The scene list after one structural call. -/
def applyCall (readOnly : Bool) (scenes : List Scene) : Call → List Scene
  | .add now index => addScene readOnly now index scenes
  | .delete id => deleteScene readOnly id scenes

/-- The scene list after a sequence of structural calls, first call first. -/
def applyCalls (readOnly : Bool) (scenes : List Scene) (calls : List Call) : List Scene :=
  calls.foldl (applyCall readOnly) scenes

end EscaletaTab

/-! ## TratamientoTab: the handlers as functions of the values they read -/

namespace TratamientoTab

/-- The argument of `setTreatments` in `updateTreatment(id, newText)`, applied
to the previous map; `none` when the handler returns early. -/
def updateTreatmentResult (readOnly : Bool) (id : Nat) (newText : String)
    (prev : TreatmentMap) : Option TreatmentMap :=
  if readOnly then none else some (setKey prev id newText)

/-- The treatment map after a call of `updateTreatment`. -/
def updateTreatment (readOnly : Bool) (id : Nat) (newText : String)
    (prev : TreatmentMap) : TreatmentMap :=
  (updateTreatmentResult readOnly id newText prev).getD prev

/-- The list `reorderedScenes` of `addScene(index)`; this handler has no
parameter default, so every argument goes through `index + 1`. -/
def reorderedScenes (now : Nat) (index : IndexArg) (scenes : List Scene) : List Scene :=
  (jsSlice scenes 0 index.plusOne ++ [newScene now] ++ jsSliceFrom scenes index.plusOne).mapIdx
    withNumber

/-- The object `newTreatments` of `addScene(index)`. -/
def newTreatments (now : Nat) (treatments : TreatmentMap) : TreatmentMap :=
  setKey treatments (newScene now).id ""

/-- The scene list after a call of `addScene`. -/
def addScene (readOnly : Bool) (now : Nat) (index : IndexArg) (scenes : List Scene) :
    List Scene :=
  if readOnly then scenes else reorderedScenes now index scenes

end TratamientoTab

/-! ## The components as state machines

React runs the effects of a component after each commit, in the order in which
they are declared, and only those whose dependency changed (all of them at mount);
before an effect runs again its previous cleanup runs. A state setter called in an
effect or in a handler takes effect in the next render. Every array or object
handed to `setScenes` / `setTreatments` in these files is freshly built or is the
snapshot's own, so each call changes the dependency of the autosave effect.
A ref (`isFirstLoad.current`) is written at once.

The environment is part of the state: the browser's timer queue, the writes sent
to the store, the store calls still awaited and the calls of `onUpdateProject`.
The JSX is not modelled. Time is a number of milliseconds; a timer callback is
taken to run at its due time, the earliest moment the browser may run it. -/

/-- The props of one render, as its closures read them. `onUpdateProject` is
`true` when the parent passed the callback. -/
structure Props where
  project : Option Project
  readOnly : Bool
  onUpdateProject : Bool

/-- The object given to `.update(...)` and to `onUpdateProject(...)`: the fields
that are present. -/
structure Patch where
  escaleta_data : Option (List Scene)
  tratamiento_data : Option TreatmentMap
  last_state : Option LastState

/-- A write sent to the store, `.update(patch).eq('id', rowId)`, and when. -/
structure Write where
  time : Nat
  rowId : Nat
  patch : Patch

/-- A store call that is awaited: what the rest of the `try` block will hand to
`onUpdateProject`, and whether the closure has that callback. -/
structure Pending where
  patch : Patch
  onUpdateProject : Bool

/-- An entry of the browser's timer queue made by `setTimeout(..., 1000)` in the
autosave effect: its handle, its due time and what the callback's closure holds
(the props and the document of the render that ran the effect). -/
structure Timer (α : Type) where
  id : Nat
  due : Nat
  props : Props
  doc : α

/-- The object `{ ...(last_state || {}), [key]: offset }`. -/
def setScroll (last_state : Option LastState) (key : String) (offset : Nat) : LastState :=
  fun k => if k = key then some offset else (last_state.getD fun _ => none) k

namespace EscaletaTab

/-- The hooks of `EscaletaTab` and its environment. -/
structure State where
  props : Props
  scenes : List Scene
  saving : Bool
  isFirstLoad : Bool
  /-- the timer handle held by the cleanup of the autosave effect's last run -/
  cleanup : Option Nat
  timers : List (Timer (List Scene))
  nextTimer : Nat
  writes : List Write
  pending : List Pending
  notified : List Patch

/-- The state of the first render: `useState([])`, `useState(false)`,
`useRef(true)`. -/
def initial (props : Props) : State :=
  { props := props, scenes := [], saving := false, isFirstLoad := true, cleanup := none,
    timers := [], nextTimer := 0, writes := [], pending := [], notified := [] }

/-- The argument of `setScenes` in the load effect. -/
def seed (now : Nat) (project : Option Project) : List Scene :=
  match project.bind Project.escaleta_data with
  | some data => if data.length > 0 then data else [{ id := now, number := 1, description := "" }]
  | none => [{ id := now, number := 1, description := "" }]

/-- One run of the load effect: the ref after it, and the `setScenes` argument it
queued, if any. -/
def loadEffect (now : Nat) (st : State) : State × Option (List Scene) :=
  if st.isFirstLoad then
    ({ st with isFirstLoad := false }, some (seed now st.props.project))
  else (st, none)

/-- The cleanup `() => clearTimeout(timer)` of the autosave effect's last run. -/
def runCleanup (st : State) : State :=
  match st.cleanup with
  | none => st
  | some handle =>
    { st with timers := st.timers.filter (fun t => t.id ≠ handle), cleanup := none }

/-- One run of the autosave effect at time `now`, after the cleanup of its last
run: it returns early while `isFirstLoad.current` holds, else it sets a timer of
1000 ms whose callback closes over this render. -/
def autosaveEffect (now : Nat) (st : State) : State :=
  let st := runCleanup st
  if st.isFirstLoad then st
  else
    { st with
      timers := st.timers ++
        [{ id := st.nextTimer, due := now + 1000, props := st.props, doc := st.scenes }]
      nextTimer := st.nextTimer + 1
      cleanup := some st.nextTimer }

/-- The render caused by `setScenes(v)`: `scenes` changed, so the autosave effect
runs. -/
def setScenes (now : Nat) (v : List Scene) (st : State) : State :=
  autosaveEffect now { st with scenes := v }

/-- The render caused by a queued update of `scenes`, if there is one. -/
def flush (now : Nat) (queued : Option (List Scene)) (st : State) : State :=
  match queued with
  | none => st
  | some v => setScenes now v st

/-- Mounting at time `now`: the first render, then the load effect and the
autosave effect in this order, then the render caused by the queued `setScenes`. -/
def mount (now : Nat) (props : Props) : State :=
  let loaded := loadEffect now (initial props)
  flush now loaded.2 (autosaveEffect now loaded.1)

/-- The parent renders the tab with another snapshot: `project` changed, so the
load effect runs. -/
def setProject (now : Nat) (project : Option Project) (st : State) : State :=
  let loaded := loadEffect now { st with props := { st.props with project := project } }
  flush now loaded.2 loaded.1

/-- The function `saveData` of a render with props `c` and list `scenes`, called at
time `now`, up to its `await`. When `project` is missing, `project.id` throws
inside the `try`: nothing is sent and `finally` clears the flag. -/
def saveData (now : Nat) (c : Props) (scenes : List Scene) (st : State) : State :=
  if c.readOnly then st
  else
    match c.project with
    | none => { st with saving := false }
    | some project =>
      { st with
        saving := true
        writes := st.writes ++
          [{ time := now, rowId := project.id,
             patch := { escaleta_data := some scenes, tratamiento_data := none,
                        last_state := none } }]
        pending := st.pending ++
          [{ patch := { escaleta_data := some scenes, tratamiento_data := none,
                        last_state := none },
             onUpdateProject := c.onUpdateProject }] }

/-- The timer callback `() => { if (project && !readOnly) saveData(); }`. -/
def timerCallback (now : Nat) (t : Timer (List Scene)) (st : State) : State :=
  if t.props.project.isSome && !t.props.readOnly then saveData now t.props t.doc st else st

/-- The browser runs a due timer: it leaves the queue and its callback runs. -/
def fire (t : Timer (List Scene)) (st : State) : State :=
  timerCallback t.due t { st with timers := st.timers.filter fun u => u.id ≠ t.id }

/-- The clock reaches `time`: the timers due by then run, in queue order. -/
def advanceTo (time : Nat) (st : State) : State :=
  (st.timers.filter fun t => t.due ≤ time).foldl (fun s t => fire t s) st

/-- The store answers the oldest awaited call: the rest of `saveData` runs. -/
def respond (error : Bool) (st : State) : State :=
  match st.pending with
  | [] => st
  | p :: rest =>
    { st with
      pending := rest
      notified := if !error && p.onUpdateProject then st.notified ++ [p.patch] else st.notified
      saving := false }

/-- The store answers the awaited call at position `i` of the pending calls, in
whatever order the answers come: the rest of that call of `saveData` runs. -/
def respondTo (i : Nat) (error : Bool) (st : State) : State :=
  match st.pending[i]? with
  | none => st
  | some p =>
    { st with
      pending := st.pending.eraseIdx i
      notified := if !error && p.onUpdateProject then st.notified ++ [p.patch] else st.notified
      saving := false }

/-- The handler `handleScroll(e)` with `e.target.scrollTop = scrollTop`. Without a
project, `project.last_state` throws and nothing happens. -/
def handleScroll (scrollTop : Nat) (st : State) : State :=
  if st.props.readOnly then st
  else if st.props.onUpdateProject then
    match st.props.project with
    | none => st
    | some project =>
      { st with
        notified := st.notified ++
          [{ escaleta_data := none, tratamiento_data := none,
             last_state := some (setScroll project.last_state "escaletaScroll" scrollTop) }] }
  else st

/-- What happens to the mounted component. -/
inductive Event where
  | setProject (project : Option Project)
  | addScene (index : IndexArg)
  | updateScene (id : Nat) (newDescription : String)
  | deleteScene (id : Nat)
  | handleScroll (scrollTop : Nat)
  | respond (error : Bool)

/-- The events that are local edits of the scene list. -/
def Event.isEdit : Event → Bool
  | .addScene _ => true
  | .updateScene _ _ => true
  | .deleteScene _ => true
  | _ => false

/-- The events that hand the tab a new snapshot. -/
def Event.isSnapshot : Event → Bool
  | .setProject _ => true
  | _ => false

/-- A handler sets `scenes` when it did not return early. -/
def applyResult (now : Nat) (result : Option (List Scene)) (st : State) : State :=
  match result with
  | none => st
  | some v => setScenes now v st

/-- The event `e` handled by the current render at time `now`. -/
def handle (now : Nat) (e : Event) (st : State) : State :=
  match e with
  | .setProject project => setProject now project st
  | .addScene index => applyResult now (addSceneResult st.props.readOnly now index st.scenes) st
  | .updateScene id text =>
    applyResult now (updateSceneResult st.props.readOnly id text st.scenes) st
  | .deleteScene id => applyResult now (deleteSceneResult st.props.readOnly id st.scenes) st
  | .handleScroll scrollTop => handleScroll scrollTop st
  | .respond error => respond error st

/-- The event `e` occurs at time `now`: the timers due by then have run. -/
def step (st : State) (e : Nat × Event) : State :=
  handle e.1 e.2 (advanceTo e.1 st)

/-- A timed sequence of events, first event first. -/
def run (st : State) (events : List (Nat × Event)) : State :=
  events.foldl step st

/-- What the local edits alone make of the scene list: the handlers applied to
the list, every other event ignored. -/
def localEdit (readOnly : Bool) (scenes : List Scene) (e : Nat × Event) : List Scene :=
  match e.2 with
  | .addScene index => addScene readOnly e.1 index scenes
  | .updateScene id text => updateScene readOnly id text scenes
  | .deleteScene id => deleteScene readOnly id scenes
  | _ => scenes

/-- At most one timer is pending, and it is the one the autosave effect's cleanup
will clear. -/
def SingleTimer (st : State) : Prop :=
  st.timers = [] ∨ ∃ t, st.timers = [t] ∧ st.cleanup = some t.id

/-- The one pending timer is the autosave timer set at time `t` by the current
render: it holds the current props and scene list. -/
def Armed (st : State) (t : Nat) : Prop :=
  ∃ handle, st.timers = [{ id := handle, due := t + 1000, props := st.props, doc := st.scenes }] ∧
    st.cleanup = some handle

/-- A burst after time `t`: local edits only, each one less than 1000 ms after
the event before it. -/
def Burst (t : Nat) : List (Nat × Event) → Prop
  | [] => True
  | e :: es => e.2.isEdit = true ∧ t ≤ e.1 ∧ e.1 < t + 1000 ∧ Burst e.1 es

/-- The time of the last event of a sequence that follows an event at time `t`. -/
def lastTime (t : Nat) : List (Nat × Event) → Nat
  | [] => t
  | e :: es => lastTime e.1 es

end EscaletaTab

namespace TratamientoTab

/-- The hooks of `TratamientoTab` and its environment. -/
structure State where
  props : Props
  scenes : List Scene
  treatments : TreatmentMap
  saving : Bool
  isFirstLoad : Bool
  /-- the timer handle held by the cleanup of the autosave effect's last run -/
  cleanup : Option Nat
  timers : List (Timer TreatmentMap)
  nextTimer : Nat
  writes : List Write
  pending : List Pending
  notified : List Patch

/-- The state of the first render: `useState([])`, `useState({})`,
`useState(false)`, `useRef(true)`. -/
def initial (props : Props) : State :=
  { props := props, scenes := [], treatments := emptyTreatments, saving := false,
    isFirstLoad := true, cleanup := none, timers := [], nextTimer := 0, writes := [],
    pending := [], notified := [] }

/-- The argument of `setScenes` in the load effect. -/
def seedScenes (project : Option Project) : List Scene :=
  match project.bind Project.escaleta_data with
  | some data => if data.length > 0 then data else []
  | none => []

/-- The argument of `setTreatments` in the load effect. -/
def seedTreatments (project : Option Project) : TreatmentMap :=
  match project.bind Project.tratamiento_data with
  | some data => data
  | none => emptyTreatments

/-- One run of the load effect: the ref after it, and the `setScenes` and
`setTreatments` arguments it queued, if any. -/
def loadEffect (st : State) : State × Option (List Scene × TreatmentMap) :=
  if st.isFirstLoad then
    ({ st with isFirstLoad := false },
      some (seedScenes st.props.project, seedTreatments st.props.project))
  else (st, none)

/-- The cleanup `() => clearTimeout(timer)` of the autosave effect's last run. -/
def runCleanup (st : State) : State :=
  match st.cleanup with
  | none => st
  | some handle =>
    { st with timers := st.timers.filter (fun t => t.id ≠ handle), cleanup := none }

/-- One run of the autosave effect at time `now`, after the cleanup of its last
run. -/
def autosaveEffect (now : Nat) (st : State) : State :=
  let st := runCleanup st
  if st.isFirstLoad then st
  else
    { st with
      timers := st.timers ++
        [{ id := st.nextTimer, due := now + 1000, props := st.props, doc := st.treatments }]
      nextTimer := st.nextTimer + 1
      cleanup := some st.nextTimer }

/-- The render caused by `setTreatments(v)`: `treatments` changed, so the autosave
effect runs. -/
def setTreatments (now : Nat) (v : TreatmentMap) (st : State) : State :=
  autosaveEffect now { st with treatments := v }

/-- The render caused by the queued updates of the load effect, if any. -/
def flush (now : Nat) (queued : Option (List Scene × TreatmentMap)) (st : State) : State :=
  match queued with
  | none => st
  | some v => setTreatments now v.2 { st with scenes := v.1 }

/-- Mounting at time `now`: the first render, then the load effect and the
autosave effect in this order, then the render caused by the queued updates. -/
def mount (now : Nat) (props : Props) : State :=
  let loaded := loadEffect (initial props)
  flush now loaded.2 (autosaveEffect now loaded.1)

/-- The parent renders the tab with another snapshot: `project` changed, so the
load effect runs. -/
def setProject (now : Nat) (project : Option Project) (st : State) : State :=
  let loaded := loadEffect { st with props := { st.props with project := project } }
  flush now loaded.2 loaded.1

/-- The function `saveTreatments` of a render with props `c` and map `treatments`,
called at time `now`, up to its `await`. -/
def saveTreatments (now : Nat) (c : Props) (treatments : TreatmentMap) (st : State) : State :=
  if c.readOnly then st
  else
    match c.project with
    | none => { st with saving := false }
    | some project =>
      { st with
        saving := true
        writes := st.writes ++
          [{ time := now, rowId := project.id,
             patch := { escaleta_data := none, tratamiento_data := some treatments,
                        last_state := none } }]
        pending := st.pending ++
          [{ patch := { escaleta_data := none, tratamiento_data := some treatments,
                        last_state := none },
             onUpdateProject := c.onUpdateProject }] }

/-- The timer callback `() => { if (project && !readOnly) saveTreatments(); }`. -/
def timerCallback (now : Nat) (t : Timer TreatmentMap) (st : State) : State :=
  if t.props.project.isSome && !t.props.readOnly then saveTreatments now t.props t.doc st
  else st

/-- The browser runs a due timer: it leaves the queue and its callback runs. -/
def fire (t : Timer TreatmentMap) (st : State) : State :=
  timerCallback t.due t { st with timers := st.timers.filter fun u => u.id ≠ t.id }

/-- The clock reaches `time`: the timers due by then run, in queue order. -/
def advanceTo (time : Nat) (st : State) : State :=
  (st.timers.filter fun t => t.due ≤ time).foldl (fun s t => fire t s) st

/-- The store answers the oldest awaited call: the rest of the `try` block runs. -/
def respond (error : Bool) (st : State) : State :=
  match st.pending with
  | [] => st
  | p :: rest =>
    { st with
      pending := rest
      notified := if !error && p.onUpdateProject then st.notified ++ [p.patch] else st.notified
      saving := false }

/-- The store answers the awaited call at position `i` of the pending calls, in
whatever order the answers come: the rest of that call's `try` block runs. -/
def respondTo (i : Nat) (error : Bool) (st : State) : State :=
  match st.pending[i]? with
  | none => st
  | some p =>
    { st with
      pending := st.pending.eraseIdx i
      notified := if !error && p.onUpdateProject then st.notified ++ [p.patch] else st.notified
      saving := false }

/-- The handler `updateTreatment(id, newText)` and the render it causes. -/
def updateTreatmentStep (now : Nat) (id : Nat) (newText : String) (st : State) : State :=
  match updateTreatmentResult st.props.readOnly id newText st.treatments with
  | none => st
  | some v => setTreatments now v st

/-- The handler `addScene(index)` up to its `await`, and the render it causes: the
three setters, then the write of both columns. Without a project, `project.id`
throws inside the `try` and `finally` clears the flag. -/
def addSceneStep (now : Nat) (index : IndexArg) (st : State) : State :=
  if st.props.readOnly then st
  else
    let patch : Patch :=
      { escaleta_data := some (reorderedScenes now index st.scenes),
        tratamiento_data := some (newTreatments now st.treatments),
        last_state := none }
    let st1 : State :=
      match st.props.project with
      | none => { st with scenes := reorderedScenes now index st.scenes, saving := false }
      | some project =>
        { st with
          scenes := reorderedScenes now index st.scenes
          saving := true
          writes := st.writes ++ [{ time := now, rowId := project.id, patch := patch }]
          pending := st.pending ++
            [{ patch := patch, onUpdateProject := st.props.onUpdateProject }] }
    setTreatments now (newTreatments now st.treatments) st1

/-- What happens to the mounted component. -/
inductive Event where
  | setProject (project : Option Project)
  | updateTreatment (id : Nat) (newText : String)
  | addScene (index : IndexArg)
  | respond (error : Bool)

/-- The events that hand the tab a new snapshot. -/
def Event.isSnapshot : Event → Bool
  | .setProject _ => true
  | _ => false

/-- The text edits of the treatment editor. -/
def Event.isTextEdit : Event → Bool
  | .updateTreatment _ _ => true
  | _ => false

/-- The event `e` handled by the current render at time `now`. -/
def handle (now : Nat) (e : Event) (st : State) : State :=
  match e with
  | .setProject project => setProject now project st
  | .updateTreatment id newText => updateTreatmentStep now id newText st
  | .addScene index => addSceneStep now index st
  | .respond error => respond error st

/-- The event `e` occurs at time `now`: the timers due by then have run. -/
def step (st : State) (e : Nat × Event) : State :=
  handle e.1 e.2 (advanceTo e.1 st)

/-- A timed sequence of events, first event first. -/
def run (st : State) (events : List (Nat × Event)) : State :=
  events.foldl step st

/-- What the local edits alone make of the scene list and the treatment map:
the handlers applied to them, every other event ignored. -/
def localEdit (readOnly : Bool) (doc : List Scene × TreatmentMap) (e : Nat × Event) :
    List Scene × TreatmentMap :=
  match e.2 with
  | .updateTreatment id newText => (doc.1, updateTreatment readOnly id newText doc.2)
  | .addScene index =>
    (addScene readOnly e.1 index doc.1, if readOnly then doc.2 else newTreatments e.1 doc.2)
  | _ => doc

/-- At most one timer is pending, and it is the one the autosave effect's cleanup
will clear. -/
def SingleTimer (st : State) : Prop :=
  st.timers = [] ∨ ∃ t, st.timers = [t] ∧ st.cleanup = some t.id

/-- The one pending timer is the autosave timer set at time `t` by the current
render: it holds the current props and treatment map. -/
def Armed (st : State) (t : Nat) : Prop :=
  ∃ handle,
    st.timers = [{ id := handle, due := t + 1000, props := st.props, doc := st.treatments }] ∧
    st.cleanup = some handle

/-- The local edits of the treatment editor. -/
def Event.isEdit : Event → Bool
  | .updateTreatment _ _ => true
  | .addScene _ => true
  | _ => false

/-- A burst after time `t`: local edits only, each one less than 1000 ms after
the event before it. -/
def Burst (t : Nat) : List (Nat × Event) → Prop
  | [] => True
  | e :: es => e.2.isEdit = true ∧ t ≤ e.1 ∧ e.1 < t + 1000 ∧ Burst e.1 es

/-- The time of the last event of a sequence that follows an event at time `t`. -/
def lastTime (t : Nat) : List (Nat × Event) → Nat
  | [] => t
  | e :: es => lastTime e.1 es

/-- A write of the autosave debouncer: `saveTreatments` sends the treatment
column alone, `addScene` sends both columns. -/
def Write.isAutosave (w : Write) : Bool :=
  w.patch.escaleta_data.isNone

end TratamientoTab

/-! ## The ad banners: fitting the injected markup

The banners keep refs to DOM nodes and read layout numbers from them. The DOM is
modelled by what the functions read and write: the host's `clientHeight`, the
container's `scrollHeight`, `offsetHeight`, `innerHTML` and `childElementCount`,
the wrapper's inline style, and the `innerHTML` of each child of the clones node.
Heights are the integers the DOM reports; the scale and the width are exact
rationals. -/

/-- The container node as the banners read it. -/
structure Container where
  scrollHeight : Nat
  offsetHeight : Nat
  innerHTML : String
  childElementCount : Nat
deriving DecidableEq, Repr

/-- The inline style of the wrapper node: the factor of `transform: scale(...)`,
the `transform-origin`, and the width in percent. -/
structure WrapperStyle where
  scale : Option ℚ
  transformOrigin : Option String
  widthPercent : ℚ
deriving DecidableEq

/-- The nodes behind the refs of a banner. A ref that is `null`, or that the
variant does not have, is `none`. `host` is `mountRef.current.clientHeight`,
`clones` lists the `innerHTML` of the children of `clonesRef.current`. -/
structure Dom where
  host : Option Nat
  wrapper : Option WrapperStyle
  container : Option Container
  clones : Option (List String)
deriving DecidableEq

/-- The expression `a || b` on numbers: `a` unless it is `0`. -/
def orElse (a b : Nat) : Nat := if a ≠ 0 then a else b

/-- The style that `applyScale` writes for the factor `scale`. -/
def scaledStyle (scale : ℚ) : WrapperStyle :=
  { scale := some scale, transformOrigin := some "top left", widthPercent := 100 / scale }

namespace EditorAdBanner

/-- The function `applyScale` of `EditorAdBanner`. -/
def applyScale (dom : Dom) : Dom :=
  match dom.host, dom.wrapper, dom.container with
  | some clientHeight, some _, some curContainer =>
    let hostHeight := orElse clientHeight 0
    let contentHeight := orElse curContainer.scrollHeight (orElse curContainer.offsetHeight 0)
    if hostHeight = 0 ∨ contentHeight = 0 then dom
    else
      let scale : ℚ := min 1 ((hostHeight : ℚ) / (contentHeight : ℚ))
      { dom with wrapper := some (scaledStyle scale) }
  | _, _, _ => dom

end EditorAdBanner

/-! ### Binary64 arithmetic

JavaScript numbers are IEEE 754 binary64 values, and `/` and `*` round their exact
result to the nearest such value, ties to the one with an even significand. The
heights are small positive integers, so only finite values that are zero or
positive and in the normal range occur; those are modelled, as `m * 2 ^ e`. -/

/-- A finite binary64 value that is zero or positive: `m * 2 ^ e`. -/
structure Binary64 where
  m : Nat
  e : Int
deriving DecidableEq, Repr

namespace Binary64

/-- The number of binary digits of `n`; `fuel = n` is always enough. -/
def bitLength : Nat → Nat → Nat
  | 0, _ => 0
  | fuel + 1, n => if n = 0 then 0 else bitLength fuel (n / 2) + 1

/-- The fraction `n * 2 ^ s / d` as a numerator and a denominator. -/
def scaled (n d : Nat) (s : Int) : Nat × Nat :=
  if 0 ≤ s then (n * 2 ^ s.toNat, d) else (n, d * 2 ^ (-s).toNat)

/-- The binary64 value nearest to the fraction `n / d`, ties to even: the shift
`s` puts the quotient `n * 2 ^ s / d` into `[2 ^ 52, 2 ^ 53)`, the quotient is
rounded to an integer, and the result is that integer times `2 ^ (-s)`. -/
def roundRatio (n d : Nat) : Binary64 :=
  if n = 0 ∨ d = 0 then ⟨0, 0⟩
  else
    let s0 : Int := 53 + (bitLength d d : Int) - (bitLength n n : Int)
    let q0 := (scaled n d s0).1 / (scaled n d s0).2
    let s : Int := if q0 < 2 ^ 52 then s0 + 1 else if 2 ^ 53 ≤ q0 then s0 - 1 else s0
    let q := (scaled n d s).1 / (scaled n d s).2
    let r := (scaled n d s).1 % (scaled n d s).2
    let up := (scaled n d s).2 < 2 * r ∨ (2 * r = (scaled n d s).2 ∧ q % 2 = 1)
    ⟨if up then q + 1 else q, -s⟩

/-- The number value of a non-negative integer. -/
def ofNat (n : Nat) : Binary64 := roundRatio n 1

/-- The numerator of the value as a fraction. -/
def num (a : Binary64) : Nat := if 0 ≤ a.e then a.m * 2 ^ a.e.toNat else a.m

/-- The denominator of the value as a fraction. -/
def den (a : Binary64) : Nat := if 0 ≤ a.e then 1 else 2 ^ (-a.e).toNat

/-- The exact value. -/
def toRat (a : Binary64) : ℚ := (a.num : ℚ) / (a.den : ℚ)

/-- The operator `a / b`. -/
def div (a b : Binary64) : Binary64 := roundRatio (a.num * b.den) (a.den * b.num)

/-- The operator `a * b`. -/
def mul (a b : Binary64) : Binary64 := roundRatio (a.num * b.num) (a.den * b.den)

/-- The comparison `a <= b`. -/
def le (a b : Binary64) : Bool := a.num * b.den ≤ b.num * a.den

/-- The call `Math.min(a, b)`. -/
def min (a b : Binary64) : Binary64 := if le a b then a else b

/-- The call `Math.ceil(a)`. -/
def ceil (a : Binary64) : Int := ((a.num + a.den - 1) / a.den : Nat)

end Binary64

namespace EscaletaTab.AdsterraNativeBanner

/-- The function `applyScale` of the outline tab's banner. -/
def applyScale (dom : Dom) : Dom :=
  match dom.wrapper, dom.container, dom.host with
  | some _, some container, some clientHeight =>
    let contentHeight := orElse container.scrollHeight container.offsetHeight
    if contentHeight = 0 then dom
    else
      let hostHeight := orElse clientHeight 0
      if hostHeight = 0 then dom
      else
        let scale : ℚ := min 1 ((hostHeight : ℚ) / (contentHeight : ℚ))
        { dom with wrapper := some (scaledStyle scale) }
  | _, _, _ => dom

/-- The number `clonesNeeded` of the outline tab's `updateClones`, for the
heights it has read, computed as the code computes it, in binary64:
`scale = Math.min(1, hostHeight / contentHeight)`,
`effectiveRowHeight = contentHeight * scale`,
`Math.max(0, Math.ceil(hostHeight / effectiveRowHeight) - 1)`. -/
def clonesNeeded (hostHeight contentHeight : Nat) : Nat :=
  let scale :=
    Binary64.min (Binary64.ofNat 1)
      (Binary64.div (Binary64.ofNat hostHeight) (Binary64.ofNat contentHeight))
  let effectiveRowHeight := Binary64.mul (Binary64.ofNat contentHeight) scale
  (max 0 ((Binary64.div (Binary64.ofNat hostHeight) effectiveRowHeight).ceil - 1)).toNat

/-- The formula of the specification for the outline variant, over exact
rationals: `k = max(0, ceil(H / R) - 1)` with `R = C * min(1, H / C)`. -/
def clonesNeededExact (hostHeight contentHeight : Nat) : Nat :=
  let scale : ℚ := min 1 ((hostHeight : ℚ) / (contentHeight : ℚ))
  let effectiveRowHeight : ℚ := (contentHeight : ℚ) * scale
  (max 0 (⌈(hostHeight : ℚ) / effectiveRowHeight⌉ - 1)).toNat

/-- The function `updateClones` of the outline tab's banner. -/
def updateClones (dom : Dom) : Dom :=
  match dom.container, dom.clones, dom.host with
  | some container, some _, some clientHeight =>
    let html := container.innerHTML
    if html = "" then { dom with clones := some [] }
    else
      let contentHeight := orElse container.scrollHeight (orElse container.offsetHeight 1)
      let hostHeight := orElse clientHeight 0
      if hostHeight = 0 then dom
      else { dom with clones := some (List.replicate (clonesNeeded hostHeight contentHeight) html) }
  | _, _, _ => dom

end EscaletaTab.AdsterraNativeBanner

namespace TratamientoTab.AdsterraNativeBanner

/-- The number `clonesNeeded` of the treatment tab's `updateClones`, for the
heights it has read, computed as the code computes it, in binary64:
`Math.max(0, Math.ceil(hostHeight / rowHeight) - 1)`. -/
def clonesNeeded (hostHeight rowHeight : Nat) : Nat :=
  (max 0 ((Binary64.div (Binary64.ofNat hostHeight) (Binary64.ofNat rowHeight)).ceil - 1)).toNat

/-- The formula of the specification for the treatment variant, over exact
rationals: `k = max(0, ceil(H / R) - 1)` with `R = C`. -/
def clonesNeededExact (hostHeight rowHeight : Nat) : Nat :=
  (max 0 (⌈(hostHeight : ℚ) / (rowHeight : ℚ)⌉ - 1)).toNat

/-- The function `updateClones` of the treatment tab's banner. -/
def updateClones (dom : Dom) : Dom :=
  match dom.container, dom.clones, dom.host with
  | some container, some _, some clientHeight =>
    let html := container.innerHTML
    if html = "" then { dom with clones := some [] }
    else
      let rowHeight := orElse container.offsetHeight 1
      let hostHeight := orElse clientHeight 0
      { dom with clones := some (List.replicate (clonesNeeded hostHeight rowHeight) html) }
  | _, _, _ => dom

end TratamientoTab.AdsterraNativeBanner

/-! ## EditorAdBanner: reloads and retries

The refs `lastReloadAtRef`, `retryCountRef`, `retryTimersRef` and the state
`refreshKey`, with the browser's timer queue and the container that the mount
effect creates and the ad script fills. A call of `setRefreshKey` changes
`refreshKey`, so the mount effect runs again: its cleanup, then its body. -/

namespace EditorAdBanner

/-- An entry of the browser's timer queue made by `setTimeout(scheduleRetry, ...)`. -/
structure RetryTimer where
  handle : Nat
  due : Nat
deriving DecidableEq, Repr

/-- The refs and the state of `EditorAdBanner`, the timer queue and the container. -/
structure State where
  refreshKey : Nat
  lastReloadAt : Nat
  retryCount : Nat
  retryTimers : List Nat
  timers : List RetryTimer
  nextTimer : Nat
  container : Option Container
deriving DecidableEq, Repr

/-- The container element the mount effect creates: a `div` without children. -/
def emptyContainer : Container :=
  { scrollHeight := 0, offsetHeight := 0, innerHTML := "", childElementCount := 0 }

/-- The characters that `String.prototype.trim` strips: the ECMAScript
`WhiteSpace` characters (tab, vertical tab, form feed, U+FEFF and the space
separators of Unicode) and the `LineTerminator` characters. -/
def jsIsWhiteSpace (c : Char) : Bool :=
  c.toNat = 0x09 || c.toNat = 0x0A || c.toNat = 0x0B || c.toNat = 0x0C || c.toNat = 0x0D ||
  c.toNat = 0x20 || c.toNat = 0xA0 || c.toNat = 0x1680 ||
  (0x2000 ≤ c.toNat && c.toNat ≤ 0x200A) ||
  c.toNat = 0x2028 || c.toNat = 0x2029 || c.toNat = 0x202F || c.toNat = 0x205F ||
  c.toNat = 0x3000 || c.toNat = 0xFEFF

/-- The call `s.trim()`. -/
def jsTrim (s : String) : String :=
  String.mk ((s.toList.dropWhile jsIsWhiteSpace).reverse.dropWhile jsIsWhiteSpace).reverse

/-- The function `isRenderable`. -/
def isRenderable (container : Option Container) : Bool :=
  match container with
  | none => false
  | some cur =>
    if cur.childElementCount > 0 then true
    else if cur.innerHTML ≠ "" ∧ (jsTrim cur.innerHTML).length > 0 then true
    else false

/-- The statements `retryTimersRef.current.forEach((t) => clearTimeout(t));
retryTimersRef.current = [];`. -/
def clearRetryTimers (st : State) : State :=
  { st with
    timers := st.timers.filter fun t => t.handle ∉ st.retryTimers
    retryTimers := [] }

/-- The body of the mount effect at time `now`: the retry timers are cleared, a
fresh empty container replaces the old one, and `scheduleRetry` is set to run
after 600 ms and after 1800 ms. -/
def mountEffect (now : Nat) (st : State) : State :=
  let st := clearRetryTimers st
  { st with
    container := some emptyContainer
    timers := st.timers ++
      [{ handle := st.nextTimer, due := now + 600 },
       { handle := st.nextTimer + 1, due := now + 1800 }]
    retryTimers := [st.nextTimer, st.nextTimer + 1]
    nextTimer := st.nextTimer + 2 }

/-- The render caused by `setRefreshKey((prev) => prev + 1)` at time `now`: the
cleanup of the mount effect, then its body. -/
def remount (now : Nat) (st : State) : State :=
  mountEffect now (clearRetryTimers { st with refreshKey := st.refreshKey + 1 })

/-- The first render and its effects at time `now`. -/
def mount (now : Nat) : State :=
  mountEffect now
    { refreshKey := 0, lastReloadAt := 0, retryCount := 0, retryTimers := [], timers := [],
      nextTimer := 0, container := none }

/-- The function `requestReload`, called at `Date.now() = now`. -/
def requestReload (now : Nat) (st : State) : State :=
  if (now : Int) - (st.lastReloadAt : Int) < 250 then st
  else remount now { st with lastReloadAt := now, retryCount := 0 }

/-- The function `scheduleRetry`, run at time `now`. -/
def scheduleRetry (now : Nat) (st : State) : State :=
  if st.retryCount ≥ 3 then st
  else if isRenderable st.container then st
  else remount now { st with retryCount := st.retryCount + 1 }

/-- The browser runs a due timer: it leaves the queue and `scheduleRetry` runs. -/
def fire (t : RetryTimer) (st : State) : State :=
  scheduleRetry t.due { st with timers := st.timers.filter fun u => u.handle ≠ t.handle }

/-- The earlier of two timers, the first one on a tie. -/
def earlier (best : Option RetryTimer) (t : RetryTimer) : Option RetryTimer :=
  match best with
  | none => some t
  | some b => if t.due < b.due then some t else some b

/-- The timer the browser runs next when the clock has reached `time`: the one
due first among those due by then. -/
def nextDue (time : Nat) (timers : List RetryTimer) : Option RetryTimer :=
  (timers.filter fun t => t.due ≤ time).foldl earlier none

/-- At most `fuel` timers run, each the next one due by `time`. -/
def advanceFuel : Nat → Nat → State → State
  | 0, _, st => st
  | fuel + 1, time, st =>
    match nextDue time st.timers with
    | none => st
    | some t => advanceFuel fuel time (fire t st)

/-- A bound on the number of timers that can still run: each run removes a timer,
and a run that retries leaves two new ones and uses up one of the three retries. -/
def fuelBound (st : State) : Nat :=
  st.timers.length + 2 * (3 - st.retryCount)

/-- The clock reaches `time`: the timers due by then run, earliest first,
including those set by a retry on the way. -/
def advanceTo (time : Nat) (st : State) : State :=
  advanceFuel (fuelBound st) time st

/-- What happens to the mounted banner: a reload request (the page becomes
visible, the window gains or loses focus, the page is shown again), or the ad
script fills the container. -/
inductive Event where
  | requestReload
  | adRendered (container : Container)
deriving DecidableEq, Repr

/-- The event `e` handled at time `now`. -/
def handle (now : Nat) (e : Event) (st : State) : State :=
  match e with
  | .requestReload => requestReload now st
  | .adRendered container => { st with container := some container }

/-- The event `e` occurs at time `now`: the timers due by then have run. -/
def step (st : State) (e : Nat × Event) : State :=
  handle e.1 e.2 (advanceTo e.1 st)

/-- A timed sequence of events, first event first. -/
def run (st : State) (events : List (Nat × Event)) : State :=
  events.foldl step st

/-- The times of the reload requests of a sequence that were honored: those at
which the handler raised `refreshKey`. -/
def honoredTimes (st : State) : List (Nat × Event) → List Nat
  | [] => []
  | e :: es =>
    (if e.2 = .requestReload ∧
        (handle e.1 e.2 (advanceTo e.1 st)).refreshKey = (advanceTo e.1 st).refreshKey + 1
      then [e.1] else []) ++ honoredTimes (step st e) es

/-- The banner mounted at `t` with an empty container, after `k` retries and no
reload, its two timers pending under the handles `h` and `h + 1`. -/
def waiting (t k h : Nat) : State :=
  { refreshKey := k, lastReloadAt := 0, retryCount := k, retryTimers := [h, h + 1],
    timers := [{ handle := h, due := t + 600 }, { handle := h + 1, due := t + 1800 }],
    nextTimer := h + 2, container := some emptyContainer }

/-- The banner was mounted or remounted at `t`, has retried `k` times without any
reload, its two timers are pending under the handles `h` and `h + 1`, and its
container is not renderable. -/
def Waits (st : State) (t k h : Nat) : Prop :=
  st.refreshKey = k ∧ st.retryCount = k ∧ st.retryTimers = [h, h + 1] ∧
  st.timers = [{ handle := h, due := t + 600 }, { handle := h + 1, due := t + 1800 }] ∧
  st.nextTimer = h + 2 ∧ isRenderable st.container = false

/-- The container stays empty: every event is the ad script writing content that
is not renderable (no child element and no markup other than white space). -/
def StaysEmpty (events : List (Nat × Event)) : Prop :=
  ∀ e ∈ events, ∃ c, e.2 = Event.adRendered c ∧ isRenderable (some c) = false

/-- The state `st` of a banner mounted at `t0` is what the retry policy makes of
an empty container by the time `time`: `min 3 ((time - t0) / 600)` retries have
been made, and while fewer than three have, the banner waits for the check of its
latest remount. -/
def RetriedBy (st : State) (t0 time : Nat) : Prop :=
  st.refreshKey = min 3 ((time - t0) / 600) ∧
  st.retryCount = min 3 ((time - t0) / 600) ∧
  (min 3 ((time - t0) / 600) < 3 →
    ∃ h, Waits st (t0 + 600 * min 3 ((time - t0) / 600)) (min 3 ((time - t0) / 600)) h)

/-- The events come in the order of their times, none before `start` and none
after `stop`. -/
def Timeline (start stop : Nat) : List (Nat × Event) → Prop
  | [] => True
  | e :: es => start ≤ e.1 ∧ e.1 ≤ stop ∧ Timeline e.1 stop es

end EditorAdBanner

/-! ## Sample data -/

/-- A project with one scene and one treatment entry. -/
def sampleProject : Project :=
  { id := 7, escaleta_data := some [{ id := 10, number := 1, description := "a" }],
    tratamiento_data := some (setKey emptyTreatments 10 "t"), last_state := none }

/-- Props of an editable tab on `sampleProject`, with the parent's callback. -/
def sampleProps : Props :=
  { project := some sampleProject, readOnly := false, onUpdateProject := true }

/-- Three edits of the outline, at 0, 200 and 400 ms. -/
def sampleEdits : List (Nat × EscaletaTab.Event) :=
  [(0, .updateScene 10 "x"), (200, .updateScene 10 "xy"), (400, .addScene (.num 0))]

/-- Three edits of the treatment of scene 10, at 0, 200 and 400 ms. -/
def sampleTextEdits : List (Nat × TratamientoTab.Event) :=
  [(0, .updateTreatment 10 "x"), (200, .updateTreatment 10 "xy"),
    (400, .updateTreatment 10 "xyz")]

/-! ## Lemmas on slicing and renumbering -/

theorem relIndex_natCast (len k : Nat) : relIndex len (k : Int) = min k len := by
  simp [relIndex]

theorem relIndex_le (len : Nat) (i : Int) : relIndex len i ≤ len := by
  unfold relIndex
  split
  · omega
  · exact Nat.min_le_right _ _

theorem jsSlice_zero {α : Type} (xs : List α) (stop : Int) :
    jsSlice xs 0 stop = xs.take (relIndex xs.length stop) := by
  simp [jsSlice, relIndex]

theorem jsSlice_append_jsSliceFrom {α : Type} (xs : List α) (i : Int) :
    jsSlice xs 0 i ++ jsSliceFrom xs i = xs := by
  rw [jsSlice_zero, jsSliceFrom, List.take_append_drop]

theorem getElem?_mapIdx_withNumber (xs : List Scene) (i : Nat) :
    (xs.mapIdx withNumber)[i]? = xs[i]?.map (withNumber i) := by
  simp [List.getElem?_mapIdx]

theorem numbered_mapIdx (xs : List Scene) : Numbered (xs.mapIdx withNumber) := by
  intro i s h
  rw [getElem?_mapIdx_withNumber] at h
  cases hx : xs[i]? with
  | none => simp [hx] at h
  | some x =>
    simp only [hx, Option.map_some', Option.some.injEq] at h
    subst h
    rfl

theorem Numbered.map_number {xs : List Scene} (h : Numbered xs) :
    xs.map Scene.number = List.range' 1 xs.length := by
  apply List.ext_getElem?
  intro i
  by_cases hi : i < xs.length
  · have hx : xs[i]? = some xs[i] := List.getElem?_eq_getElem hi
    have := h i _ hx
    simp [List.getElem?_map, hx, List.getElem?_range', hi, this]
    omega
  · have hx : xs[i]? = none := List.getElem?_eq_none (by omega)
    simp [List.getElem?_map, hx, List.getElem?_range', hi]
    omega

theorem content_mapIdx (xs : List Scene) :
    (xs.mapIdx withNumber).map Scene.content = xs.map Scene.content := by
  apply List.ext_getElem?
  intro i
  rw [List.getElem?_map, getElem?_mapIdx_withNumber, List.getElem?_map]
  cases xs[i]? <;> rfl

theorem insertedAfter_take_drop (scenes : List Scene) (now index : Nat)
    (h : index < scenes.length) :
    InsertedAfter scenes now index
      ((scenes.take (index + 1) ++ [newScene now] ++ scenes.drop (index + 1)).mapIdx
        withNumber) := by
  have hlen : (scenes.take (index + 1)).length = index + 1 := by
    rw [List.length_take]; omega
  refine ⟨?_, ?_, ?_, ?_⟩
  · simp only [List.length_mapIdx, List.length_append, List.length_drop, hlen,
      List.length_singleton]
    omega
  · rw [getElem?_mapIdx_withNumber, List.append_assoc,
      List.getElem?_append_right (by omega), hlen]
    simp [withNumber, newScene]
  · intro j s hj hs
    rw [getElem?_mapIdx_withNumber, List.append_assoc,
      List.getElem?_append_left (by omega), List.getElem?_take_of_lt (by omega), hs]
    rfl
  · intro j s hj hs
    rw [getElem?_mapIdx_withNumber, List.getElem?_append_right (by simp [hlen]; omega)]
    simp only [List.length_append, hlen, List.length_singleton, List.getElem?_drop]
    have : index + 1 + (j + 1 - (index + 1 + 1)) = j := by omega
    rw [this, hs]
    rfl

theorem relIndex_succ_of_lt (len index : Nat) (h : index < len) :
    relIndex len ((index : Int) + 1) = index + 1 := by
  have : ((index : Int) + 1) = ((index + 1 : Nat) : Int) := by push_cast; rfl
  rw [this, relIndex_natCast]
  omega

theorem escaleta_addScene_num (scenes : List Scene) (now index : Nat)
    (h : index < scenes.length) :
    EscaletaTab.addScene false now (.num index) scenes =
      (scenes.take (index + 1) ++ [newScene now] ++ scenes.drop (index + 1)).mapIdx
        withNumber := by
  simp [EscaletaTab.addScene, EscaletaTab.addSceneResult, IndexArg.plusOne, jsSlice_zero,
    jsSliceFrom, relIndex_succ_of_lt _ _ h]

/-- With an object as `index`, for every list, the new scene is put first. -/
theorem escaleta_addScene_object (scenes : List Scene) (now : Nat) :
    EscaletaTab.addScene false now .object scenes =
      (newScene now :: scenes).mapIdx withNumber := by
  simp [EscaletaTab.addScene, EscaletaTab.addSceneResult, IndexArg.plusOne, jsSlice_zero,
    jsSliceFrom, relIndex]

theorem tratamiento_addScene_num (scenes : List Scene) (now index : Nat)
    (h : index < scenes.length) :
    TratamientoTab.addScene false now (.num index) scenes =
      (scenes.take (index + 1) ++ [newScene now] ++ scenes.drop (index + 1)).mapIdx
        withNumber := by
  simp [TratamientoTab.addScene, TratamientoTab.reorderedScenes, IndexArg.plusOne,
    jsSlice_zero, jsSliceFrom, relIndex_succ_of_lt _ _ h]

theorem numbered_applyCall_false (scenes : List Scene) (c : EscaletaTab.Call) :
    Numbered (EscaletaTab.applyCall false scenes c) := by
  cases c with
  | add now index =>
    simp only [EscaletaTab.applyCall, EscaletaTab.addScene, EscaletaTab.addSceneResult,
      Bool.false_eq_true, if_false, Option.getD_some]
    exact numbered_mapIdx _
  | delete id =>
    simp only [EscaletaTab.applyCall, EscaletaTab.deleteScene, EscaletaTab.deleteSceneResult,
      Bool.false_eq_true, if_false, Option.getD_some]
    exact numbered_mapIdx _

theorem applyCall_true (scenes : List Scene) (c : EscaletaTab.Call) :
    EscaletaTab.applyCall true scenes c = scenes := by
  cases c <;> rfl

theorem numbered_applyCall (readOnly : Bool) (scenes : List Scene)
    (c : EscaletaTab.Call) (h : Numbered scenes) :
    Numbered (EscaletaTab.applyCall readOnly scenes c) := by
  cases readOnly with
  | false => exact numbered_applyCall_false scenes c
  | true => rw [applyCall_true]; exact h

theorem numbered_applyCalls (readOnly : Bool) (calls : List EscaletaTab.Call)
    (scenes : List Scene) (h : Numbered scenes) :
    Numbered (EscaletaTab.applyCalls readOnly scenes calls) := by
  induction calls generalizing scenes with
  | nil => exact h
  | cons c cs ih => exact ih _ (numbered_applyCall readOnly scenes c h)

theorem count_content_filter (id : Nat) (k : Nat × String) (hk : k.1 ≠ id)
    (scenes : List Scene) :
    ((scenes.filter fun s => s.id ≠ id).map Scene.content).count k =
      (scenes.map Scene.content).count k := by
  induction scenes with
  | nil => rfl
  | cons s ss ih =>
    by_cases hs : s.id = id
    · have hne : s.content ≠ k := by
        intro e
        apply hk
        rw [← e]
        exact hs
      simpa [List.filter_cons, hs, List.count_cons, hne] using ih
    · simpa [List.filter_cons, hs, List.count_cons] using ih

/-! ## Lemmas on the outline editor's state machine -/

section EscaletaLemmas

open EscaletaTab

theorem esc_runCleanup_frame (st : State) :
    (runCleanup st).scenes = st.scenes ∧ (runCleanup st).props = st.props ∧
    (runCleanup st).isFirstLoad = st.isFirstLoad ∧ (runCleanup st).saving = st.saving ∧
    (runCleanup st).writes = st.writes ∧ (runCleanup st).pending = st.pending ∧
    (runCleanup st).notified = st.notified ∧ (runCleanup st).nextTimer = st.nextTimer := by
  unfold runCleanup
  cases st.cleanup <;> simp

theorem esc_autosaveEffect_frame (now : Nat) (st : State) :
    (autosaveEffect now st).scenes = st.scenes ∧ (autosaveEffect now st).props = st.props ∧
    (autosaveEffect now st).isFirstLoad = st.isFirstLoad ∧
    (autosaveEffect now st).saving = st.saving ∧
    (autosaveEffect now st).writes = st.writes ∧
    (autosaveEffect now st).pending = st.pending ∧
    (autosaveEffect now st).notified = st.notified := by
  obtain ⟨h1, h2, h3, h4, h5, h6, h7, _⟩ := esc_runCleanup_frame st
  unfold autosaveEffect
  simp only []
  split
  · exact ⟨h1, h2, h3, h4, h5, h6, h7⟩
  · exact ⟨h1, h2, h3, h4, h5, h6, h7⟩

@[simp] theorem esc_autosaveEffect_scenes (now : Nat) (st : State) :
    (autosaveEffect now st).scenes = st.scenes := (esc_autosaveEffect_frame now st).1

@[simp] theorem esc_autosaveEffect_props (now : Nat) (st : State) :
    (autosaveEffect now st).props = st.props := (esc_autosaveEffect_frame now st).2.1

@[simp] theorem esc_autosaveEffect_isFirstLoad (now : Nat) (st : State) :
    (autosaveEffect now st).isFirstLoad = st.isFirstLoad :=
  (esc_autosaveEffect_frame now st).2.2.1

@[simp] theorem esc_autosaveEffect_writes (now : Nat) (st : State) :
    (autosaveEffect now st).writes = st.writes := (esc_autosaveEffect_frame now st).2.2.2.2.1

theorem esc_saveData_frame (now : Nat) (c : Props) (doc : List Scene) (st : State) :
    (saveData now c doc st).scenes = st.scenes ∧ (saveData now c doc st).props = st.props ∧
    (saveData now c doc st).isFirstLoad = st.isFirstLoad ∧
    (saveData now c doc st).timers = st.timers ∧
    (saveData now c doc st).cleanup = st.cleanup ∧
    (saveData now c doc st).nextTimer = st.nextTimer := by
  unfold saveData
  cases c.readOnly <;> cases c.project <;> simp

theorem esc_timerCallback_frame (now : Nat) (t : Timer (List Scene)) (st : State) :
    (timerCallback now t st).scenes = st.scenes ∧ (timerCallback now t st).props = st.props ∧
    (timerCallback now t st).isFirstLoad = st.isFirstLoad ∧
    (timerCallback now t st).timers = st.timers ∧
    (timerCallback now t st).cleanup = st.cleanup ∧
    (timerCallback now t st).nextTimer = st.nextTimer := by
  unfold timerCallback
  split
  · exact esc_saveData_frame now t.props t.doc st
  · simp

theorem esc_fire_frame (t : Timer (List Scene)) (st : State) :
    (fire t st).scenes = st.scenes ∧ (fire t st).props = st.props ∧
    (fire t st).isFirstLoad = st.isFirstLoad ∧
    (fire t st).timers = st.timers.filter (fun u => u.id ≠ t.id) ∧
    (fire t st).cleanup = st.cleanup ∧
    (fire t st).nextTimer = st.nextTimer := by
  unfold fire
  obtain ⟨h1, h2, h3, h4, h5, h6⟩ := esc_timerCallback_frame t.due t
    { st with timers := st.timers.filter fun u => u.id ≠ t.id }
  exact ⟨h1, h2, h3, h4, h5, h6⟩

theorem esc_foldl_fire_frame (ts : List (Timer (List Scene))) (st : State) :
    (ts.foldl (fun s t => fire t s) st).scenes = st.scenes ∧
    (ts.foldl (fun s t => fire t s) st).props = st.props ∧
    (ts.foldl (fun s t => fire t s) st).isFirstLoad = st.isFirstLoad ∧
    (ts.foldl (fun s t => fire t s) st).cleanup = st.cleanup ∧
    (ts.foldl (fun s t => fire t s) st).nextTimer = st.nextTimer := by
  induction ts generalizing st with
  | nil => simp
  | cons t ts ih =>
    obtain ⟨h1, h2, h3, _, h5, h6⟩ := esc_fire_frame t st
    obtain ⟨i1, i2, i3, i4, i5⟩ := ih (fire t st)
    simp only [List.foldl_cons]
    exact ⟨i1.trans h1, i2.trans h2, i3.trans h3, i4.trans h5, i5.trans h6⟩

theorem esc_advanceTo_frame (time : Nat) (st : State) :
    (advanceTo time st).scenes = st.scenes ∧ (advanceTo time st).props = st.props ∧
    (advanceTo time st).isFirstLoad = st.isFirstLoad ∧
    (advanceTo time st).cleanup = st.cleanup ∧
    (advanceTo time st).nextTimer = st.nextTimer :=
  esc_foldl_fire_frame _ st

theorem esc_applyResult_frame (now : Nat) (r : Option (List Scene)) (st : State) :
    (applyResult now r st).scenes = r.getD st.scenes ∧
    (applyResult now r st).props = st.props ∧
    (applyResult now r st).isFirstLoad = st.isFirstLoad := by
  cases r with
  | none => simp [applyResult]
  | some v =>
    obtain ⟨h1, h2, h3, _⟩ := esc_autosaveEffect_frame now { st with scenes := v }
    simp [applyResult, setScenes, h1, h2, h3]

theorem esc_setProject_latched (now : Nat) (project : Option Project) (st : State)
    (h : st.isFirstLoad = false) :
    setProject now project st = { st with props := { st.props with project := project } } := by
  simp [setProject, loadEffect, h, flush]

theorem esc_handle_local (now : Nat) (e : Event) (st : State) (h : st.isFirstLoad = false) :
    (handle now e st).scenes = localEdit st.props.readOnly st.scenes (now, e) ∧
    (handle now e st).props.readOnly = st.props.readOnly ∧
    (handle now e st).isFirstLoad = false := by
  cases e with
  | setProject project => simp [handle, esc_setProject_latched now project st h, localEdit, h]
  | addScene index =>
    obtain ⟨h1, h2, h3⟩ := esc_applyResult_frame now
      (addSceneResult st.props.readOnly now index st.scenes) st
    simp [handle, localEdit, h1, h2, h3, h, addScene]
  | updateScene id text =>
    obtain ⟨h1, h2, h3⟩ := esc_applyResult_frame now
      (updateSceneResult st.props.readOnly id text st.scenes) st
    simp [handle, localEdit, h1, h2, h3, h, updateScene]
  | deleteScene id =>
    obtain ⟨h1, h2, h3⟩ := esc_applyResult_frame now
      (deleteSceneResult st.props.readOnly id st.scenes) st
    simp [handle, localEdit, h1, h2, h3, h, deleteScene]
  | handleScroll top =>
    simp only [handle, localEdit, EscaletaTab.handleScroll]
    cases hro : st.props.readOnly <;> cases hup : st.props.onUpdateProject <;>
      cases hpr : st.props.project <;> simp [h, hro]
  | respond error =>
    simp only [handle, localEdit, EscaletaTab.respond]
    cases st.pending <;> simp [h]

theorem esc_step_local (e : Nat × Event) (st : State) (h : st.isFirstLoad = false) :
    (step st e).scenes = localEdit st.props.readOnly st.scenes e ∧
    (step st e).props.readOnly = st.props.readOnly ∧
    (step st e).isFirstLoad = false := by
  obtain ⟨a1, a2, a3, _, _⟩ := esc_advanceTo_frame e.1 st
  obtain ⟨h1, h2, h3⟩ := esc_handle_local e.1 e.2 (advanceTo e.1 st) (a3.trans h)
  rw [a1, a2] at h1
  rw [a2] at h2
  exact ⟨h1, h2, h3⟩

theorem esc_run_local (events : List (Nat × Event)) (st : State) (h : st.isFirstLoad = false) :
    (run st events).scenes = events.foldl (localEdit st.props.readOnly) st.scenes ∧
    (run st events).props.readOnly = st.props.readOnly ∧
    (run st events).isFirstLoad = false := by
  induction events generalizing st with
  | nil => exact ⟨rfl, rfl, h⟩
  | cons e es ih =>
    obtain ⟨h1, h2, h3⟩ := esc_step_local e st h
    obtain ⟨i1, i2, i3⟩ := ih (step st e) h3
    simp only [run, List.foldl_cons] at i1 i2 i3 ⊢
    rw [h1, h2] at i1
    exact ⟨i1, i2.trans h2, i3⟩

theorem esc_localEdit_filter (readOnly : Bool) (events : List (Nat × Event))
    (scenes : List Scene) :
    (events.filter fun e => !e.2.isSnapshot).foldl (localEdit readOnly) scenes =
      events.foldl (localEdit readOnly) scenes := by
  induction events generalizing scenes with
  | nil => rfl
  | cons e es ih =>
    rw [List.filter_cons]
    by_cases hs : e.2.isSnapshot = true
    · have hid : localEdit readOnly scenes e = scenes := by
        obtain ⟨now, ev⟩ := e
        cases ev <;> simp_all [Event.isSnapshot, localEdit]
      simp [hs, ih, hid]
    · simp [hs, ih]

end EscaletaLemmas

/-! ## Lemmas on the outline editor's autosave timer -/

section EscaletaTimer

open EscaletaTab

theorem esc_autosaveEffect_arms (now : Nat) (st : State) (h : st.isFirstLoad = false)
    (hs : SingleTimer st) :
    autosaveEffect now st =
      { st with
        timers := [{ id := st.nextTimer, due := now + 1000, props := st.props,
                     doc := st.scenes }]
        nextTimer := st.nextTimer + 1
        cleanup := some st.nextTimer } := by
  have hc : (runCleanup st).timers = [] := by
    unfold runCleanup
    rcases hs with h0 | ⟨t, ht, hcl⟩
    · cases st.cleanup <;> simp [h0]
    · simp [hcl, ht]
  obtain ⟨h1, h2, h3, h4, h5, h6, h7, h8⟩ := esc_runCleanup_frame st
  unfold autosaveEffect
  simp only [h3, h, Bool.false_eq_true, if_false, hc, List.nil_append, h1, h2, h8]
  have hcases : runCleanup st = { st with timers := [], cleanup := (runCleanup st).cleanup } := by
    cases hr : runCleanup st
    simp_all
  rw [hcases]

theorem esc_advanceTo_idle (time : Nat) (st : State)
    (h : ∀ t ∈ st.timers, time < t.due) : advanceTo time st = st := by
  have : (st.timers.filter fun t => t.due ≤ time) = [] := by
    rw [List.filter_eq_nil_iff]
    intro t ht
    have := h t ht
    simp
    omega
  simp [advanceTo, this]

theorem esc_advanceTo_due (time : Nat) (st : State) (t : Timer (List Scene))
    (ht : st.timers = [t]) (hdue : t.due ≤ time) : advanceTo time st = fire t st := by
  simp [advanceTo, ht, hdue]

theorem esc_advanceTo_single (time : Nat) (st : State) (hs : SingleTimer st) :
    SingleTimer (advanceTo time st) := by
  rcases hs with h0 | ⟨t, ht, hcl⟩
  · rw [esc_advanceTo_idle time st (by simp [h0])]
    exact Or.inl h0
  · by_cases hdue : t.due ≤ time
    · rw [esc_advanceTo_due time st t ht hdue]
      left
      rw [(esc_fire_frame t st).2.2.2.1, ht]
      simp
    · rw [esc_advanceTo_idle time st (by simp [ht]; omega)]
      exact Or.inr ⟨t, ht, hcl⟩

theorem esc_armed_single (st : State) (t : Nat) (h : Armed st t) : SingleTimer st := by
  obtain ⟨handle, ht, hc⟩ := h
  exact Or.inr ⟨_, ht, hc⟩

theorem esc_setScenes_arms (now : Nat) (v : List Scene) (st : State)
    (h : st.isFirstLoad = false) (hs : SingleTimer st) :
    Armed (setScenes now v st) now ∧ (setScenes now v st).scenes = v ∧
    (setScenes now v st).props = st.props ∧ (setScenes now v st).writes = st.writes ∧
    (setScenes now v st).isFirstLoad = false := by
  have h' : ({ st with scenes := v } : State).isFirstLoad = false := h
  have hs' : SingleTimer ({ st with scenes := v } : State) := hs
  unfold setScenes
  rw [esc_autosaveEffect_arms now _ h' hs']
  exact ⟨⟨st.nextTimer, rfl, rfl⟩, rfl, rfl, rfl, h⟩

theorem esc_edit_result (now : Nat) (e : Event) (st : State) (he : e.isEdit = true) :
    handle now e st = applyResult now
      (if st.props.readOnly then none else some (localEdit false st.scenes (now, e))) st := by
  cases e with
  | addScene index =>
    cases hr : st.props.readOnly <;>
      simp [handle, addSceneResult, localEdit, addScene, hr]
  | updateScene id text =>
    cases hr : st.props.readOnly <;>
      simp [handle, updateSceneResult, localEdit, updateScene, hr]
  | deleteScene id =>
    cases hr : st.props.readOnly <;>
      simp [handle, deleteSceneResult, localEdit, deleteScene, hr]
  | setProject _ => simp [Event.isEdit] at he
  | handleScroll _ => simp [Event.isEdit] at he
  | respond _ => simp [Event.isEdit] at he

theorem esc_edit_arms (now : Nat) (e : Event) (st : State) (he : e.isEdit = true)
    (h : st.isFirstLoad = false) (hs : SingleTimer st) (hro : st.props.readOnly = false) :
    Armed (handle now e st) now ∧
    (handle now e st).scenes = localEdit false st.scenes (now, e) ∧
    (handle now e st).props = st.props ∧ (handle now e st).writes = st.writes ∧
    (handle now e st).isFirstLoad = false := by
  rw [esc_edit_result now e st he]
  simp only [hro, Bool.false_eq_true, if_false, applyResult]
  exact esc_setScenes_arms now _ st h hs

theorem esc_armed_idle (st : State) (t time : Nat) (h : Armed st t) (hlt : time < t + 1000) :
    advanceTo time st = st := by
  obtain ⟨handle, ht, _⟩ := h
  apply esc_advanceTo_idle
  intro u hu
  rw [ht] at hu
  simp at hu
  rw [hu]
  exact hlt

theorem esc_armed_fire (st : State) (t time : Nat) (p : Project) (h : Armed st t)
    (hp : st.props.project = some p) (hro : st.props.readOnly = false)
    (hle : t + 1000 ≤ time) :
    (advanceTo time st).writes = st.writes ++
      [{ time := t + 1000, rowId := p.id,
         patch := { escaleta_data := some st.scenes, tratamiento_data := none,
                    last_state := none } }] ∧
    (advanceTo time st).timers = [] ∧ (advanceTo time st).scenes = st.scenes := by
  obtain ⟨handle, ht, _⟩ := h
  rw [esc_advanceTo_due time st _ ht hle]
  simp [fire, timerCallback, saveData, hp, hro, ht]

theorem esc_burst (es : List (Nat × Event)) (st : State) (t : Nat)
    (h : st.isFirstLoad = false) (hro : st.props.readOnly = false) (ha : Armed st t)
    (hb : Burst t es) :
    (run st es).isFirstLoad = false ∧ (run st es).props = st.props ∧
    Armed (run st es) (lastTime t es) ∧ (run st es).writes = st.writes ∧
    (run st es).scenes = es.foldl (localEdit false) st.scenes := by
  induction es generalizing st t with
  | nil => exact ⟨h, rfl, ha, rfl, rfl⟩
  | cons e es ih =>
    obtain ⟨he, _, hlt, hb'⟩ := hb
    have hstep : step st e = handle e.1 e.2 st := by
      unfold step
      rw [esc_armed_idle st t e.1 ha hlt]
    obtain ⟨a1, a2, a3, a4, a5⟩ := esc_edit_arms e.1 e.2 st he h (esc_armed_single st t ha) hro
    rw [← hstep] at a1 a2 a3 a4 a5
    obtain ⟨i1, i2, i3, i4, i5⟩ := ih (step st e) e.1 a5 (by rw [a3]; exact hro) a1 hb'
    simp only [run, List.foldl_cons, lastTime] at i1 i2 i3 i4 i5 ⊢
    refine ⟨i1, i2.trans a3, i3, i4.trans a4, ?_⟩
    rw [i5, a2]

theorem esc_handle_single (now : Nat) (e : Event) (st : State) (h : st.isFirstLoad = false)
    (hs : SingleTimer st) : SingleTimer (handle now e st) := by
  have happly : ∀ r, SingleTimer (applyResult now r st) := by
    intro r
    cases r with
    | none => exact hs
    | some v => exact esc_armed_single _ now (esc_setScenes_arms now v st h hs).1
  cases e with
  | setProject project =>
    simp only [handle]
    rw [esc_setProject_latched now project st h]
    exact hs
  | addScene index => exact happly _
  | updateScene id text => exact happly _
  | deleteScene id => exact happly _
  | handleScroll top =>
    simp only [handle, EscaletaTab.handleScroll]
    cases st.props.readOnly <;> cases st.props.onUpdateProject <;> cases st.props.project <;>
      exact hs
  | respond error =>
    simp only [handle, EscaletaTab.respond]
    cases st.pending <;> exact hs

theorem esc_run_single (events : List (Nat × Event)) (st : State)
    (h : st.isFirstLoad = false) (hs : SingleTimer st) : SingleTimer (run st events) := by
  induction events generalizing st with
  | nil => exact hs
  | cons e es ih =>
    have h1 : (advanceTo e.1 st).isFirstLoad = false := (esc_advanceTo_frame e.1 st).2.2.1.trans h
    have h2 := esc_advanceTo_single e.1 st hs
    exact ih (step st e) (esc_handle_local e.1 e.2 _ h1).2.2 (esc_handle_single e.1 e.2 _ h1 h2)

theorem esc_mount_armed (now : Nat) (props : Props) :
    Armed (mount now props) now ∧ (mount now props).isFirstLoad = false ∧
    (mount now props).props = props ∧ (mount now props).writes = [] ∧
    (mount now props).scenes = seed now props.project := by
  have h0 : (autosaveEffect now (loadEffect now (initial props)).1).isFirstLoad = false := by
    simp [loadEffect, initial]
  have hs0 : SingleTimer (autosaveEffect now (loadEffect now (initial props)).1) := by
    rw [esc_autosaveEffect_arms now _ (by simp [loadEffect, initial])
      (Or.inl (by simp [loadEffect, initial]))]
    exact Or.inr ⟨_, rfl, rfl⟩
  have hq : (loadEffect now (initial props)).2 = some (seed now props.project) := by
    simp [loadEffect, initial]
  obtain ⟨a1, a2, a3, a4, a5⟩ := esc_setScenes_arms now (seed now props.project) _ h0 hs0
  unfold mount
  simp only [hq, flush]
  refine ⟨a1, a5, ?_, ?_, a2⟩
  · rw [a3]; simp [loadEffect, initial]
  · rw [a4]; simp [loadEffect, initial]

end EscaletaTimer

/-! ## Lemmas on the treatment editor's state machine -/

section TratamientoLemmas

open TratamientoTab

theorem tra_runCleanup_frame (st : State) :
    (runCleanup st).scenes = st.scenes ∧ (runCleanup st).treatments = st.treatments ∧
    (runCleanup st).props = st.props ∧
    (runCleanup st).isFirstLoad = st.isFirstLoad ∧ (runCleanup st).saving = st.saving ∧
    (runCleanup st).writes = st.writes ∧ (runCleanup st).pending = st.pending ∧
    (runCleanup st).notified = st.notified ∧ (runCleanup st).nextTimer = st.nextTimer := by
  unfold runCleanup
  cases st.cleanup <;> simp

theorem tra_autosaveEffect_frame (now : Nat) (st : State) :
    (autosaveEffect now st).scenes = st.scenes ∧
    (autosaveEffect now st).treatments = st.treatments ∧
    (autosaveEffect now st).props = st.props ∧
    (autosaveEffect now st).isFirstLoad = st.isFirstLoad ∧
    (autosaveEffect now st).saving = st.saving ∧
    (autosaveEffect now st).writes = st.writes ∧
    (autosaveEffect now st).pending = st.pending ∧
    (autosaveEffect now st).notified = st.notified := by
  obtain ⟨h0, h1, h2, h3, h4, h5, h6, h7, _⟩ := tra_runCleanup_frame st
  unfold autosaveEffect
  simp only []
  split
  · exact ⟨h0, h1, h2, h3, h4, h5, h6, h7⟩
  · exact ⟨h0, h1, h2, h3, h4, h5, h6, h7⟩

theorem tra_saveTreatments_frame (now : Nat) (c : Props) (doc : TreatmentMap) (st : State) :
    (saveTreatments now c doc st).scenes = st.scenes ∧
    (saveTreatments now c doc st).treatments = st.treatments ∧
    (saveTreatments now c doc st).props = st.props ∧
    (saveTreatments now c doc st).isFirstLoad = st.isFirstLoad ∧
    (saveTreatments now c doc st).timers = st.timers ∧
    (saveTreatments now c doc st).cleanup = st.cleanup ∧
    (saveTreatments now c doc st).nextTimer = st.nextTimer := by
  unfold saveTreatments
  cases c.readOnly <;> cases c.project <;> simp

theorem tra_timerCallback_frame (now : Nat) (t : Timer TreatmentMap) (st : State) :
    (timerCallback now t st).scenes = st.scenes ∧
    (timerCallback now t st).treatments = st.treatments ∧
    (timerCallback now t st).props = st.props ∧
    (timerCallback now t st).isFirstLoad = st.isFirstLoad ∧
    (timerCallback now t st).timers = st.timers ∧
    (timerCallback now t st).cleanup = st.cleanup ∧
    (timerCallback now t st).nextTimer = st.nextTimer := by
  unfold timerCallback
  split
  · exact tra_saveTreatments_frame now t.props t.doc st
  · simp

theorem tra_fire_frame (t : Timer TreatmentMap) (st : State) :
    (fire t st).scenes = st.scenes ∧ (fire t st).treatments = st.treatments ∧
    (fire t st).props = st.props ∧
    (fire t st).isFirstLoad = st.isFirstLoad ∧
    (fire t st).timers = st.timers.filter (fun u => u.id ≠ t.id) ∧
    (fire t st).cleanup = st.cleanup ∧
    (fire t st).nextTimer = st.nextTimer := by
  unfold fire
  obtain ⟨h0, h1, h2, h3, h4, h5, h6⟩ := tra_timerCallback_frame t.due t
    { st with timers := st.timers.filter fun u => u.id ≠ t.id }
  exact ⟨h0, h1, h2, h3, h4, h5, h6⟩

theorem tra_foldl_fire_frame (ts : List (Timer TreatmentMap)) (st : State) :
    (ts.foldl (fun s t => fire t s) st).scenes = st.scenes ∧
    (ts.foldl (fun s t => fire t s) st).treatments = st.treatments ∧
    (ts.foldl (fun s t => fire t s) st).props = st.props ∧
    (ts.foldl (fun s t => fire t s) st).isFirstLoad = st.isFirstLoad ∧
    (ts.foldl (fun s t => fire t s) st).cleanup = st.cleanup ∧
    (ts.foldl (fun s t => fire t s) st).nextTimer = st.nextTimer := by
  induction ts generalizing st with
  | nil => simp
  | cons t ts ih =>
    obtain ⟨h0, h1, h2, h3, _, h5, h6⟩ := tra_fire_frame t st
    obtain ⟨i0, i1, i2, i3, i4, i5⟩ := ih (fire t st)
    simp only [List.foldl_cons]
    exact ⟨i0.trans h0, i1.trans h1, i2.trans h2, i3.trans h3, i4.trans h5, i5.trans h6⟩

theorem tra_advanceTo_frame (time : Nat) (st : State) :
    (advanceTo time st).scenes = st.scenes ∧
    (advanceTo time st).treatments = st.treatments ∧
    (advanceTo time st).props = st.props ∧
    (advanceTo time st).isFirstLoad = st.isFirstLoad ∧
    (advanceTo time st).cleanup = st.cleanup ∧
    (advanceTo time st).nextTimer = st.nextTimer :=
  tra_foldl_fire_frame _ st

theorem tra_setProject_latched (now : Nat) (project : Option Project) (st : State)
    (h : st.isFirstLoad = false) :
    setProject now project st = { st with props := { st.props with project := project } } := by
  simp [setProject, loadEffect, h, flush]

@[simp] theorem tra_autosaveEffect_scenes (now : Nat) (st : State) :
    (autosaveEffect now st).scenes = st.scenes := (tra_autosaveEffect_frame now st).1

@[simp] theorem tra_autosaveEffect_treatments (now : Nat) (st : State) :
    (autosaveEffect now st).treatments = st.treatments := (tra_autosaveEffect_frame now st).2.1

@[simp] theorem tra_autosaveEffect_props (now : Nat) (st : State) :
    (autosaveEffect now st).props = st.props := (tra_autosaveEffect_frame now st).2.2.1

@[simp] theorem tra_autosaveEffect_isFirstLoad (now : Nat) (st : State) :
    (autosaveEffect now st).isFirstLoad = st.isFirstLoad :=
  (tra_autosaveEffect_frame now st).2.2.2.1

@[simp] theorem tra_autosaveEffect_writes (now : Nat) (st : State) :
    (autosaveEffect now st).writes = st.writes := (tra_autosaveEffect_frame now st).2.2.2.2.2.1

@[simp] theorem tra_autosaveEffect_saving (now : Nat) (st : State) :
    (autosaveEffect now st).saving = st.saving := (tra_autosaveEffect_frame now st).2.2.2.2.1

@[simp] theorem tra_autosaveEffect_pending (now : Nat) (st : State) :
    (autosaveEffect now st).pending = st.pending :=
  (tra_autosaveEffect_frame now st).2.2.2.2.2.2.1

@[simp] theorem tra_autosaveEffect_notified (now : Nat) (st : State) :
    (autosaveEffect now st).notified = st.notified :=
  (tra_autosaveEffect_frame now st).2.2.2.2.2.2.2

theorem tra_handle_local (now : Nat) (e : Event) (st : State) (h : st.isFirstLoad = false) :
    ((handle now e st).scenes, (handle now e st).treatments) =
      localEdit st.props.readOnly (st.scenes, st.treatments) (now, e) ∧
    (handle now e st).props.readOnly = st.props.readOnly ∧
    (handle now e st).isFirstLoad = false := by
  cases e with
  | setProject project => simp [handle, tra_setProject_latched now project st h, localEdit, h]
  | updateTreatment id newText =>
    cases hro : st.props.readOnly <;>
      simp [handle, updateTreatmentStep, updateTreatmentResult, localEdit, updateTreatment, hro,
        h, setTreatments]
  | addScene index =>
    cases hro : st.props.readOnly <;> cases hpr : st.props.project <;>
      simp [handle, addSceneStep, localEdit, addScene, hro, h, hpr, setTreatments]
  | respond error =>
    simp only [handle, localEdit, TratamientoTab.respond]
    cases st.pending <;> simp [h]

theorem tra_step_local (e : Nat × Event) (st : State) (h : st.isFirstLoad = false) :
    ((step st e).scenes, (step st e).treatments) =
      localEdit st.props.readOnly (st.scenes, st.treatments) e ∧
    (step st e).props.readOnly = st.props.readOnly ∧
    (step st e).isFirstLoad = false := by
  obtain ⟨a0, a1, a2, a3, _, _⟩ := tra_advanceTo_frame e.1 st
  obtain ⟨h1, h2, h3⟩ := tra_handle_local e.1 e.2 (advanceTo e.1 st) (a3.trans h)
  rw [a0, a1, a2] at h1
  rw [a2] at h2
  exact ⟨h1, h2, h3⟩

theorem tra_run_local (events : List (Nat × Event)) (st : State) (h : st.isFirstLoad = false) :
    ((run st events).scenes, (run st events).treatments) =
      events.foldl (localEdit st.props.readOnly) (st.scenes, st.treatments) ∧
    (run st events).props.readOnly = st.props.readOnly ∧
    (run st events).isFirstLoad = false := by
  induction events generalizing st with
  | nil => exact ⟨rfl, rfl, h⟩
  | cons e es ih =>
    obtain ⟨h1, h2, h3⟩ := tra_step_local e st h
    obtain ⟨i1, i2, i3⟩ := ih (step st e) h3
    simp only [run, List.foldl_cons] at i1 i2 i3 ⊢
    rw [h1, h2] at i1
    exact ⟨i1, i2.trans h2, i3⟩

theorem tra_localEdit_filter (readOnly : Bool) (events : List (Nat × Event))
    (doc : List Scene × TreatmentMap) :
    (events.filter fun e => !e.2.isSnapshot).foldl (localEdit readOnly) doc =
      events.foldl (localEdit readOnly) doc := by
  induction events generalizing doc with
  | nil => rfl
  | cons e es ih =>
    rw [List.filter_cons]
    by_cases hs : e.2.isSnapshot = true
    · have hid : localEdit readOnly doc e = doc := by
        obtain ⟨now, ev⟩ := e
        cases ev <;> simp_all [Event.isSnapshot, localEdit]
      simp [hs, ih, hid]
    · simp [hs, ih]

end TratamientoLemmas

/-! ## Lemmas on the treatment editor's autosave timer -/

section TratamientoTimer

open TratamientoTab

theorem tra_autosaveEffect_arms (now : Nat) (st : State) (h : st.isFirstLoad = false)
    (hs : SingleTimer st) :
    autosaveEffect now st =
      { st with
        timers := [{ id := st.nextTimer, due := now + 1000, props := st.props,
                     doc := st.treatments }]
        nextTimer := st.nextTimer + 1
        cleanup := some st.nextTimer } := by
  have hc : (runCleanup st).timers = [] := by
    unfold runCleanup
    rcases hs with h0 | ⟨t, ht, hcl⟩
    · cases st.cleanup <;> simp [h0]
    · simp [hcl, ht]
  obtain ⟨h0, h1, h2, h3, h4, h5, h6, h7, h8⟩ := tra_runCleanup_frame st
  unfold autosaveEffect
  simp only [h3, h, Bool.false_eq_true, if_false, hc, List.nil_append, h1, h2, h8]
  have hcases : runCleanup st = { st with timers := [], cleanup := (runCleanup st).cleanup } := by
    cases hr : runCleanup st
    simp_all
  rw [hcases]

theorem tra_advanceTo_idle (time : Nat) (st : State)
    (h : ∀ t ∈ st.timers, time < t.due) : advanceTo time st = st := by
  have : (st.timers.filter fun t => t.due ≤ time) = [] := by
    rw [List.filter_eq_nil_iff]
    intro t ht
    have := h t ht
    simp
    omega
  simp [advanceTo, this]

theorem tra_advanceTo_due (time : Nat) (st : State) (t : Timer TreatmentMap)
    (ht : st.timers = [t]) (hdue : t.due ≤ time) : advanceTo time st = fire t st := by
  simp [advanceTo, ht, hdue]

theorem tra_advanceTo_single (time : Nat) (st : State) (hs : SingleTimer st) :
    SingleTimer (advanceTo time st) := by
  rcases hs with h0 | ⟨t, ht, hcl⟩
  · rw [tra_advanceTo_idle time st (by simp [h0])]
    exact Or.inl h0
  · by_cases hdue : t.due ≤ time
    · rw [tra_advanceTo_due time st t ht hdue]
      left
      rw [(tra_fire_frame t st).2.2.2.2.1, ht]
      simp
    · rw [tra_advanceTo_idle time st (by simp [ht]; omega)]
      exact Or.inr ⟨t, ht, hcl⟩

theorem tra_armed_single (st : State) (t : Nat) (h : Armed st t) : SingleTimer st := by
  obtain ⟨handle, ht, hc⟩ := h
  exact Or.inr ⟨_, ht, hc⟩

theorem tra_setTreatments_arms (now : Nat) (v : TreatmentMap) (st : State)
    (h : st.isFirstLoad = false) (hs : SingleTimer st) :
    Armed (setTreatments now v st) now ∧ (setTreatments now v st).treatments = v ∧
    (setTreatments now v st).scenes = st.scenes ∧
    (setTreatments now v st).props = st.props ∧ (setTreatments now v st).writes = st.writes ∧
    (setTreatments now v st).isFirstLoad = false := by
  have h' : ({ st with treatments := v } : State).isFirstLoad = false := h
  have hs' : SingleTimer ({ st with treatments := v } : State) := hs
  unfold setTreatments
  rw [tra_autosaveEffect_arms now _ h' hs']
  exact ⟨⟨st.nextTimer, rfl, rfl⟩, rfl, rfl, rfl, rfl, h⟩

theorem tra_setTreatments_single (now : Nat) (v : TreatmentMap) (st : State)
    (h : st.isFirstLoad = false) (hs : SingleTimer st) :
    SingleTimer (setTreatments now v st) :=
  tra_armed_single _ now (tra_setTreatments_arms now v st h hs).1

theorem tra_edit_arms (now : Nat) (e : Event) (st : State) (he : e.isEdit = true)
    (h : st.isFirstLoad = false) (hs : SingleTimer st) (hro : st.props.readOnly = false) :
    Armed (handle now e st) now ∧
    ((handle now e st).scenes, (handle now e st).treatments) =
      localEdit false (st.scenes, st.treatments) (now, e) ∧
    (handle now e st).props = st.props ∧
    (handle now e st).writes.filter Write.isAutosave = st.writes.filter Write.isAutosave ∧
    (e.isTextEdit = true → (handle now e st).writes = st.writes) ∧
    (handle now e st).isFirstLoad = false := by
  cases e with
  | updateTreatment id newText =>
    obtain ⟨a1, a2, a3, a4, a5, a6⟩ :=
      tra_setTreatments_arms now (setKey st.treatments id newText) st h hs
    simp only [handle, updateTreatmentStep, updateTreatmentResult, hro, Bool.false_eq_true,
      if_false, localEdit, updateTreatment, Option.getD_some]
    exact ⟨a1, by rw [a2, a3], a4, by rw [a5], fun _ => a5, a6⟩
  | addScene index =>
    cases hpr : st.props.project with
    | none =>
      obtain ⟨a1, a2, a3, a4, a5, a6⟩ :=
        tra_setTreatments_arms now (newTreatments now st.treatments)
          { st with scenes := reorderedScenes now index st.scenes, saving := false } h hs
      simp only [handle, addSceneStep, hro, Bool.false_eq_true, if_false, hpr, localEdit,
        addScene]
      exact ⟨a1, by rw [a2, a3], a4, by rw [a5], fun _ => a5, a6⟩
    | some project =>
      obtain ⟨a1, a2, a3, a4, a5, a6⟩ :=
        tra_setTreatments_arms now (newTreatments now st.treatments)
          { st with
            scenes := reorderedScenes now index st.scenes
            saving := true
            writes := st.writes ++
              [{ time := now, rowId := project.id,
                 patch := { escaleta_data := some (reorderedScenes now index st.scenes),
                            tratamiento_data := some (newTreatments now st.treatments),
                            last_state := none } }]
            pending := st.pending ++
              [{ patch := { escaleta_data := some (reorderedScenes now index st.scenes),
                            tratamiento_data := some (newTreatments now st.treatments),
                            last_state := none },
                 onUpdateProject := st.props.onUpdateProject }] } h hs
      simp only [handle, addSceneStep, hro, Bool.false_eq_true, if_false, hpr, localEdit,
        addScene]
      refine ⟨a1, by rw [a2, a3], a4, ?_, ?_, a6⟩
      · rw [a5]
        simp [Write.isAutosave]
      · intro hte
        simp [Event.isTextEdit] at hte
  | setProject _ => simp [Event.isEdit] at he
  | respond _ => simp [Event.isEdit] at he

theorem tra_armed_idle (st : State) (t time : Nat) (h : Armed st t) (hlt : time < t + 1000) :
    advanceTo time st = st := by
  obtain ⟨handle, ht, _⟩ := h
  apply tra_advanceTo_idle
  intro u hu
  rw [ht] at hu
  simp at hu
  rw [hu]
  exact hlt

theorem tra_armed_fire (st : State) (t time : Nat) (p : Project) (h : Armed st t)
    (hp : st.props.project = some p) (hro : st.props.readOnly = false)
    (hle : t + 1000 ≤ time) :
    (advanceTo time st).writes = st.writes ++
      [{ time := t + 1000, rowId := p.id,
         patch := { escaleta_data := none, tratamiento_data := some st.treatments,
                    last_state := none } }] ∧
    (advanceTo time st).timers = [] ∧ (advanceTo time st).treatments = st.treatments := by
  obtain ⟨handle, ht, _⟩ := h
  rw [tra_advanceTo_due time st _ ht hle]
  simp [fire, timerCallback, saveTreatments, hp, hro, ht]

theorem tra_burst (es : List (Nat × Event)) (st : State) (t : Nat)
    (h : st.isFirstLoad = false) (hro : st.props.readOnly = false) (ha : Armed st t)
    (hb : Burst t es) :
    (run st es).isFirstLoad = false ∧ (run st es).props = st.props ∧
    Armed (run st es) (lastTime t es) ∧
    (run st es).writes.filter Write.isAutosave = st.writes.filter Write.isAutosave ∧
    ((∀ e ∈ es, e.2.isTextEdit = true) → (run st es).writes = st.writes) ∧
    ((run st es).scenes, (run st es).treatments) =
      es.foldl (localEdit false) (st.scenes, st.treatments) := by
  induction es generalizing st t with
  | nil => exact ⟨h, rfl, ha, rfl, fun _ => rfl, rfl⟩
  | cons e es ih =>
    obtain ⟨he, _, hlt, hb'⟩ := hb
    have hstep : step st e = handle e.1 e.2 st := by
      unfold step
      rw [tra_armed_idle st t e.1 ha hlt]
    obtain ⟨a1, a2, a3, a4, a4', a5⟩ :=
      tra_edit_arms e.1 e.2 st he h (tra_armed_single st t ha) hro
    rw [← hstep] at a1 a2 a3 a4 a4' a5
    obtain ⟨i1, i2, i3, i4, i4', i5⟩ := ih (step st e) e.1 a5 (by rw [a3]; exact hro) a1 hb'
    simp only [run, List.foldl_cons, lastTime] at i1 i2 i3 i4 i4' i5 ⊢
    refine ⟨i1, i2.trans a3, i3, i4.trans a4, ?_, ?_⟩
    · intro hall
      rw [i4' fun x hx => hall x (List.mem_cons_of_mem _ hx)]
      exact a4' (hall e (List.mem_cons_self _ _))
    · rw [i5, a2]

theorem tra_handle_single (now : Nat) (e : Event) (st : State) (h : st.isFirstLoad = false)
    (hs : SingleTimer st) : SingleTimer (handle now e st) := by
  cases e with
  | setProject project =>
    simp only [handle]
    rw [tra_setProject_latched now project st h]
    exact hs
  | updateTreatment id newText =>
    cases hro : st.props.readOnly with
    | true =>
      simp only [handle, updateTreatmentStep, updateTreatmentResult, hro, if_true]
      exact hs
    | false =>
      simp only [handle, updateTreatmentStep, updateTreatmentResult, hro, Bool.false_eq_true,
        if_false]
      exact tra_armed_single _ now (tra_setTreatments_arms now _ st h hs).1
  | addScene index =>
    cases hro : st.props.readOnly with
    | true =>
      simp only [handle, addSceneStep, hro, if_true]
      exact hs
    | false =>
      cases hpr : st.props.project with
      | none =>
        simp only [handle, addSceneStep, hro, hpr, Bool.false_eq_true, if_false]
        exact tra_setTreatments_single now _ _ h hs
      | some project =>
        simp only [handle, addSceneStep, hro, hpr, Bool.false_eq_true, if_false]
        exact tra_setTreatments_single now _ _ h hs
  | respond error =>
    simp only [handle, TratamientoTab.respond]
    cases st.pending <;> exact hs

theorem tra_run_single (events : List (Nat × Event)) (st : State)
    (h : st.isFirstLoad = false) (hs : SingleTimer st) : SingleTimer (run st events) := by
  induction events generalizing st with
  | nil => exact hs
  | cons e es ih =>
    have h1 : (advanceTo e.1 st).isFirstLoad = false :=
      (tra_advanceTo_frame e.1 st).2.2.2.1.trans h
    have h2 := tra_advanceTo_single e.1 st hs
    exact ih (step st e) (tra_handle_local e.1 e.2 _ h1).2.2 (tra_handle_single e.1 e.2 _ h1 h2)

theorem tra_mount_armed (now : Nat) (props : Props) :
    Armed (mount now props) now ∧ (mount now props).isFirstLoad = false ∧
    (mount now props).props = props ∧ (mount now props).writes = [] ∧
    (mount now props).treatments = seedTreatments props.project := by
  have h0 : (autosaveEffect now (loadEffect (initial props)).1).isFirstLoad = false := by
    simp [loadEffect, initial]
  have hs0 : SingleTimer (autosaveEffect now (loadEffect (initial props)).1) := by
    rw [tra_autosaveEffect_arms now _ (by simp [loadEffect, initial])
      (Or.inl (by simp [loadEffect, initial]))]
    exact Or.inr ⟨_, rfl, rfl⟩
  have hq : (loadEffect (initial props)).2 =
      some (seedScenes props.project, seedTreatments props.project) := by
    simp [loadEffect, initial]
  obtain ⟨a1, a2, _, a3, a4, a5⟩ := tra_setTreatments_arms now (seedTreatments props.project)
    { autosaveEffect now (loadEffect (initial props)).1 with
      scenes := seedScenes props.project } h0 hs0
  unfold mount
  simp only [hq, flush]
  refine ⟨a1, a5, ?_, ?_, a2⟩
  · rw [a3]; simp [loadEffect, initial]
  · rw [a4]; simp [loadEffect, initial]

end TratamientoTimer

/-! ## A burst of edits, from its first edit to the save -/

theorem esc_burst_from (st : EscaletaTab.State) (e0 : Nat × EscaletaTab.Event)
    (rest : List (Nat × EscaletaTab.Event)) (h : st.isFirstLoad = false)
    (hs : EscaletaTab.SingleTimer st) (hro : st.props.readOnly = false)
    (he : e0.2.isEdit = true) (hb : EscaletaTab.Burst e0.1 rest) :
    EscaletaTab.Armed (EscaletaTab.run st (e0 :: rest)) (EscaletaTab.lastTime e0.1 rest) ∧
    (EscaletaTab.run st (e0 :: rest)).props = st.props ∧
    (EscaletaTab.run st (e0 :: rest)).writes = (EscaletaTab.advanceTo e0.1 st).writes ∧
    (EscaletaTab.run st (e0 :: rest)).scenes =
      (e0 :: rest).foldl (EscaletaTab.localEdit false) st.scenes := by
  obtain ⟨p1, p2, p3, _, _⟩ := esc_advanceTo_frame e0.1 st
  have hs' := esc_advanceTo_single e0.1 st hs
  obtain ⟨a1, a2, a3, a4, a5⟩ := esc_edit_arms e0.1 e0.2 (EscaletaTab.advanceTo e0.1 st) he
    (p3.trans h) hs' (by rw [p2]; exact hro)
  obtain ⟨_, i2, i3, i4, i5⟩ := esc_burst rest (EscaletaTab.step st e0) e0.1 a5
    (by rw [show (EscaletaTab.step st e0).props = _ from a3, p2]; exact hro) a1 hb
  refine ⟨i3, ?_, ?_, ?_⟩
  · exact i2.trans (a3.trans p2)
  · exact i4.trans a4
  · simp only [List.foldl_cons]
    rw [← p1, ← show (EscaletaTab.step st e0).scenes = _ from a2]
    exact i5

theorem tra_burst_from (st : TratamientoTab.State) (e0 : Nat × TratamientoTab.Event)
    (rest : List (Nat × TratamientoTab.Event)) (h : st.isFirstLoad = false)
    (hs : TratamientoTab.SingleTimer st) (hro : st.props.readOnly = false)
    (he : e0.2.isEdit = true) (hb : TratamientoTab.Burst e0.1 rest) :
    TratamientoTab.Armed (TratamientoTab.run st (e0 :: rest))
      (TratamientoTab.lastTime e0.1 rest) ∧
    (TratamientoTab.run st (e0 :: rest)).props = st.props ∧
    (TratamientoTab.run st (e0 :: rest)).writes.filter TratamientoTab.Write.isAutosave =
      (TratamientoTab.advanceTo e0.1 st).writes.filter TratamientoTab.Write.isAutosave ∧
    ((∀ e ∈ e0 :: rest, e.2.isTextEdit = true) →
      (TratamientoTab.run st (e0 :: rest)).writes = (TratamientoTab.advanceTo e0.1 st).writes) ∧
    ((TratamientoTab.run st (e0 :: rest)).scenes,
        (TratamientoTab.run st (e0 :: rest)).treatments) =
      (e0 :: rest).foldl (TratamientoTab.localEdit false) (st.scenes, st.treatments) := by
  obtain ⟨p0, p1, p2, p3, _, _⟩ := tra_advanceTo_frame e0.1 st
  have hs' := tra_advanceTo_single e0.1 st hs
  obtain ⟨a1, a2, a3, a4, a4', a5⟩ := tra_edit_arms e0.1 e0.2 (TratamientoTab.advanceTo e0.1 st)
    he (p3.trans h) hs' (by rw [p2]; exact hro)
  obtain ⟨_, i2, i3, i4, i4', i5⟩ := tra_burst rest (TratamientoTab.step st e0) e0.1 a5
    (by rw [show (TratamientoTab.step st e0).props = _ from a3, p2]; exact hro) a1 hb
  refine ⟨i3, ?_, ?_, ?_, ?_⟩
  · exact i2.trans (a3.trans p2)
  · exact i4.trans a4
  · intro hall
    have h1 := i4' fun x hx => hall x (List.mem_cons_of_mem _ hx)
    have h2 := a4' (hall e0 (List.mem_cons_self _ _))
    exact h1.trans h2
  · simp only [List.foldl_cons]
    rw [← p0, ← p1, ← show ((TratamientoTab.step st e0).scenes,
      (TratamientoTab.step st e0).treatments) = _ from a2]
    exact i5

/-- For every project and mount time, with the read-only flag off and no edit at
all, the timer set while seeding runs 1000 ms after the mount and sends the seeded
document to the store. -/
theorem mount_is_followed_by_a_save (now time : Nat) (p : Project) (callback : Bool)
    (hle : now + 1000 ≤ time) :
    (EscaletaTab.advanceTo time
        (EscaletaTab.mount now
          { project := some p, readOnly := false, onUpdateProject := callback })).writes =
      [{ time := now + 1000, rowId := p.id,
         patch := { escaleta_data := some (EscaletaTab.seed now (some p)),
                    tratamiento_data := none, last_state := none } }] ∧
    (TratamientoTab.advanceTo time
        (TratamientoTab.mount now
          { project := some p, readOnly := false, onUpdateProject := callback })).writes =
      [{ time := now + 1000, rowId := p.id,
         patch := { escaleta_data := none,
                    tratamiento_data := some (TratamientoTab.seedTreatments (some p)),
                    last_state := none } }] := by
  constructor
  · obtain ⟨a1, _, a3, a4, a5⟩ := esc_mount_armed now
      { project := some p, readOnly := false, onUpdateProject := callback }
    obtain ⟨w, _, _⟩ := esc_armed_fire _ now time p a1 (by rw [a3]) (by rw [a3]) hle
    rw [w, a4, a5]
    rfl
  · obtain ⟨a1, _, a3, a4, a5⟩ := tra_mount_armed now
      { project := some p, readOnly := false, onUpdateProject := callback }
    obtain ⟨w, _, _⟩ := tra_armed_fire _ now time p a1 (by rw [a3]) (by rw [a3]) hle
    rw [w, a4, a5]
    rfl

/-! ## Lemmas on scaling and tiling -/

theorem eraseIdx_length_append_singleton {α : Type} (l : List α) (a : α) :
    (l ++ [a]).eraseIdx l.length = l := by
  induction l with
  | nil => rfl
  | cons x xs ih => simp [List.eraseIdx, ih]

theorem orElse_zero (a : Nat) : orElse a 0 = a := by
  unfold orElse
  split <;> omega

theorem orElse_pos_right (a b : Nat) (hb : 0 < b) : 0 < orElse a b := by
  unfold orElse
  split <;> omega

theorem scale_facts (H C : Nat) (hH : 0 < H) (hC : 0 < C) :
    0 < min 1 ((H : ℚ) / (C : ℚ)) ∧ min 1 ((H : ℚ) / (C : ℚ)) ≤ 1 ∧
    (C : ℚ) * min 1 ((H : ℚ) / (C : ℚ)) ≤ (H : ℚ) ∧
    (min 1 ((H : ℚ) / (C : ℚ)) = 1 ↔ C ≤ H) ∧
    100 / min 1 ((H : ℚ) / (C : ℚ)) * min 1 ((H : ℚ) / (C : ℚ)) = 100 := by
  have hHq : (0 : ℚ) < H := by exact_mod_cast hH
  have hCq : (0 : ℚ) < C := by exact_mod_cast hC
  have hx : (0 : ℚ) < (H : ℚ) / (C : ℚ) := div_pos hHq hCq
  have hs : 0 < min 1 ((H : ℚ) / (C : ℚ)) := lt_min one_pos hx
  refine ⟨hs, min_le_left _ _, ?_, ?_, ?_⟩
  · calc (C : ℚ) * min 1 ((H : ℚ) / (C : ℚ)) ≤ (C : ℚ) * ((H : ℚ) / (C : ℚ)) :=
          mul_le_mul_of_nonneg_left (min_le_right _ _) hCq.le
      _ = (H : ℚ) := by field_simp
  · rw [min_eq_left_iff, one_le_div hCq]
    exact_mod_cast Iff.rfl
  · exact div_mul_cancel₀ _ hs.ne'

theorem clones_cover (H R : ℚ) (hH : 0 < H) (hR : 0 < R) :
    ((max 0 (⌈H / R⌉ - 1)).toNat : ℤ) = ⌈H / R⌉ - 1 ∧
    H ≤ (((max 0 (⌈H / R⌉ - 1)).toNat : ℚ) + 1) * R ∧
    ((max 0 (⌈H / R⌉ - 1)).toNat : ℚ) * R < H := by
  have hx : 0 < H / R := div_pos hH hR
  have hceil : 0 < ⌈H / R⌉ := Int.ceil_pos.2 hx
  have hk : ((max 0 (⌈H / R⌉ - 1)).toNat : ℤ) = ⌈H / R⌉ - 1 := by
    rw [Int.toNat_of_nonneg (le_max_left _ _)]
    exact max_eq_right (by omega)
  have hkq : ((max 0 (⌈H / R⌉ - 1)).toNat : ℚ) = (⌈H / R⌉ : ℚ) - 1 := by
    have h1 : (((max 0 (⌈H / R⌉ - 1)).toNat : ℤ) : ℚ) = ((⌈H / R⌉ - 1 : ℤ) : ℚ) := by
      rw [hk]
    rw [Int.cast_natCast] at h1
    rw [h1]
    push_cast
    rfl
  refine ⟨hk, ?_, ?_⟩
  · rw [hkq, sub_add_cancel]
    have := Int.le_ceil (H / R)
    calc H = H / R * R := by field_simp
      _ ≤ (⌈H / R⌉ : ℚ) * R := by gcongr
  · rw [hkq]
    have := Int.ceil_lt_add_one (H / R)
    calc ((⌈H / R⌉ : ℚ) - 1) * R < H / R * R := by
          apply mul_lt_mul_of_pos_right _ hR
          linarith
      _ = H := by field_simp

theorem clones_zero_of_row_ge (k : Nat) (H R : ℚ) (hH : 0 < H) (hcover : (k : ℚ) * R < H)
    (hR : H ≤ R) : k = 0 := by
  by_contra hne
  have hk : (1 : ℚ) ≤ (k : ℚ) := by exact_mod_cast Nat.one_le_iff_ne_zero.2 hne
  have hRpos : 0 < R := lt_of_lt_of_le hH hR
  have : R ≤ (k : ℚ) * R := by
    calc R = 1 * R := (one_mul R).symm
      _ ≤ (k : ℚ) * R := mul_le_mul_of_nonneg_right hk hRpos.le
  linarith

/-! ## Lemmas on the banner's reloads and retries -/

section BannerLemmas

open EditorAdBanner

@[simp] theorem ban_remount_lastReloadAt (now : Nat) (st : State) :
    (remount now st).lastReloadAt = st.lastReloadAt := rfl

@[simp] theorem ban_remount_refreshKey (now : Nat) (st : State) :
    (remount now st).refreshKey = st.refreshKey + 1 := rfl

@[simp] theorem ban_remount_retryCount (now : Nat) (st : State) :
    (remount now st).retryCount = st.retryCount := rfl

theorem ban_scheduleRetry_lastReloadAt (now : Nat) (st : State) :
    (scheduleRetry now st).lastReloadAt = st.lastReloadAt := by
  unfold scheduleRetry
  split
  · rfl
  · split <;> rfl

theorem ban_fire_lastReloadAt (t : RetryTimer) (st : State) :
    (fire t st).lastReloadAt = st.lastReloadAt := by
  unfold fire
  rw [ban_scheduleRetry_lastReloadAt]

theorem ban_advanceFuel_lastReloadAt (fuel time : Nat) (st : State) :
    (advanceFuel fuel time st).lastReloadAt = st.lastReloadAt := by
  induction fuel generalizing st with
  | zero => rfl
  | succ n ih =>
    unfold advanceFuel
    cases nextDue time st.timers with
    | none => rfl
    | some t =>
      simp only
      rw [ih, ban_fire_lastReloadAt]

theorem ban_advanceTo_lastReloadAt (time : Nat) (st : State) :
    (advanceTo time st).lastReloadAt = st.lastReloadAt :=
  ban_advanceFuel_lastReloadAt _ time st

theorem ban_requestReload_ignored (now : Nat) (st : State)
    (h : (now : Int) - (st.lastReloadAt : Int) < 250) : requestReload now st = st := by
  simp [requestReload, h]

theorem ban_requestReload_honored (now : Nat) (st : State)
    (h : 250 ≤ (now : Int) - (st.lastReloadAt : Int)) :
    requestReload now st = remount now { st with lastReloadAt := now, retryCount := 0 } := by
  have : ¬ ((now : Int) - (st.lastReloadAt : Int) < 250) := by omega
  simp [requestReload, this]

theorem ban_honoredTimes_spaced (events : List (Nat × Event)) (st : State) :
    (honoredTimes st events).Pairwise (fun a b => a + 250 ≤ b) ∧
    ∀ a ∈ honoredTimes st events, st.lastReloadAt + 250 ≤ a := by
  induction events generalizing st with
  | nil => simp [honoredTimes]
  | cons e es ih =>
    obtain ⟨now, ev⟩ := e
    have hpre := ban_advanceTo_lastReloadAt now st
    cases ev with
    | adRendered c =>
      obtain ⟨i1, i2⟩ := ih (step st (now, .adRendered c))
      have hl : (step st (now, Event.adRendered c)).lastReloadAt = st.lastReloadAt := by
        simp [step, handle, hpre]
      rw [hl] at i2
      simp only [honoredTimes, reduceCtorEq, false_and, if_false, List.nil_append]
      exact ⟨i1, i2⟩
    | requestReload =>
      by_cases hlt : (now : Int) - ((advanceTo now st).lastReloadAt : Int) < 250
      · have hst : step st (now, Event.requestReload) = advanceTo now st := by
          simp [step, handle, ban_requestReload_ignored now _ hlt]
        obtain ⟨i1, i2⟩ := ih (step st (now, .requestReload))
        have hl : (step st (now, Event.requestReload)).lastReloadAt = st.lastReloadAt := by
          rw [hst, hpre]
        rw [hl] at i2
        have hno : ¬ ((handle now Event.requestReload (advanceTo now st)).refreshKey =
            (advanceTo now st).refreshKey + 1) := by
          simp [handle, ban_requestReload_ignored now _ hlt]
        simp only [honoredTimes, hno, and_false, if_false, List.nil_append]
        exact ⟨i1, i2⟩
      · have hge : 250 ≤ (now : Int) - ((advanceTo now st).lastReloadAt : Int) := by omega
        have hst : (step st (now, Event.requestReload)).lastReloadAt = now := by
          simp [step, handle, ban_requestReload_honored now _ hge]
        obtain ⟨i1, i2⟩ := ih (step st (now, .requestReload))
        rw [hst] at i2
        have hyes : (handle now Event.requestReload (advanceTo now st)).refreshKey =
            (advanceTo now st).refreshKey + 1 := by
          simp [handle, ban_requestReload_honored now _ hge]
        simp only [honoredTimes, hyes, and_self, if_true, List.singleton_append]
        rw [hpre] at hge
        refine ⟨List.pairwise_cons.2 ⟨i2, i1⟩, ?_⟩
        intro a ha
        rcases List.mem_cons.1 ha with h | h
        · subst h
          omega
        · have := i2 a h
          omega

theorem ban_foldl_earlier_some (l : List RetryTimer) (acc : Option RetryTimer)
    (t : RetryTimer) (h : l.foldl earlier acc = some t) : acc = some t ∨ t ∈ l := by
  induction l generalizing acc with
  | nil => exact Or.inl h
  | cons u us ih =>
    rcases ih (earlier acc u) h with h1 | h1
    · cases acc with
      | none =>
        simp only [earlier, Option.some.injEq] at h1
        exact Or.inr (h1 ▸ List.mem_cons_self _ _)
      | some b =>
        simp only [earlier] at h1
        split at h1
        · simp only [Option.some.injEq] at h1
          exact Or.inr (h1 ▸ List.mem_cons_self _ _)
        · exact Or.inl h1
    · exact Or.inr (List.mem_cons_of_mem _ h1)

theorem ban_foldl_earlier_none (l : List RetryTimer) (acc : Option RetryTimer)
    (h : l.foldl earlier acc = none) : acc = none ∧ l = [] := by
  induction l generalizing acc with
  | nil => exact ⟨h, rfl⟩
  | cons u us ih =>
    have := (ih (earlier acc u) h).1
    cases acc with
    | none => simp [earlier] at this
    | some b =>
      simp only [earlier] at this
      split at this <;> simp at this

theorem ban_nextDue_mem (time : Nat) (ts : List RetryTimer) (t : RetryTimer)
    (h : nextDue time ts = some t) : t ∈ ts := by
  rcases ban_foldl_earlier_some _ none t h with h1 | h1
  · simp at h1
  · exact (List.mem_filter.1 h1).1

theorem ban_nextDue_none_of_empty (time : Nat) : nextDue time [] = none := rfl

theorem ban_scheduleRetry_cases (now : Nat) (st : State) :
    scheduleRetry now st = st ∨
    (st.retryCount < 3 ∧
      scheduleRetry now st = remount now { st with retryCount := st.retryCount + 1 }) := by
  unfold scheduleRetry
  by_cases h : st.retryCount ≥ 3
  · left; simp [h]
  · by_cases hr : isRenderable st.container = true
    · left; simp [h, hr]
    · right
      refine ⟨by omega, ?_⟩
      simp [h, hr]

theorem ban_remount_timers_length (now : Nat) (st : State) :
    (remount now st).timers.length ≤ st.timers.length + 2 := by
  simp only [remount, mountEffect, clearRetryTimers, List.length_append, List.length_cons,
    List.length_nil]
  have h1 := List.length_filter_le (fun t : RetryTimer => decide (t.handle ∉ st.retryTimers))
    st.timers
  have h2 := List.length_filter_le (fun t : RetryTimer => decide (t.handle ∉ ([] : List Nat)))
    (st.timers.filter fun t => decide (t.handle ∉ st.retryTimers))
  omega

theorem ban_fire_fuelBound (t : RetryTimer) (st : State) (ht : t ∈ st.timers) :
    fuelBound (fire t st) < fuelBound st := by
  have hlen : (st.timers.filter fun u => u.handle ≠ t.handle).length < st.timers.length := by
    apply List.length_filter_lt_length_iff_exists.2
    exact ⟨t, ht, by simp⟩
  unfold fire
  rcases ban_scheduleRetry_cases t.due
    { st with timers := st.timers.filter fun u => u.handle ≠ t.handle } with h | ⟨hlt, h⟩
  · rw [h]
    simp only [fuelBound]
    omega
  · rw [h]
    have hr := ban_remount_timers_length t.due
      { st with
        timers := st.timers.filter fun u => u.handle ≠ t.handle
        retryCount := st.retryCount + 1 }
    simp only [fuelBound, ban_remount_retryCount] at hr hlt ⊢
    omega

theorem ban_advanceFuel_settled (fuel time : Nat) (st : State) (h : fuelBound st ≤ fuel) :
    nextDue time (advanceFuel fuel time st).timers = none := by
  induction fuel generalizing st with
  | zero =>
    have : st.timers = [] := by
      apply List.eq_nil_of_length_eq_zero
      simp only [fuelBound] at h
      omega
    simp [advanceFuel, this, ban_nextDue_none_of_empty]
  | succ n ih =>
    unfold advanceFuel
    cases hn : nextDue time st.timers with
    | none => simpa using hn
    | some t =>
      simp only
      apply ih
      have := ban_fire_fuelBound t st (ban_nextDue_mem time _ t hn)
      omega

theorem ban_fire_quiet (t : RetryTimer) (st : State)
    (h : 3 ≤ st.retryCount ∨ isRenderable st.container = true) :
    (fire t st).refreshKey = st.refreshKey ∧ (fire t st).retryCount = st.retryCount ∧
    (fire t st).container = st.container := by
  unfold fire scheduleRetry
  rcases h with h | h
  · simp [h]
  · by_cases h3 : st.retryCount ≥ 3
    · simp [h3]
    · simp [h3, h]

theorem ban_advanceFuel_quiet (fuel time : Nat) (st : State)
    (h : 3 ≤ st.retryCount ∨ isRenderable st.container = true) :
    (advanceFuel fuel time st).refreshKey = st.refreshKey ∧
    (advanceFuel fuel time st).retryCount = st.retryCount := by
  induction fuel generalizing st with
  | zero => exact ⟨rfl, rfl⟩
  | succ n ih =>
    unfold advanceFuel
    cases nextDue time st.timers with
    | none => exact ⟨rfl, rfl⟩
    | some t =>
      simp only
      obtain ⟨f1, f2, f3⟩ := ban_fire_quiet t st h
      obtain ⟨i1, i2⟩ := ih (fire t st) (by rw [f2, f3]; exact h)
      exact ⟨i1.trans f1, i2.trans f2⟩

theorem ban_waiting_idle (t k h time : Nat) (hlt : time < t + 600) :
    nextDue time (waiting t k h).timers = none := by
  have h1 : ¬ (t + 600 ≤ time) := by omega
  have h2 : ¬ (t + 1800 ≤ time) := by omega
  simp [nextDue, waiting, List.filter_cons, h1, h2]

theorem ban_waiting_due (t k h time : Nat) (hle : t + 600 ≤ time) :
    nextDue time (waiting t k h).timers = some { handle := h, due := t + 600 } := by
  by_cases h2 : t + 1800 ≤ time
  · simp [nextDue, waiting, List.filter_cons, hle, h2, earlier]
  · simp [nextDue, waiting, List.filter_cons, hle, h2, earlier]

theorem ban_waiting_fire (t k h : Nat) (hk : k < 3) :
    fire { handle := h, due := t + 600 } (waiting t k h) = waiting (t + 600) (k + 1) (h + 2) := by
  have hk' : ¬ (3 ≤ k) := by omega
  simp [fire, waiting, scheduleRetry, hk', isRenderable, emptyContainer, remount, mountEffect,
    clearRetryTimers, List.filter_cons]

theorem ban_waiting_step (fuel t k h time : Nat) (hk : k < 3) (hle : t + 600 ≤ time) :
    advanceFuel (fuel + 1) time (waiting t k h) =
      advanceFuel fuel time (waiting (t + 600) (k + 1) (h + 2)) := by
  rw [advanceFuel, ban_waiting_due t k h time hle]
  simp only
  rw [ban_waiting_fire t k h hk]

theorem ban_waiting_stop (fuel t k h time : Nat) (hlt : time < t + 600) :
    advanceFuel fuel time (waiting t k h) = waiting t k h := by
  cases fuel with
  | zero => rfl
  | succ n =>
    rw [advanceFuel, ban_waiting_idle t k h time hlt]

theorem ban_nextDue_pair_idle (t h time : Nat) (hlt : time < t + 600) :
    nextDue time [{ handle := h, due := t + 600 }, { handle := h + 1, due := t + 1800 }] =
      none := by
  have h1 : ¬ (t + 600 ≤ time) := by omega
  have h2 : ¬ (t + 1800 ≤ time) := by omega
  simp [nextDue, List.filter_cons, h1, h2]

theorem ban_nextDue_pair_due (t h time : Nat) (hle : t + 600 ≤ time) :
    nextDue time [{ handle := h, due := t + 600 }, { handle := h + 1, due := t + 1800 }] =
      some { handle := h, due := t + 600 } := by
  by_cases h2 : t + 1800 ≤ time
  · simp [nextDue, List.filter_cons, hle, h2, earlier]
  · simp [nextDue, List.filter_cons, hle, h2, earlier]

theorem ban_waits_waiting (t k h : Nat) : Waits (waiting t k h) t k h := by
  refine ⟨rfl, rfl, rfl, rfl, rfl, ?_⟩
  simp [waiting, isRenderable, emptyContainer]

theorem ban_waits_fire (st : State) (t k h : Nat) (hw : Waits st t k h) (hk : k < 3) :
    Waits (fire { handle := h, due := t + 600 } st) (t + 600) (k + 1) (h + 2) := by
  obtain ⟨w1, w2, w3, w4, w5, w6⟩ := hw
  have hk' : ¬ (3 ≤ k) := by omega
  have hfire : fire { handle := h, due := t + 600 } st =
      { st with
        refreshKey := k + 1
        retryCount := k + 1
        retryTimers := [h + 2, h + 2 + 1]
        timers := [{ handle := h + 2, due := t + 600 + 600 },
                   { handle := h + 2 + 1, due := t + 600 + 1800 }]
        nextTimer := h + 2 + 2
        container := some emptyContainer } := by
    simp [fire, scheduleRetry, remount, mountEffect, clearRetryTimers, w1, w2, w3, w4, w5, w6,
      hk', List.filter_cons]
  rw [hfire]
  refine ⟨rfl, rfl, rfl, rfl, rfl, ?_⟩
  simp [isRenderable, emptyContainer]

theorem ban_waits_advance (fuel : Nat) :
    ∀ (st : State) (t k h time : Nat), Waits st t k h → 3 - k ≤ fuel →
      (time < t + 600 → advanceFuel fuel time st = st) ∧
      (t + 600 ≤ time →
        (advanceFuel fuel time st).refreshKey = k + min (3 - k) ((time - t) / 600) ∧
        (advanceFuel fuel time st).retryCount = k + min (3 - k) ((time - t) / 600) ∧
        (k + min (3 - k) ((time - t) / 600) < 3 →
          ∃ h', Waits (advanceFuel fuel time st) (t + 600 * min (3 - k) ((time - t) / 600))
            (k + min (3 - k) ((time - t) / 600)) h')) := by
  induction fuel with
  | zero =>
    intro st t k h time hw hf
    have hk : 3 ≤ k := by omega
    have hmin : min (3 - k) ((time - t) / 600) = 0 := by omega
    refine ⟨fun _ => rfl, fun _ => ?_⟩
    rw [hmin]
    exact ⟨hw.1, hw.2.1, fun hlt => absurd hlt (by omega)⟩
  | succ n ih =>
    intro st t k h time hw hf
    constructor
    · intro hlt
      rw [advanceFuel, hw.2.2.2.1, ban_nextDue_pair_idle t h time hlt]
    · intro hle
      by_cases hk : 3 ≤ k
      · have hmin : min (3 - k) ((time - t) / 600) = 0 := by omega
        obtain ⟨q1, q2⟩ := ban_advanceFuel_quiet (n + 1) time st (Or.inl (by rw [hw.2.1]; exact hk))
        rw [hmin]
        exact ⟨q1.trans hw.1, q2.trans hw.2.1, fun hlt => absurd hlt (by omega)⟩
      · have hstep : advanceFuel (n + 1) time st =
            advanceFuel n time (fire { handle := h, due := t + 600 } st) := by
          rw [advanceFuel, hw.2.2.2.1, ban_nextDue_pair_due t h time hle]
        have hw' := ban_waits_fire st t k h hw (by omega)
        obtain ⟨i1, i2⟩ := ih _ (t + 600) (k + 1) (h + 2) time hw' (by omega)
        rw [hstep]
        by_cases hnext : time < t + 600 + 600
        · have hmin : min (3 - k) ((time - t) / 600) = 1 := by omega
          rw [i1 hnext, hmin]
          refine ⟨hw'.1, hw'.2.1, fun _ => ⟨h + 2, ?_⟩⟩
          simpa using hw'
        · obtain ⟨j1, j2, j3⟩ := i2 (by omega)
          have hmin : min (3 - k) ((time - t) / 600) =
              min (3 - (k + 1)) ((time - (t + 600)) / 600) + 1 := by omega
          rw [hmin]
          refine ⟨by rw [j1]; omega, by rw [j2]; omega, fun hlt => ?_⟩
          obtain ⟨h', hh⟩ := j3 (by omega)
          refine ⟨h', ?_⟩
          have e1 : t + 600 * (min (3 - (k + 1)) ((time - (t + 600)) / 600) + 1) =
              t + 600 + 600 * min (3 - (k + 1)) ((time - (t + 600)) / 600) := by omega
          have e2 : k + (min (3 - (k + 1)) ((time - (t + 600)) / 600) + 1) =
              k + 1 + min (3 - (k + 1)) ((time - (t + 600)) / 600) := by omega
          rw [e1, e2]
          exact hh

theorem ban_retried_mount (t0 : Nat) : RetriedBy (mount t0) t0 t0 := by
  have hm : mount t0 = waiting t0 0 0 := by
    simp [mount, mountEffect, clearRetryTimers, waiting]
  have h0 : min 3 ((t0 - t0) / 600) = 0 := by omega
  unfold RetriedBy
  rw [h0, hm]
  exact ⟨rfl, rfl, fun _ => ⟨0, ban_waits_waiting t0 0 0⟩⟩

theorem ban_retried_advance (st : State) (t0 time later : Nat) (hr : RetriedBy st t0 time)
    (hle : min 3 ((time - t0) / 600) ≤ (later - t0) / 600) :
    RetriedBy (advanceTo later st) t0 later := by
  obtain ⟨n, hn⟩ : ∃ n, n = min 3 ((time - t0) / 600) := ⟨_, rfl⟩
  obtain ⟨r1, r2, r3⟩ := hr
  rw [← hn] at r1 r2 r3 hle
  unfold RetriedBy advanceTo
  by_cases h3 : n < 3
  · obtain ⟨h, hw⟩ := r3 h3
    have hfuel : 3 - n ≤ fuelBound st := by
      simp only [fuelBound, r2]
      omega
    obtain ⟨a1, a2⟩ := ban_waits_advance (fuelBound st) st (t0 + 600 * n) n h later hw hfuel
    by_cases hlt : later < t0 + 600 * n + 600
    · have hsame : min 3 ((later - t0) / 600) = n := by omega
      rw [a1 hlt, hsame]
      exact ⟨r1, r2, fun _ => ⟨h, hw⟩⟩
    · obtain ⟨b1, b2, b3⟩ := a2 (by omega)
      have hsum : n + min (3 - n) ((later - (t0 + 600 * n)) / 600) =
          min 3 ((later - t0) / 600) := by omega
      have htime : t0 + 600 * n + 600 * min (3 - n) ((later - (t0 + 600 * n)) / 600) =
          t0 + 600 * min 3 ((later - t0) / 600) := by omega
      rw [hsum] at b1 b2 b3
      rw [htime] at b3
      exact ⟨b1, b2, b3⟩
  · have hn3 : n = 3 := by omega
    have hlater : min 3 ((later - t0) / 600) = 3 := by omega
    obtain ⟨q1, q2⟩ := ban_advanceFuel_quiet (fuelBound st) later st (Or.inl (by omega))
    rw [hlater]
    exact ⟨by rw [q1, r1, hn3], by rw [q2, r2, hn3], fun hlt => absurd hlt (by omega)⟩

theorem ban_retried_rendered (st : State) (t0 time : Nat) (c : Container)
    (hr : RetriedBy st t0 time) (hc : isRenderable (some c) = false) :
    RetriedBy { st with container := some c } t0 time := by
  obtain ⟨r1, r2, r3⟩ := hr
  refine ⟨r1, r2, fun hlt => ?_⟩
  obtain ⟨h, w1, w2, w3, w4, w5, _⟩ := r3 hlt
  exact ⟨h, w1, w2, w3, w4, w5, hc⟩

theorem ban_retried_run (t0 stop : Nat) (events : List (Nat × Event)) (st : State)
    (start : Nat) (hr : RetriedBy st t0 start) (hempty : StaysEmpty events)
    (htl : Timeline start stop events) :
    ∃ reached, RetriedBy (run st events) t0 reached ∧
      (reached = start ∨ (start ≤ reached ∧ reached ≤ stop)) := by
  induction events generalizing st start with
  | nil => exact ⟨start, hr, Or.inl rfl⟩
  | cons e es ih =>
    obtain ⟨h1, h2, h3⟩ := htl
    obtain ⟨c, hc, hnot⟩ := hempty e (List.mem_cons_self _ _)
    have hadv := ban_retried_advance st t0 start e.1 hr (by omega)
    have hstep : RetriedBy (step st e) t0 e.1 := by
      unfold step
      rw [hc]
      exact ban_retried_rendered _ t0 e.1 c hadv hnot
    obtain ⟨reached, i1, i2⟩ := ih (step st e) e.1 hstep
      (fun x hx => hempty x (List.mem_cons_of_mem _ hx)) h3
    refine ⟨reached, i1, Or.inr ?_⟩
    rcases i2 with i2 | ⟨i2, i3⟩
    · omega
    · omega

end BannerLemmas

/-! ## Lemmas on the saving flag -/

theorem esc_fire_saving (t : Timer (List Scene)) (st : EscaletaTab.State) :
    ∃ extra, (EscaletaTab.fire t st).writes = st.writes ++ extra ∧
      (extra = [] → (EscaletaTab.fire t st).saving = st.saving) := by
  cases hp : t.props.project with
  | none =>
    exact ⟨[], by simp [EscaletaTab.fire, EscaletaTab.timerCallback, hp],
      fun _ => by simp [EscaletaTab.fire, EscaletaTab.timerCallback, hp]⟩
  | some p =>
    cases hr : t.props.readOnly with
    | true =>
      exact ⟨[], by simp [EscaletaTab.fire, EscaletaTab.timerCallback, hp, hr],
        fun _ => by simp [EscaletaTab.fire, EscaletaTab.timerCallback, hp, hr]⟩
    | false =>
      refine ⟨[{ time := t.due, rowId := p.id,
                 patch := { escaleta_data := some t.doc, tratamiento_data := none,
                            last_state := none } }], ?_, fun h => ?_⟩
      · simp [EscaletaTab.fire, EscaletaTab.timerCallback, EscaletaTab.saveData, hp, hr]
      · simp at h

theorem esc_foldl_fire_saving (ts : List (Timer (List Scene))) (st : EscaletaTab.State) :
    ∃ extra, (ts.foldl (fun s t => EscaletaTab.fire t s) st).writes = st.writes ++ extra ∧
      (extra = [] → (ts.foldl (fun s t => EscaletaTab.fire t s) st).saving = st.saving) := by
  induction ts generalizing st with
  | nil => exact ⟨[], by simp, fun _ => rfl⟩
  | cons t ts ih =>
    obtain ⟨e1, w1, s1⟩ := esc_fire_saving t st
    obtain ⟨e2, w2, s2⟩ := ih (EscaletaTab.fire t st)
    refine ⟨e1 ++ e2, ?_, fun h => ?_⟩
    · simp only [List.foldl_cons]
      rw [w2, w1, List.append_assoc]
    · obtain ⟨h1, h2⟩ := List.append_eq_nil.1 h
      simp only [List.foldl_cons]
      rw [s2 h2, s1 h1]

theorem esc_advanceTo_saving (time : Nat) (st : EscaletaTab.State)
    (h : (EscaletaTab.advanceTo time st).writes = st.writes) :
    (EscaletaTab.advanceTo time st).saving = st.saving := by
  obtain ⟨extra, w, sv⟩ := esc_foldl_fire_saving (st.timers.filter fun t => t.due ≤ time) st
  apply sv
  have h' : st.writes ++ extra = st.writes := by
    rw [← w]
    exact h
  simpa using h'

theorem esc_handle_saving (now : Nat) (e : EscaletaTab.Event) (st : EscaletaTab.State)
    (he : ∀ error, e ≠ EscaletaTab.Event.respond error) :
    (EscaletaTab.handle now e st).saving = st.saving := by
  have hauto : ∀ s : EscaletaTab.State, (EscaletaTab.autosaveEffect now s).saving = s.saving :=
    fun s => (esc_autosaveEffect_frame now s).2.2.2.1
  have happly : ∀ r, (EscaletaTab.applyResult now r st).saving = st.saving := by
    intro r
    cases r with
    | none => rfl
    | some v => simp [EscaletaTab.applyResult, EscaletaTab.setScenes, hauto]
  cases e with
  | setProject project =>
    cases hfl : st.isFirstLoad <;>
      simp [EscaletaTab.handle, EscaletaTab.setProject, EscaletaTab.loadEffect,
        EscaletaTab.flush, EscaletaTab.setScenes, hfl, hauto]
  | addScene index => exact happly _
  | updateScene id text => exact happly _
  | deleteScene id => exact happly _
  | handleScroll top =>
    simp only [EscaletaTab.handle, EscaletaTab.handleScroll]
    cases st.props.readOnly <;> cases st.props.onUpdateProject <;> cases st.props.project <;> rfl
  | respond error => exact absurd rfl (he error)

theorem tra_fire_saving (t : Timer TreatmentMap) (st : TratamientoTab.State) :
    ∃ extra, (TratamientoTab.fire t st).writes = st.writes ++ extra ∧
      (extra = [] → (TratamientoTab.fire t st).saving = st.saving) := by
  cases hp : t.props.project with
  | none =>
    exact ⟨[], by simp [TratamientoTab.fire, TratamientoTab.timerCallback, hp],
      fun _ => by simp [TratamientoTab.fire, TratamientoTab.timerCallback, hp]⟩
  | some p =>
    cases hr : t.props.readOnly with
    | true =>
      exact ⟨[], by simp [TratamientoTab.fire, TratamientoTab.timerCallback, hp, hr],
        fun _ => by simp [TratamientoTab.fire, TratamientoTab.timerCallback, hp, hr]⟩
    | false =>
      refine ⟨[{ time := t.due, rowId := p.id,
                 patch := { escaleta_data := none, tratamiento_data := some t.doc,
                            last_state := none } }], ?_, fun h => ?_⟩
      · simp [TratamientoTab.fire, TratamientoTab.timerCallback, TratamientoTab.saveTreatments,
          hp, hr]
      · simp at h

theorem tra_foldl_fire_saving (ts : List (Timer TreatmentMap)) (st : TratamientoTab.State) :
    ∃ extra, (ts.foldl (fun s t => TratamientoTab.fire t s) st).writes = st.writes ++ extra ∧
      (extra = [] → (ts.foldl (fun s t => TratamientoTab.fire t s) st).saving = st.saving) := by
  induction ts generalizing st with
  | nil => exact ⟨[], by simp, fun _ => rfl⟩
  | cons t ts ih =>
    obtain ⟨e1, w1, s1⟩ := tra_fire_saving t st
    obtain ⟨e2, w2, s2⟩ := ih (TratamientoTab.fire t st)
    refine ⟨e1 ++ e2, ?_, fun h => ?_⟩
    · simp only [List.foldl_cons]
      rw [w2, w1, List.append_assoc]
    · obtain ⟨h1, h2⟩ := List.append_eq_nil.1 h
      simp only [List.foldl_cons]
      rw [s2 h2, s1 h1]

theorem tra_advanceTo_saving (time : Nat) (st : TratamientoTab.State)
    (h : (TratamientoTab.advanceTo time st).writes = st.writes) :
    (TratamientoTab.advanceTo time st).saving = st.saving := by
  obtain ⟨extra, w, sv⟩ := tra_foldl_fire_saving (st.timers.filter fun t => t.due ≤ time) st
  apply sv
  have h' : st.writes ++ extra = st.writes := by
    rw [← w]
    exact h
  simpa using h'

theorem tra_handle_saving (now : Nat) (e : TratamientoTab.Event) (st : TratamientoTab.State)
    (he : ∀ error, e ≠ TratamientoTab.Event.respond error)
    (ha : ∀ index, e ≠ TratamientoTab.Event.addScene index) :
    (TratamientoTab.handle now e st).saving = st.saving := by
  cases e with
  | setProject project =>
    cases hfl : st.isFirstLoad <;>
      simp [TratamientoTab.handle, TratamientoTab.setProject, TratamientoTab.loadEffect,
        TratamientoTab.flush, TratamientoTab.setTreatments, hfl]
  | updateTreatment id newText =>
    cases hro : st.props.readOnly <;>
      simp [TratamientoTab.handle, TratamientoTab.updateTreatmentStep,
        TratamientoTab.updateTreatmentResult, TratamientoTab.setTreatments, hro]
  | addScene index => exact absurd rfl (ha index)
  | respond error => exact absurd rfl (he error)

/-! ## The claims -/

/-- C1. In the outline editor the scene at 0-based position `i` has number
`i + 1` after any sequence of `addScene` / `deleteScene` calls, with any index and
id arguments: this holds for a seed that is numbered by position (under any value
of the read-only flag and for every sequence), and for an arbitrary seed as soon as
one call has been made with the read-only flag off. The numbers are then exactly
`1, 2, ..., n`, so there is no gap and no duplicate. -/
theorem scene_numbers_follow_position (readOnly : Bool) (scenes : List Scene)
    (calls : List EscaletaTab.Call)
    (h : Numbered scenes ∨ (readOnly = false ∧ calls ≠ [])) :
    Numbered (EscaletaTab.applyCalls readOnly scenes calls) ∧
    (EscaletaTab.applyCalls readOnly scenes calls).map Scene.number =
      List.range' 1 (EscaletaTab.applyCalls readOnly scenes calls).length ∧
    ((EscaletaTab.applyCalls readOnly scenes calls).map Scene.number).Nodup := by
  have key : Numbered (EscaletaTab.applyCalls readOnly scenes calls) := by
    rcases h with h | ⟨hro, hne⟩
    · exact numbered_applyCalls readOnly calls scenes h
    · subst hro
      cases calls with
      | nil => exact absurd rfl hne
      | cons c cs =>
        exact numbered_applyCalls false cs _
          (numbered_applyCall_false scenes c)
  refine ⟨key, key.map_number, ?_⟩
  rw [key.map_number]
  exact List.nodup_range' _ _

/-- A seed with the wrong number 7, an insertion at the front, a deletion of the
seeded scene and an append: the result is numbered by position. -/
theorem scene_numbers_follow_position_witness :
    (Numbered [⟨1, 7, "x"⟩] ∨
      (false = false ∧
        [EscaletaTab.Call.add 5 (.num (-1)), .delete 1, .add 6 .null] ≠ [])) ∧
    (Numbered (EscaletaTab.applyCalls false [⟨1, 7, "x"⟩]
        [.add 5 (.num (-1)), .delete 1, .add 6 .null]) ∧
      (EscaletaTab.applyCalls false [⟨1, 7, "x"⟩]
        [.add 5 (.num (-1)), .delete 1, .add 6 .null]).map Scene.number =
        List.range' 1 (EscaletaTab.applyCalls false [⟨1, 7, "x"⟩]
          [.add 5 (.num (-1)), .delete 1, .add 6 .null]).length ∧
      ((EscaletaTab.applyCalls false [⟨1, 7, "x"⟩]
        [.add 5 (.num (-1)), .delete 1, .add 6 .null]).map Scene.number).Nodup) :=
  ⟨Or.inr ⟨rfl, by decide⟩,
    scene_numbers_follow_position false [⟨1, 7, "x"⟩]
      [.add 5 (.num (-1)), .delete 1, .add 6 .null] (Or.inr ⟨rfl, by decide⟩)⟩

/-- C2. For a scene list of length `n` and `0 ≤ index < n`, `addScene(index)` with
the read-only flag off, in the outline editor and in the treatment editor, yields a
list of length `n + 1` whose position `index + 1` holds the new blank scene with
number `index + 2`; the scenes formerly at positions `0..index` keep position, id
and description (number `j + 1`), and a scene formerly at `j > index` is at `j + 1`
with number `j + 2` and the same id and description. -/
theorem addScene_inserts_after_index (scenes : List Scene) (now index : Nat)
    (h : index < scenes.length) :
    InsertedAfter scenes now index (EscaletaTab.addScene false now (.num index) scenes) ∧
    InsertedAfter scenes now index (TratamientoTab.addScene false now (.num index) scenes) := by
  rw [escaleta_addScene_num scenes now index h, tratamiento_addScene_num scenes now index h]
  exact ⟨insertedAfter_take_drop scenes now index h, insertedAfter_take_drop scenes now index h⟩

/-- Inserting between scene 2 and scene 3 of a 3-scene list: the new scene gets
number 3 and the old scene 3 gets number 4. -/
theorem addScene_inserts_after_index_witness :
    1 < ([⟨10, 1, "a"⟩, ⟨20, 2, "b"⟩, ⟨30, 3, "c"⟩] : List Scene).length ∧
    (InsertedAfter [⟨10, 1, "a"⟩, ⟨20, 2, "b"⟩, ⟨30, 3, "c"⟩] 99 1
        (EscaletaTab.addScene false 99 (.num (1 : Nat))
          [⟨10, 1, "a"⟩, ⟨20, 2, "b"⟩, ⟨30, 3, "c"⟩]) ∧
      InsertedAfter [⟨10, 1, "a"⟩, ⟨20, 2, "b"⟩, ⟨30, 3, "c"⟩] 99 1
        (TratamientoTab.addScene false 99 (.num (1 : Nat))
          [⟨10, 1, "a"⟩, ⟨20, 2, "b"⟩, ⟨30, 3, "c"⟩])) ∧
    EscaletaTab.addScene false 99 (.num 1) [⟨10, 1, "a"⟩, ⟨20, 2, "b"⟩, ⟨30, 3, "c"⟩] =
      [⟨10, 1, "a"⟩, ⟨20, 2, "b"⟩, ⟨99, 3, ""⟩, ⟨30, 4, "c"⟩] :=
  ⟨by decide,
    addScene_inserts_after_index [⟨10, 1, "a"⟩, ⟨20, 2, "b"⟩, ⟨30, 3, "c"⟩] 99 1 (by decide),
    by decide⟩

/-- C3. With the read-only flag off, `deleteScene(id)` returns a list with no
scene of that id; the ids and descriptions that remain are those of the scenes
with another id, in the same relative order and each as often as before; and the
result is numbered by new position. -/
theorem deleteScene_removes_and_renumbers (scenes : List Scene) (id : Nat) :
    (∀ s ∈ EscaletaTab.deleteScene false id scenes, s.id ≠ id) ∧
    (EscaletaTab.deleteScene false id scenes).map Scene.content =
      (scenes.filter fun s => s.id ≠ id).map Scene.content ∧
    ((EscaletaTab.deleteScene false id scenes).map Scene.content).Sublist
      (scenes.map Scene.content) ∧
    (∀ k : Nat × String, k.1 ≠ id →
      ((EscaletaTab.deleteScene false id scenes).map Scene.content).count k =
        (scenes.map Scene.content).count k) ∧
    Numbered (EscaletaTab.deleteScene false id scenes) := by
  have hdef : EscaletaTab.deleteScene false id scenes =
      (scenes.filter fun s => s.id ≠ id).mapIdx withNumber := rfl
  have hcontent : (EscaletaTab.deleteScene false id scenes).map Scene.content =
      (scenes.filter fun s => s.id ≠ id).map Scene.content := by
    rw [hdef, content_mapIdx]
  refine ⟨?_, hcontent, ?_, ?_, ?_⟩
  · intro s hs
    have hmem : s.content ∈ (scenes.filter fun s => s.id ≠ id).map Scene.content := by
      rw [← hcontent]
      exact List.mem_map_of_mem _ hs
    obtain ⟨t, ht, hts⟩ := List.mem_map.1 hmem
    have htid : t.id ≠ id := by simpa using (List.mem_filter.1 ht).2
    have : t.id = s.id := congrArg Prod.fst hts
    rw [← this]
    exact htid
  · rw [hcontent]
    exact (List.filter_sublist scenes).map Scene.content
  · intro k hk
    rw [hcontent]
    exact count_content_filter id k hk scenes
  · rw [hdef]
    exact numbered_mapIdx _

/-- Deleting id 20 from a list in which it occurs twice. -/
theorem deleteScene_removes_and_renumbers_witness :
    EscaletaTab.deleteScene false 20 [⟨10, 1, "a"⟩, ⟨20, 2, "b"⟩, ⟨30, 3, "c"⟩, ⟨20, 4, "d"⟩] =
      [⟨10, 1, "a"⟩, ⟨30, 2, "c"⟩] ∧
    ((10, "a") : Nat × String).1 ≠ 20 ∧
    ((EscaletaTab.deleteScene false 20
        [⟨10, 1, "a"⟩, ⟨20, 2, "b"⟩, ⟨30, 3, "c"⟩, ⟨20, 4, "d"⟩]).map Scene.content).count
          (10, "a") =
      (([⟨10, 1, "a"⟩, ⟨20, 2, "b"⟩, ⟨30, 3, "c"⟩, ⟨20, 4, "d"⟩] : List Scene).map
        Scene.content).count (10, "a") :=
  ⟨by decide, by decide,
    (deleteScene_removes_and_renumbers
      [⟨10, 1, "a"⟩, ⟨20, 2, "b"⟩, ⟨30, 3, "c"⟩, ⟨20, 4, "d"⟩] 20).2.2.2.1 (10, "a")
      (by decide)⟩

/-- C4. With the read-only flag off, `updateScene(id, text)` returns a list of the
same length and order in which every id and every number is unchanged, the
description of a scene is `text` when its id equals `id` and is unchanged
otherwise; when no scene has that id the list is returned unchanged. -/
theorem updateScene_frame (scenes : List Scene) (id : Nat) (text : String) :
    (EscaletaTab.updateScene false id text scenes).length = scenes.length ∧
    (EscaletaTab.updateScene false id text scenes).map Scene.id = scenes.map Scene.id ∧
    (EscaletaTab.updateScene false id text scenes).map Scene.number =
      scenes.map Scene.number ∧
    (EscaletaTab.updateScene false id text scenes).map Scene.description =
      scenes.map (fun s => if s.id = id then text else s.description) ∧
    ((∀ s ∈ scenes, s.id ≠ id) → EscaletaTab.updateScene false id text scenes = scenes) := by
  have hdef : EscaletaTab.updateScene false id text scenes =
      scenes.map fun scene =>
        if scene.id = id then { scene with description := text } else scene := rfl
  rw [hdef]
  refine ⟨by simp, ?_, ?_, ?_, ?_⟩
  · rw [List.map_map]
    apply List.map_congr_left
    intro s _
    by_cases h : s.id = id <;> simp [h]
  · rw [List.map_map]
    apply List.map_congr_left
    intro s _
    by_cases h : s.id = id <;> simp [h]
  · rw [List.map_map]
    apply List.map_congr_left
    intro s _
    by_cases h : s.id = id <;> simp [h]
  · intro hall
    conv_rhs => rw [← List.map_id scenes]
    apply List.map_congr_left
    intro s hs
    simp [hall s hs]

/-- A list without id 77 is returned unchanged; a list with id 20 gets the new
text at that scene only. -/
theorem updateScene_frame_witness :
    (∀ s ∈ ([⟨10, 1, "a"⟩, ⟨20, 2, "b"⟩] : List Scene), s.id ≠ 77) ∧
    EscaletaTab.updateScene false 77 "z" [⟨10, 1, "a"⟩, ⟨20, 2, "b"⟩] =
      [⟨10, 1, "a"⟩, ⟨20, 2, "b"⟩] ∧
    EscaletaTab.updateScene false 20 "z" [⟨10, 1, "a"⟩, ⟨20, 2, "b"⟩] =
      [⟨10, 1, "a"⟩, ⟨20, 2, "z"⟩] :=
  ⟨by decide,
    (updateScene_frame [⟨10, 1, "a"⟩, ⟨20, 2, "b"⟩] 77 "z").2.2.2.2 (by decide),
    by decide⟩

/-- C5, as stated, fails: on the empty treatment map, which has no entry for id 1,
`updateTreatment(1, "x")` is not a no-op, it adds the entry. -/
theorem updateTreatment_absent_id_not_noop :
    emptyTreatments 1 = none ∧
    TratamientoTab.updateTreatment false 1 "x" emptyTreatments 1 = some "x" ∧
    TratamientoTab.updateTreatment false 1 "x" emptyTreatments ≠ emptyTreatments := by
  refine ⟨rfl, by decide, ?_⟩
  intro h
  have := congrFun h 1
  revert this
  decide

/-- C5, amended. With the read-only flag off, `updateTreatment(id, text)` stores
`text` under `id` whether or not the map had an entry for `id` (an absent entry is
added), and leaves every other entry as it was. -/
theorem updateTreatment_upserts (prev : TreatmentMap) (id : Nat) (text : String) :
    TratamientoTab.updateTreatment false id text prev id = some text ∧
    (∀ k : Nat, k ≠ id → TratamientoTab.updateTreatment false id text prev k = prev k) := by
  constructor
  · simp [TratamientoTab.updateTreatment, TratamientoTab.updateTreatmentResult, setKey]
  · intro k hk
    simp [TratamientoTab.updateTreatment, TratamientoTab.updateTreatmentResult, setKey, hk]

/-- On a map with entries for ids 1 and 2, updating id 1 leaves the entry of id 2. -/
theorem updateTreatment_upserts_witness :
    (2 : Nat) ≠ 1 ∧
    TratamientoTab.updateTreatment false 1 "new" (setKey (setKey emptyTreatments 1 "a") 2 "b") 2 =
      setKey (setKey emptyTreatments 1 "a") 2 "b" 2 :=
  ⟨by decide,
    (updateTreatment_upserts (setKey (setKey emptyTreatments 1 "a") 2 "b") 1 "new").2 2
      (by decide)⟩

/-- C6. Under the read-only flag every mutation operation returns the component
state it was given, so the scene list, the treatment map and the saving flag are
unchanged, no write is sent and `onUpdateProject` is not called: `addScene`,
`updateScene`, `deleteScene` and `handleScroll` of the outline editor,
`updateTreatment` and `addScene` of the treatment editor, and `saveData` /
`saveTreatments` of a render that holds the flag. -/
theorem readOnly_operations_are_noops :
    (∀ (st : EscaletaTab.State) (now : Nat), st.props.readOnly = true →
      (∀ index, EscaletaTab.handle now (.addScene index) st = st) ∧
      (∀ id text, EscaletaTab.handle now (.updateScene id text) st = st) ∧
      (∀ id, EscaletaTab.handle now (.deleteScene id) st = st) ∧
      (∀ scrollTop, EscaletaTab.handle now (.handleScroll scrollTop) st = st)) ∧
    (∀ (st : EscaletaTab.State) (now : Nat) (c : Props) (scenes : List Scene),
      c.readOnly = true → EscaletaTab.saveData now c scenes st = st) ∧
    (∀ (st : TratamientoTab.State) (now : Nat), st.props.readOnly = true →
      (∀ id text, TratamientoTab.handle now (.updateTreatment id text) st = st) ∧
      (∀ index, TratamientoTab.handle now (.addScene index) st = st)) ∧
    (∀ (st : TratamientoTab.State) (now : Nat) (c : Props) (treatments : TreatmentMap),
      c.readOnly = true → TratamientoTab.saveTreatments now c treatments st = st) := by
  refine ⟨?_, ?_, ?_, ?_⟩
  · intro st now h
    refine ⟨?_, ?_, ?_, ?_⟩
    · intro index
      simp [EscaletaTab.handle, EscaletaTab.addSceneResult, EscaletaTab.applyResult, h]
    · intro id text
      simp [EscaletaTab.handle, EscaletaTab.updateSceneResult, EscaletaTab.applyResult, h]
    · intro id
      simp [EscaletaTab.handle, EscaletaTab.deleteSceneResult, EscaletaTab.applyResult, h]
    · intro scrollTop
      simp [EscaletaTab.handle, EscaletaTab.handleScroll, h]
  · intro st now c scenes h
    simp [EscaletaTab.saveData, h]
  · intro st now h
    refine ⟨?_, ?_⟩
    · intro id text
      simp [TratamientoTab.handle, TratamientoTab.updateTreatmentStep,
        TratamientoTab.updateTreatmentResult, h]
    · intro index
      simp [TratamientoTab.handle, TratamientoTab.addSceneStep, h]
  · intro st now c treatments h
    simp [TratamientoTab.saveTreatments, h]

/-- A read-only outline editor mounted on a one-scene project: `deleteScene` of
that scene changes nothing. -/
theorem readOnly_operations_are_noops_witness :
    (EscaletaTab.mount 0 ⟨some ⟨7, some [⟨10, 1, "a"⟩], none, none⟩, true, true⟩).props.readOnly =
      true ∧
    EscaletaTab.handle 5 (.deleteScene 10)
        (EscaletaTab.mount 0 ⟨some ⟨7, some [⟨10, 1, "a"⟩], none, none⟩, true, true⟩) =
      EscaletaTab.mount 0 ⟨some ⟨7, some [⟨10, 1, "a"⟩], none, none⟩, true, true⟩ :=
  ⟨rfl,
    ((readOnly_operations_are_noops.1
      (EscaletaTab.mount 0 ⟨some ⟨7, some [⟨10, 1, "a"⟩], none, none⟩, true, true⟩) 5
      rfl).2.2.1) 10⟩

/-- C7. Seeding is a one-shot latch in both tabs. Mounting leaves `isFirstLoad`
false. From any state in which it is false, and for every timed sequence of
events (snapshot changes, local edits, scrolls, store answers), a snapshot change
leaves the scene list and the treatment map as they are, the ref stays false, and
the local state after the sequence is what the local edits alone produce: the
handlers folded over the list, and the same as after the sequence with its
snapshot changes removed. -/
theorem seeding_is_one_shot :
    (∀ now props, (EscaletaTab.mount now props).isFirstLoad = false) ∧
    (∀ now props, (TratamientoTab.mount now props).isFirstLoad = false) ∧
    (∀ (st : EscaletaTab.State), st.isFirstLoad = false →
      (∀ now project, (EscaletaTab.handle now (.setProject project) st).scenes = st.scenes) ∧
      ∀ events : List (Nat × EscaletaTab.Event),
        (EscaletaTab.run st events).isFirstLoad = false ∧
        (EscaletaTab.run st events).scenes =
          events.foldl (EscaletaTab.localEdit st.props.readOnly) st.scenes ∧
        (EscaletaTab.run st events).scenes =
          (EscaletaTab.run st (events.filter fun e => !e.2.isSnapshot)).scenes) ∧
    (∀ (st : TratamientoTab.State), st.isFirstLoad = false →
      (∀ now project,
        (TratamientoTab.handle now (.setProject project) st).scenes = st.scenes ∧
        (TratamientoTab.handle now (.setProject project) st).treatments = st.treatments) ∧
      ∀ events : List (Nat × TratamientoTab.Event),
        (TratamientoTab.run st events).isFirstLoad = false ∧
        ((TratamientoTab.run st events).scenes, (TratamientoTab.run st events).treatments) =
          events.foldl (TratamientoTab.localEdit st.props.readOnly)
            (st.scenes, st.treatments) ∧
        ((TratamientoTab.run st events).scenes, (TratamientoTab.run st events).treatments) =
          ((TratamientoTab.run st (events.filter fun e => !e.2.isSnapshot)).scenes,
            (TratamientoTab.run st (events.filter fun e => !e.2.isSnapshot)).treatments)) := by
  refine ⟨?_, ?_, ?_, ?_⟩
  · intro now props
    simp [EscaletaTab.mount, EscaletaTab.loadEffect, EscaletaTab.initial, EscaletaTab.flush,
      EscaletaTab.setScenes]
  · intro now props
    simp [TratamientoTab.mount, TratamientoTab.loadEffect, TratamientoTab.initial,
      TratamientoTab.flush, TratamientoTab.setTreatments]
  · intro st h
    refine ⟨?_, ?_⟩
    · intro now project
      simp [EscaletaTab.handle, esc_setProject_latched now project st h]
    · intro events
      obtain ⟨h1, _, h3⟩ := esc_run_local events st h
      obtain ⟨f1, _, _⟩ := esc_run_local (events.filter fun e => !e.2.isSnapshot) st h
      refine ⟨h3, h1, ?_⟩
      rw [h1, f1, esc_localEdit_filter]
  · intro st h
    refine ⟨?_, ?_⟩
    · intro now project
      simp [TratamientoTab.handle, tra_setProject_latched now project st h]
    · intro events
      obtain ⟨h1, _, h3⟩ := tra_run_local events st h
      obtain ⟨f1, _, _⟩ := tra_run_local (events.filter fun e => !e.2.isSnapshot) st h
      refine ⟨h3, h1, ?_⟩
      rw [h1, f1, tra_localEdit_filter]

/-- An outline editor mounted on a one-scene project: after an edit, a new
snapshot with other scenes, and a second edit, the list holds the two edits and
nothing of the new snapshot. -/
theorem seeding_is_one_shot_witness :
    (EscaletaTab.mount 0 ⟨some ⟨7, some [⟨10, 1, "a"⟩], none, none⟩, false, true⟩).isFirstLoad =
      false ∧
    (EscaletaTab.run
        (EscaletaTab.mount 0 ⟨some ⟨7, some [⟨10, 1, "a"⟩], none, none⟩, false, true⟩)
        [(100, .updateScene 10 "mine"),
          (200, .setProject (some ⟨7, some [⟨55, 1, "theirs"⟩], none, none⟩)),
          (300, .addScene (.num 0))]).scenes =
      [⟨10, 1, "mine"⟩, ⟨300, 2, ""⟩] ∧
    (EscaletaTab.run
        (EscaletaTab.mount 0 ⟨some ⟨7, some [⟨10, 1, "a"⟩], none, none⟩, false, true⟩)
        [(100, .updateScene 10 "mine"),
          (200, .setProject (some ⟨7, some [⟨55, 1, "theirs"⟩], none, none⟩)),
          (300, .addScene (.num 0))]).isFirstLoad = false :=
  ⟨rfl, by decide,
    ((seeding_is_one_shot.2.2.1
      (EscaletaTab.mount 0 ⟨some ⟨7, some [⟨10, 1, "a"⟩], none, none⟩, false, true⟩) rfl).2
      [(100, .updateScene 10 "mine"),
        (200, .setProject (some ⟨7, some [⟨55, 1, "theirs"⟩], none, none⟩)),
        (300, .addScene (.num 0))]).1⟩

/-- C8. On first load the load effect seeds the local state from the snapshot.
With `project?.escaleta_data` a non-empty list, both tabs adopt it verbatim; with
the snapshot missing, the field missing or the list empty, the outline editor's
list is one blank scene with number 1 and empty description and the treatment
editor's list is empty. The treatment map is `project?.tratamiento_data` when
present and the empty map otherwise. -/
theorem first_load_seeds (now : Nat) (props : Props) :
    (∀ data, props.project.bind Project.escaleta_data = some data → data ≠ [] →
      (EscaletaTab.mount now props).scenes = data ∧
      (TratamientoTab.mount now props).scenes = data) ∧
    (props.project.bind Project.escaleta_data = none ∨
        props.project.bind Project.escaleta_data = some [] →
      (EscaletaTab.mount now props).scenes = [{ id := now, number := 1, description := "" }] ∧
      (TratamientoTab.mount now props).scenes = []) ∧
    (∀ data, props.project.bind Project.tratamiento_data = some data →
      (TratamientoTab.mount now props).treatments = data) ∧
    (props.project.bind Project.tratamiento_data = none →
      (TratamientoTab.mount now props).treatments = emptyTreatments) := by
  have he : (EscaletaTab.mount now props).scenes = EscaletaTab.seed now props.project := by
    simp [EscaletaTab.mount, EscaletaTab.loadEffect, EscaletaTab.initial, EscaletaTab.flush,
      EscaletaTab.setScenes]
  have ht : (TratamientoTab.mount now props).scenes = TratamientoTab.seedScenes props.project := by
    simp [TratamientoTab.mount, TratamientoTab.loadEffect, TratamientoTab.initial,
      TratamientoTab.flush, TratamientoTab.setTreatments]
  have hm : (TratamientoTab.mount now props).treatments =
      TratamientoTab.seedTreatments props.project := by
    simp [TratamientoTab.mount, TratamientoTab.loadEffect, TratamientoTab.initial,
      TratamientoTab.flush, TratamientoTab.setTreatments]
  rw [he, ht, hm]
  refine ⟨?_, ?_, ?_, ?_⟩
  · intro data hd hne
    have hpos : 0 < data.length := List.length_pos.2 hne
    simp [EscaletaTab.seed, TratamientoTab.seedScenes, hd, hpos]
  · rintro (hd | hd) <;> simp [EscaletaTab.seed, TratamientoTab.seedScenes, hd]
  · intro data hd
    simp [TratamientoTab.seedTreatments, hd]
  · intro hd
    simp [TratamientoTab.seedTreatments, hd]

/-- A snapshot with two scenes is adopted verbatim by both tabs; a snapshot with
an empty list gives the outline editor one blank scene. -/
theorem first_load_seeds_witness :
    ((some ⟨7, some [⟨10, 1, "a"⟩, ⟨20, 2, "b"⟩], none, none⟩ : Option Project).bind
        Project.escaleta_data = some [⟨10, 1, "a"⟩, ⟨20, 2, "b"⟩] ∧
      ([⟨10, 1, "a"⟩, ⟨20, 2, "b"⟩] : List Scene) ≠ []) ∧
    ((EscaletaTab.mount 3 ⟨some ⟨7, some [⟨10, 1, "a"⟩, ⟨20, 2, "b"⟩], none, none⟩, false,
        true⟩).scenes = [⟨10, 1, "a"⟩, ⟨20, 2, "b"⟩] ∧
      (TratamientoTab.mount 3 ⟨some ⟨7, some [⟨10, 1, "a"⟩, ⟨20, 2, "b"⟩], none, none⟩, false,
        true⟩).scenes = [⟨10, 1, "a"⟩, ⟨20, 2, "b"⟩]) ∧
    (EscaletaTab.mount 3 ⟨some ⟨7, some [], none, none⟩, false, true⟩).scenes = [⟨3, 1, ""⟩] :=
  ⟨⟨rfl, by decide⟩,
    (first_load_seeds 3 ⟨some ⟨7, some [⟨10, 1, "a"⟩, ⟨20, 2, "b"⟩], none, none⟩, false, true⟩).1
      [⟨10, 1, "a"⟩, ⟨20, 2, "b"⟩] rfl (by decide),
    by decide⟩

/-- C9 on the code: both tabs, mounted at time 0 on `sampleProject` with the
read-only flag off and left without any edit, send a write at 1000 ms that holds
the seeded document. The load effect clears `isFirstLoad.current` before the
autosave effect of the same commit reads it, so the guard `if
(isFirstLoad.current) return` never holds and the seeding arms the debouncer. -/
theorem seeding_arms_the_debouncer :
    (EscaletaTab.mount 0 sampleProps).scenes = [⟨10, 1, "a"⟩] ∧
    ((EscaletaTab.mount 0 sampleProps).timers.map fun t => (t.due, t.doc)) =
      [(1000, [⟨10, 1, "a"⟩])] ∧
    ((EscaletaTab.advanceTo 1000 (EscaletaTab.mount 0 sampleProps)).writes.map fun w =>
      (w.time, w.rowId, w.patch.escaleta_data)) = [(1000, 7, some [⟨10, 1, "a"⟩])] ∧
    ((TratamientoTab.advanceTo 1000 (TratamientoTab.mount 0 sampleProps)).writes.map fun w =>
      (w.time, w.rowId, w.patch.tratamiento_data.map fun m => m 10)) =
        [(1000, 7, some (some "t"))] := by
  decide

/-- C10. The autosave is a trailing-edge debounce. Take a seeded tab with a
project, the read-only flag off and at most the cleanup's timer pending, and a
burst of local edits in which each edit comes less than 1000 ms after the one
before; let `last` be the time of the last edit. The burst itself sends no autosave
write; up to any time before `last + 1000` none is sent; and from `last + 1000` on
exactly one has been sent, at `last + 1000`, holding the document as of the last
edit, with no timer left. In the treatment editor `addScene` also sends its own
write of both columns at once, so the count is that of the writes of the
treatment column alone, and of all writes when the burst is text edits only.
After a mount, at every moment, at most one timer is pending. -/
theorem autosave_is_trailing_edge_debounce :
    (∀ (st : EscaletaTab.State) (p : Project) (e0 : Nat × EscaletaTab.Event)
        (rest : List (Nat × EscaletaTab.Event)),
      st.isFirstLoad = false → EscaletaTab.SingleTimer st → st.props.project = some p →
      st.props.readOnly = false → e0.2.isEdit = true → EscaletaTab.Burst e0.1 rest →
      (EscaletaTab.run st (e0 :: rest)).writes = (EscaletaTab.advanceTo e0.1 st).writes ∧
      (∀ time, time < EscaletaTab.lastTime e0.1 rest + 1000 →
        (EscaletaTab.advanceTo time (EscaletaTab.run st (e0 :: rest))).writes =
          (EscaletaTab.advanceTo e0.1 st).writes) ∧
      (∀ time, EscaletaTab.lastTime e0.1 rest + 1000 ≤ time →
        (EscaletaTab.advanceTo time (EscaletaTab.run st (e0 :: rest))).writes =
          (EscaletaTab.advanceTo e0.1 st).writes ++
            [{ time := EscaletaTab.lastTime e0.1 rest + 1000, rowId := p.id,
               patch := { escaleta_data :=
                            some ((e0 :: rest).foldl (EscaletaTab.localEdit false) st.scenes),
                          tratamiento_data := none, last_state := none } }] ∧
        (EscaletaTab.advanceTo time (EscaletaTab.run st (e0 :: rest))).timers = [])) ∧
    (∀ (st : TratamientoTab.State) (p : Project) (e0 : Nat × TratamientoTab.Event)
        (rest : List (Nat × TratamientoTab.Event)),
      st.isFirstLoad = false → TratamientoTab.SingleTimer st → st.props.project = some p →
      st.props.readOnly = false → e0.2.isEdit = true → TratamientoTab.Burst e0.1 rest →
      (TratamientoTab.run st (e0 :: rest)).writes.filter TratamientoTab.Write.isAutosave =
        (TratamientoTab.advanceTo e0.1 st).writes.filter TratamientoTab.Write.isAutosave ∧
      (∀ time, time < TratamientoTab.lastTime e0.1 rest + 1000 →
        (TratamientoTab.advanceTo time (TratamientoTab.run st (e0 :: rest))).writes =
          (TratamientoTab.run st (e0 :: rest)).writes) ∧
      (∀ time, TratamientoTab.lastTime e0.1 rest + 1000 ≤ time →
        (TratamientoTab.advanceTo time (TratamientoTab.run st (e0 :: rest))).writes =
          (TratamientoTab.run st (e0 :: rest)).writes ++
            [{ time := TratamientoTab.lastTime e0.1 rest + 1000, rowId := p.id,
               patch := { escaleta_data := none,
                          tratamiento_data :=
                            some ((e0 :: rest).foldl (TratamientoTab.localEdit false)
                              (st.scenes, st.treatments)).2,
                          last_state := none } }] ∧
        (TratamientoTab.advanceTo time (TratamientoTab.run st (e0 :: rest))).timers = []) ∧
      ((∀ e ∈ e0 :: rest, e.2.isTextEdit = true) →
        (TratamientoTab.run st (e0 :: rest)).writes =
          (TratamientoTab.advanceTo e0.1 st).writes)) ∧
    (∀ now props events time,
      (EscaletaTab.run (EscaletaTab.mount now props) events).timers.length ≤ 1 ∧
      (EscaletaTab.advanceTo time
        (EscaletaTab.run (EscaletaTab.mount now props) events)).timers.length ≤ 1) ∧
    (∀ now props events time,
      (TratamientoTab.run (TratamientoTab.mount now props) events).timers.length ≤ 1 ∧
      (TratamientoTab.advanceTo time
        (TratamientoTab.run (TratamientoTab.mount now props) events)).timers.length ≤ 1) := by
  refine ⟨?_, ?_, ?_, ?_⟩
  · intro st p e0 rest h hs hp hro he hb
    obtain ⟨b1, b2, b3, b4⟩ := esc_burst_from st e0 rest h hs hro he hb
    refine ⟨b3, ?_, ?_⟩
    · intro time hlt
      rw [esc_armed_idle _ _ time b1 hlt, b3]
    · intro time hle
      obtain ⟨w, t, _⟩ := esc_armed_fire _ _ time p b1 (by rw [b2]; exact hp)
        (by rw [b2]; exact hro) hle
      rw [w, b3, b4]
      exact ⟨rfl, t⟩
  · intro st p e0 rest h hs hp hro he hb
    obtain ⟨b1, b2, b3, b3', b4⟩ := tra_burst_from st e0 rest h hs hro he hb
    refine ⟨b3, ?_, ?_, b3'⟩
    · intro time hlt
      rw [tra_armed_idle _ _ time b1 hlt]
    · intro time hle
      obtain ⟨w, t, _⟩ := tra_armed_fire _ _ time p b1 (by rw [b2]; exact hp)
        (by rw [b2]; exact hro) hle
      rw [w, ← b4]
      exact ⟨rfl, t⟩
  · intro now props events time
    obtain ⟨a1, a2, _⟩ := esc_mount_armed now props
    have hs := esc_run_single events _ a2 (esc_armed_single _ now a1)
    have hs' := esc_advanceTo_single time _ hs
    constructor
    · rcases hs with h0 | ⟨t, ht, _⟩ <;> simp [*]
    · rcases hs' with h0 | ⟨t, ht, _⟩ <;> simp [*]
  · intro now props events time
    obtain ⟨a1, a2, _⟩ := tra_mount_armed now props
    have hs := tra_run_single events _ a2 (tra_armed_single _ now a1)
    have hs' := tra_advanceTo_single time _ hs
    constructor
    · rcases hs with h0 | ⟨t, ht, _⟩ <;> simp [*]
    · rcases hs' with h0 | ⟨t, ht, _⟩ <;> simp [*]

/-- Edits of the outline at 0, 200 and 400 ms after a mount at 0: at 1399 ms
nothing has been sent, at 1400 ms exactly one write has, holding the list as of
the third edit. -/
theorem autosave_is_trailing_edge_debounce_witness :
    ((EscaletaTab.mount 0 sampleProps).isFirstLoad = false ∧
      EscaletaTab.SingleTimer (EscaletaTab.mount 0 sampleProps) ∧
      (EscaletaTab.mount 0 sampleProps).props.project = some sampleProject ∧
      (EscaletaTab.mount 0 sampleProps).props.readOnly = false ∧
      EscaletaTab.Burst 0 [(200, .updateScene 10 "xy"), (400, .addScene (.num 0))]) ∧
    ((EscaletaTab.run (EscaletaTab.mount 0 sampleProps)
        ((0, .updateScene 10 "x") ::
          [(200, .updateScene 10 "xy"), (400, .addScene (.num 0))])).writes =
      (EscaletaTab.advanceTo 0 (EscaletaTab.mount 0 sampleProps)).writes ∧
      (∀ time, time < 400 + 1000 →
        (EscaletaTab.advanceTo time (EscaletaTab.run (EscaletaTab.mount 0 sampleProps)
          ((0, .updateScene 10 "x") ::
            [(200, .updateScene 10 "xy"), (400, .addScene (.num 0))]))).writes =
          (EscaletaTab.advanceTo 0 (EscaletaTab.mount 0 sampleProps)).writes) ∧
      (∀ time, 400 + 1000 ≤ time →
        (EscaletaTab.advanceTo time (EscaletaTab.run (EscaletaTab.mount 0 sampleProps)
          ((0, .updateScene 10 "x") ::
            [(200, .updateScene 10 "xy"), (400, .addScene (.num 0))]))).writes =
          (EscaletaTab.advanceTo 0 (EscaletaTab.mount 0 sampleProps)).writes ++
            [{ time := 400 + 1000, rowId := 7,
               patch := { escaleta_data := some [⟨10, 1, "xy"⟩, ⟨400, 2, ""⟩],
                          tratamiento_data := none, last_state := none } }] ∧
        (EscaletaTab.advanceTo time (EscaletaTab.run (EscaletaTab.mount 0 sampleProps)
          ((0, .updateScene 10 "x") ::
            [(200, .updateScene 10 "xy"), (400, .addScene (.num 0))]))).timers = [])) ∧
    ((EscaletaTab.advanceTo 1400 (EscaletaTab.run (EscaletaTab.mount 0 sampleProps)
        sampleEdits)).writes.map fun w => (w.time, w.patch.escaleta_data)) =
      [(1400, some [⟨10, 1, "xy"⟩, ⟨400, 2, ""⟩])] ∧
    ((EscaletaTab.advanceTo 1399 (EscaletaTab.run (EscaletaTab.mount 0 sampleProps)
        sampleEdits)).writes.map fun w => (w.time, w.patch.escaleta_data)) = [] ∧
    ((TratamientoTab.advanceTo 1400 (TratamientoTab.run (TratamientoTab.mount 0 sampleProps)
        sampleTextEdits)).writes.map fun w =>
          (w.time, w.patch.tratamiento_data.map fun m => m 10)) =
      [(1400, some (some "xyz"))] :=
  ⟨⟨rfl, Or.inr ⟨_, rfl, rfl⟩, rfl, rfl, rfl, by decide, by decide, rfl, by decide, by decide,
      trivial⟩,
    autosave_is_trailing_edge_debounce.1 (EscaletaTab.mount 0 sampleProps) sampleProject
      (0, .updateScene 10 "x") [(200, .updateScene 10 "xy"), (400, .addScene (.num 0))]
      rfl (Or.inr ⟨_, rfl, rfl⟩) rfl rfl rfl
      ⟨rfl, by decide, by decide, rfl, by decide, by decide, trivial⟩,
    by decide, by decide, by decide⟩

/-- C11, as stated, fails: the saving flag is one boolean for all writes. In the
outline editor two debounced saves are sent at 1100 ms and 2150 ms; in the
treatment editor `addScene` sends a write at 50 ms and the debounced save another
at 1050 ms. In both, the answer to the first write clears the flag while the
second write is still awaited. -/
theorem first_answer_clears_flag_of_second_write :
    (EscaletaTab.advanceTo 2150
      (EscaletaTab.run (EscaletaTab.mount 0 sampleProps)
        [(100, .updateScene 10 "x"), (1150, .updateScene 10 "xy")])).pending.length = 2 ∧
    (EscaletaTab.advanceTo 2150
      (EscaletaTab.run (EscaletaTab.mount 0 sampleProps)
        [(100, .updateScene 10 "x"), (1150, .updateScene 10 "xy")])).saving = true ∧
    (EscaletaTab.respond false (EscaletaTab.advanceTo 2150
      (EscaletaTab.run (EscaletaTab.mount 0 sampleProps)
        [(100, .updateScene 10 "x"), (1150, .updateScene 10 "xy")]))).pending.length = 1 ∧
    (EscaletaTab.respond false (EscaletaTab.advanceTo 2150
      (EscaletaTab.run (EscaletaTab.mount 0 sampleProps)
        [(100, .updateScene 10 "x"), (1150, .updateScene 10 "xy")]))).saving = false ∧
    (TratamientoTab.advanceTo 1050
      (TratamientoTab.run (TratamientoTab.mount 0 sampleProps)
        [(50, .addScene (.num 0))])).pending.length = 2 ∧
    (TratamientoTab.respond false (TratamientoTab.advanceTo 1050
      (TratamientoTab.run (TratamientoTab.mount 0 sampleProps)
        [(50, .addScene (.num 0))]))).pending.length = 1 ∧
    (TratamientoTab.respond false (TratamientoTab.advanceTo 1050
      (TratamientoTab.run (TratamientoTab.mount 0 sampleProps)
        [(50, .addScene (.num 0))]))).saving = false := by
  decide

/-- C11, amended. `saveData` and `saveTreatments`, called by a render that has a
project and is not read-only, in any state: the call sets the saving flag, sends
one write of the document and awaits it, and changes neither the local document
nor the timer queue nor the parent's log. The answer to any awaited write, with
an error or without and whatever else is awaited, clears the flag, leaves the
scene list, the treatment map, the timer queue and the write log as they were
(no rollback, no retry), and calls `onUpdateProject` once with the written field
exactly when the write succeeded and its render has the callback. In particular
this holds of the answer to the write just sent. Between a send and an answer the
flag changes only by another send or another answer: no other event changes it,
nor does the passing of time as long as no timer sends a write (the treatment
editor's `addScene` is such a send). So with no other write in flight the flag is
set from the send to the answer and clear after it. -/
theorem save_flag_is_cleared_by_any_answer :
    (∀ (st : EscaletaTab.State) (now : Nat) (c : Props) (p : Project) (scenes : List Scene),
      c.readOnly = false → c.project = some p →
      (EscaletaTab.saveData now c scenes st).saving = true ∧
      (EscaletaTab.saveData now c scenes st).writes = st.writes ++
        [{ time := now, rowId := p.id,
           patch := { escaleta_data := some scenes, tratamiento_data := none,
                      last_state := none } }] ∧
      (EscaletaTab.saveData now c scenes st).pending = st.pending ++
        [{ patch := { escaleta_data := some scenes, tratamiento_data := none,
                      last_state := none },
           onUpdateProject := c.onUpdateProject }] ∧
      (EscaletaTab.saveData now c scenes st).scenes = st.scenes ∧
      (EscaletaTab.saveData now c scenes st).timers = st.timers ∧
      (EscaletaTab.saveData now c scenes st).notified = st.notified ∧
      ∀ error : Bool,
        (EscaletaTab.respondTo st.pending.length error
          (EscaletaTab.saveData now c scenes st)).saving = false ∧
        (EscaletaTab.respondTo st.pending.length error
          (EscaletaTab.saveData now c scenes st)).pending = st.pending ∧
        (EscaletaTab.respondTo st.pending.length error
          (EscaletaTab.saveData now c scenes st)).scenes = st.scenes ∧
        (EscaletaTab.respondTo st.pending.length error
          (EscaletaTab.saveData now c scenes st)).timers = st.timers ∧
        (EscaletaTab.respondTo st.pending.length error
          (EscaletaTab.saveData now c scenes st)).writes =
            (EscaletaTab.saveData now c scenes st).writes ∧
        (EscaletaTab.respondTo st.pending.length error
          (EscaletaTab.saveData now c scenes st)).notified =
            if error = false ∧ c.onUpdateProject = true then
              st.notified ++ [{ escaleta_data := some scenes, tratamiento_data := none,
                                last_state := none }]
            else st.notified) ∧
    (∀ (st : EscaletaTab.State) (i : Nat) (p : Pending) (error : Bool),
      st.pending[i]? = some p →
      (EscaletaTab.respondTo i error st).saving = false ∧
      (EscaletaTab.respondTo i error st).pending = st.pending.eraseIdx i ∧
      (EscaletaTab.respondTo i error st).scenes = st.scenes ∧
      (EscaletaTab.respondTo i error st).timers = st.timers ∧
      (EscaletaTab.respondTo i error st).writes = st.writes ∧
      (EscaletaTab.respondTo i error st).notified =
        if error = false ∧ p.onUpdateProject = true then st.notified ++ [p.patch]
        else st.notified) ∧
    (∀ (st : EscaletaTab.State) (error : Bool),
      EscaletaTab.respond error st = EscaletaTab.respondTo 0 error st) ∧
    (∀ (st : TratamientoTab.State) (now : Nat) (c : Props) (p : Project)
        (treatments : TreatmentMap),
      c.readOnly = false → c.project = some p →
      (TratamientoTab.saveTreatments now c treatments st).saving = true ∧
      (TratamientoTab.saveTreatments now c treatments st).writes = st.writes ++
        [{ time := now, rowId := p.id,
           patch := { escaleta_data := none, tratamiento_data := some treatments,
                      last_state := none } }] ∧
      (TratamientoTab.saveTreatments now c treatments st).pending = st.pending ++
        [{ patch := { escaleta_data := none, tratamiento_data := some treatments,
                      last_state := none },
           onUpdateProject := c.onUpdateProject }] ∧
      (TratamientoTab.saveTreatments now c treatments st).scenes = st.scenes ∧
      (TratamientoTab.saveTreatments now c treatments st).treatments = st.treatments ∧
      (TratamientoTab.saveTreatments now c treatments st).timers = st.timers ∧
      (TratamientoTab.saveTreatments now c treatments st).notified = st.notified ∧
      ∀ error : Bool,
        (TratamientoTab.respondTo st.pending.length error
          (TratamientoTab.saveTreatments now c treatments st)).saving = false ∧
        (TratamientoTab.respondTo st.pending.length error
          (TratamientoTab.saveTreatments now c treatments st)).pending = st.pending ∧
        (TratamientoTab.respondTo st.pending.length error
          (TratamientoTab.saveTreatments now c treatments st)).scenes = st.scenes ∧
        (TratamientoTab.respondTo st.pending.length error
          (TratamientoTab.saveTreatments now c treatments st)).treatments = st.treatments ∧
        (TratamientoTab.respondTo st.pending.length error
          (TratamientoTab.saveTreatments now c treatments st)).timers = st.timers ∧
        (TratamientoTab.respondTo st.pending.length error
          (TratamientoTab.saveTreatments now c treatments st)).writes =
            (TratamientoTab.saveTreatments now c treatments st).writes ∧
        (TratamientoTab.respondTo st.pending.length error
          (TratamientoTab.saveTreatments now c treatments st)).notified =
            if error = false ∧ c.onUpdateProject = true then
              st.notified ++ [{ escaleta_data := none, tratamiento_data := some treatments,
                                last_state := none }]
            else st.notified) ∧
    (∀ (st : TratamientoTab.State) (i : Nat) (p : Pending) (error : Bool),
      st.pending[i]? = some p →
      (TratamientoTab.respondTo i error st).saving = false ∧
      (TratamientoTab.respondTo i error st).pending = st.pending.eraseIdx i ∧
      (TratamientoTab.respondTo i error st).scenes = st.scenes ∧
      (TratamientoTab.respondTo i error st).treatments = st.treatments ∧
      (TratamientoTab.respondTo i error st).timers = st.timers ∧
      (TratamientoTab.respondTo i error st).writes = st.writes ∧
      (TratamientoTab.respondTo i error st).notified =
        if error = false ∧ p.onUpdateProject = true then st.notified ++ [p.patch]
        else st.notified) ∧
    (∀ (st : TratamientoTab.State) (error : Bool),
      TratamientoTab.respond error st = TratamientoTab.respondTo 0 error st) ∧
    (∀ (st : EscaletaTab.State) (now : Nat) (e : EscaletaTab.Event),
      (∀ error, e ≠ EscaletaTab.Event.respond error) →
      (EscaletaTab.handle now e st).saving = st.saving) ∧
    (∀ (st : EscaletaTab.State) (time : Nat),
      (EscaletaTab.advanceTo time st).writes = st.writes →
      (EscaletaTab.advanceTo time st).saving = st.saving) ∧
    (∀ (st : TratamientoTab.State) (now : Nat) (e : TratamientoTab.Event),
      (∀ error, e ≠ TratamientoTab.Event.respond error) →
      (∀ index, e ≠ TratamientoTab.Event.addScene index) →
      (TratamientoTab.handle now e st).saving = st.saving) ∧
    (∀ (st : TratamientoTab.State) (time : Nat),
      (TratamientoTab.advanceTo time st).writes = st.writes →
      (TratamientoTab.advanceTo time st).saving = st.saving) := by
  refine ⟨?_, ?_, ?_, ?_, ?_, ?_, fun st now e he => esc_handle_saving now e st he,
    fun st time h => esc_advanceTo_saving time st h,
    fun st now e he ha => tra_handle_saving now e st he ha,
    fun st time h => tra_advanceTo_saving time st h⟩
  · intro st now c p scenes hro hp
    refine ⟨?_, ?_, ?_, ?_, ?_, ?_, ?_⟩
    · simp [EscaletaTab.saveData, hro, hp]
    · simp [EscaletaTab.saveData, hro, hp]
    · simp [EscaletaTab.saveData, hro, hp]
    · simp [EscaletaTab.saveData, hro, hp]
    · simp [EscaletaTab.saveData, hro, hp]
    · simp [EscaletaTab.saveData, hro, hp]
    · intro error
      cases error <;> cases hcb : c.onUpdateProject <;>
        simp [EscaletaTab.saveData, EscaletaTab.respondTo, hro, hp, hcb,
          eraseIdx_length_append_singleton]
  · intro st i p error hi
    cases error <;> cases hcb : p.onUpdateProject <;>
      simp [EscaletaTab.respondTo, hi, hcb]
  · intro st error
    cases hp : st.pending <;> simp [EscaletaTab.respond, EscaletaTab.respondTo, hp]
  · intro st now c p treatments hro hp
    refine ⟨?_, ?_, ?_, ?_, ?_, ?_, ?_, ?_⟩
    · simp [TratamientoTab.saveTreatments, hro, hp]
    · simp [TratamientoTab.saveTreatments, hro, hp]
    · simp [TratamientoTab.saveTreatments, hro, hp]
    · simp [TratamientoTab.saveTreatments, hro, hp]
    · simp [TratamientoTab.saveTreatments, hro, hp]
    · simp [TratamientoTab.saveTreatments, hro, hp]
    · simp [TratamientoTab.saveTreatments, hro, hp]
    · intro error
      cases error <;> cases hcb : c.onUpdateProject <;>
        simp [TratamientoTab.saveTreatments, TratamientoTab.respondTo, hro, hp, hcb,
          eraseIdx_length_append_singleton]
  · intro st i p error hi
    cases error <;> cases hcb : p.onUpdateProject <;>
      simp [TratamientoTab.respondTo, hi, hcb]
  · intro st error
    cases hp : st.pending <;> simp [TratamientoTab.respond, TratamientoTab.respondTo, hp]

/-- The outline with one write awaited (sent at 1100 ms) and a second save sent at
2150 ms: the answer to the second write, arriving first and with an error, clears
the flag, keeps the first write awaited and does not call the parent. -/
theorem save_flag_is_cleared_by_any_answer_witness :
    (sampleProps.readOnly = false ∧ sampleProps.project = some sampleProject) ∧
    (EscaletaTab.advanceTo 1100
      (EscaletaTab.run (EscaletaTab.mount 0 sampleProps)
        [(100, .updateScene 10 "x")])).pending.length = 1 ∧
    (EscaletaTab.saveData 2150 sampleProps [⟨10, 1, "xy"⟩]
      (EscaletaTab.advanceTo 1100
        (EscaletaTab.run (EscaletaTab.mount 0 sampleProps)
          [(100, .updateScene 10 "x")]))).saving = true ∧
    (EscaletaTab.respondTo
      (EscaletaTab.advanceTo 1100
        (EscaletaTab.run (EscaletaTab.mount 0 sampleProps)
          [(100, .updateScene 10 "x")])).pending.length true
      (EscaletaTab.saveData 2150 sampleProps [⟨10, 1, "xy"⟩]
        (EscaletaTab.advanceTo 1100
          (EscaletaTab.run (EscaletaTab.mount 0 sampleProps)
            [(100, .updateScene 10 "x")])))).saving = false ∧
    (EscaletaTab.respondTo
      (EscaletaTab.advanceTo 1100
        (EscaletaTab.run (EscaletaTab.mount 0 sampleProps)
          [(100, .updateScene 10 "x")])).pending.length true
      (EscaletaTab.saveData 2150 sampleProps [⟨10, 1, "xy"⟩]
        (EscaletaTab.advanceTo 1100
          (EscaletaTab.run (EscaletaTab.mount 0 sampleProps)
            [(100, .updateScene 10 "x")])))).pending.length = 1 :=
  ⟨⟨rfl, rfl⟩, by decide,
    (save_flag_is_cleared_by_any_answer.1
      (EscaletaTab.advanceTo 1100
        (EscaletaTab.run (EscaletaTab.mount 0 sampleProps) [(100, .updateScene 10 "x")]))
      2150 sampleProps sampleProject [⟨10, 1, "xy"⟩] rfl rfl).1,
    ((save_flag_is_cleared_by_any_answer.1
      (EscaletaTab.advanceTo 1100
        (EscaletaTab.run (EscaletaTab.mount 0 sampleProps) [(100, .updateScene 10 "x")]))
      2150 sampleProps sampleProject [⟨10, 1, "xy"⟩] rfl rfl).2.2.2.2.2.2 true).1,
    by decide⟩

/-- C12. In the treatment editor, `addScene(index)` of a render that has a project
and is not read-only, for every index argument: the treatment map becomes the old
map with the new scene's id mapped to the empty string and every other entry
unchanged; the scene list becomes the renumbered list with the new scene; and the
handler itself, at the time of the call, sends one write whose patch holds both
columns, the new list and the new map. When that write succeeds (no other call
being awaited) the parent, if it passed the callback, is called with the same two
fields. -/
theorem treatment_addScene_saves_both_columns (st : TratamientoTab.State) (now : Nat)
    (index : IndexArg) (p : Project)
    (hro : st.props.readOnly = false) (hp : st.props.project = some p) :
    (TratamientoTab.handle now (.addScene index) st).treatments = setKey st.treatments now "" ∧
    (TratamientoTab.handle now (.addScene index) st).treatments now = some "" ∧
    (∀ k, k ≠ now →
      (TratamientoTab.handle now (.addScene index) st).treatments k = st.treatments k) ∧
    (TratamientoTab.handle now (.addScene index) st).scenes =
      TratamientoTab.reorderedScenes now index st.scenes ∧
    Numbered (TratamientoTab.handle now (.addScene index) st).scenes ∧
    (TratamientoTab.handle now (.addScene index) st).saving = true ∧
    (TratamientoTab.handle now (.addScene index) st).writes = st.writes ++
      [{ time := now, rowId := p.id,
         patch := { escaleta_data := some (TratamientoTab.handle now (.addScene index) st).scenes,
                    tratamiento_data :=
                      some (TratamientoTab.handle now (.addScene index) st).treatments,
                    last_state := none } }] ∧
    (st.pending = [] →
      (TratamientoTab.respond false (TratamientoTab.handle now (.addScene index) st)).notified =
        if st.props.onUpdateProject = true then
          st.notified ++
            [{ escaleta_data := some (TratamientoTab.handle now (.addScene index) st).scenes,
               tratamiento_data :=
                 some (TratamientoTab.handle now (.addScene index) st).treatments,
               last_state := none }]
        else st.notified) := by
  have hstep : TratamientoTab.handle now (.addScene index) st =
      TratamientoTab.autosaveEffect now
        { st with
          scenes := TratamientoTab.reorderedScenes now index st.scenes
          saving := true
          writes := st.writes ++
            [{ time := now, rowId := p.id,
               patch := { escaleta_data :=
                            some (TratamientoTab.reorderedScenes now index st.scenes),
                          tratamiento_data :=
                            some (TratamientoTab.newTreatments now st.treatments),
                          last_state := none } }]
          pending := st.pending ++
            [{ patch := { escaleta_data :=
                            some (TratamientoTab.reorderedScenes now index st.scenes),
                          tratamiento_data :=
                            some (TratamientoTab.newTreatments now st.treatments),
                          last_state := none },
               onUpdateProject := st.props.onUpdateProject }]
          treatments := TratamientoTab.newTreatments now st.treatments } := by
    simp [TratamientoTab.handle, TratamientoTab.addSceneStep, hro, hp,
      TratamientoTab.setTreatments]
  rw [hstep]
  simp only [tra_autosaveEffect_scenes, tra_autosaveEffect_treatments,
    tra_autosaveEffect_writes, tra_autosaveEffect_saving]
  refine ⟨?_, ?_, ?_, ?_, ?_, ?_, ?_, ?_⟩
  · rfl
  · simp [TratamientoTab.newTreatments, setKey, newScene]
  · intro k hk
    simp [TratamientoTab.newTreatments, setKey, newScene, hk]
  · trivial
  · exact numbered_mapIdx _
  · trivial
  · trivial
  · intro hpend
    cases hcb : st.props.onUpdateProject <;>
      simp [TratamientoTab.respond, hpend, hcb]

/-- Inserting after the only scene of `sampleProject` at time 50. -/
theorem treatment_addScene_saves_both_columns_witness :
    ((TratamientoTab.mount 0 sampleProps).props.readOnly = false ∧
      (TratamientoTab.mount 0 sampleProps).props.project = some sampleProject) ∧
    (TratamientoTab.handle 50 (.addScene (.num 0)) (TratamientoTab.mount 0 sampleProps)).scenes =
      TratamientoTab.reorderedScenes 50 (.num 0) (TratamientoTab.mount 0 sampleProps).scenes ∧
    ((TratamientoTab.handle 50 (.addScene (.num 0))
        (TratamientoTab.mount 0 sampleProps)).writes.map fun w =>
          (w.time, w.rowId, w.patch.escaleta_data)) =
      [(50, 7, some [⟨10, 1, "a"⟩, ⟨50, 2, ""⟩])] ∧
    ((TratamientoTab.handle 50 (.addScene (.num 0))
        (TratamientoTab.mount 0 sampleProps)).writes.map fun w =>
          w.patch.tratamiento_data.map fun m => [m 10, m 50]) =
      [some [some "t", some ""]] :=
  ⟨⟨rfl, rfl⟩,
    (treatment_addScene_saves_both_columns (TratamientoTab.mount 0 sampleProps) 50 (.num 0)
      sampleProject rfl rfl).2.2.2.1,
    by decide, by decide⟩

/-- C17 on the code: the button is wired as `onClick={addScene}`, so the handler
gets the click event as `index`. The event is not `null`, so the insert branch
runs; `index + 1` is a string that `slice` reads as 0, so `slice(0, index + 1)` is
empty and `slice(index + 1)` is the whole list: the new scene is put first, with
number 1, and the old scenes follow with numbers 2 and up. The list the claim
describes, with the new scene last, is what `addScene()` without argument
returns. -/
theorem button_click_prepends :
    EscaletaTab.addScene false 99 .object [⟨10, 1, "a"⟩, ⟨20, 2, "b"⟩] =
      [⟨99, 1, ""⟩, ⟨10, 2, "a"⟩, ⟨20, 3, "b"⟩] ∧
    EscaletaTab.addScene false 99 .object [⟨10, 1, "a"⟩, ⟨20, 2, "b"⟩] ≠
      [⟨10, 1, "a"⟩, ⟨20, 2, "b"⟩, ⟨99, 3, ""⟩] ∧
    EscaletaTab.addScene false 99 .undefined [⟨10, 1, "a"⟩, ⟨20, 2, "b"⟩] =
      [⟨10, 1, "a"⟩, ⟨20, 2, "b"⟩, ⟨99, 3, ""⟩] ∧
    (EscaletaTab.handle 99 (.addScene .object) (EscaletaTab.mount 0 sampleProps)).scenes =
      [⟨99, 1, ""⟩, ⟨10, 2, "a"⟩] := by
  decide

/-- C13. The rescale pass, over exact rationals. With the three refs set, a host
height `H > 0` and a content height `C > 0` (`scrollHeight || offsetHeight`), both
`applyScale` functions write the style of the factor `s = min(1, H / C)` to the
wrapper and change nothing else; `0 < s ≤ 1`, `C * s ≤ H`, `s = 1` exactly when
`C ≤ H`, the width is `100 / s` percent, and width times scale is 100 percent.
With a ref missing, or `H = 0`, or `C = 0`, nothing is changed. -/
theorem applyScale_fits_host :
    (∀ (dom : Dom) (H : Nat) (w : WrapperStyle) (c : Container),
      dom.host = some H → dom.wrapper = some w → dom.container = some c →
      0 < H → 0 < orElse c.scrollHeight c.offsetHeight →
      EditorAdBanner.applyScale dom =
        { dom with wrapper := some (scaledStyle
            (min 1 ((H : ℚ) / (orElse c.scrollHeight c.offsetHeight : ℚ)))) } ∧
      EscaletaTab.AdsterraNativeBanner.applyScale dom =
        { dom with wrapper := some (scaledStyle
            (min 1 ((H : ℚ) / (orElse c.scrollHeight c.offsetHeight : ℚ)))) } ∧
      (scaledStyle (min 1 ((H : ℚ) / (orElse c.scrollHeight c.offsetHeight : ℚ)))).scale =
        some (min 1 ((H : ℚ) / (orElse c.scrollHeight c.offsetHeight : ℚ))) ∧
      0 < min 1 ((H : ℚ) / (orElse c.scrollHeight c.offsetHeight : ℚ)) ∧
      min 1 ((H : ℚ) / (orElse c.scrollHeight c.offsetHeight : ℚ)) ≤ 1 ∧
      (orElse c.scrollHeight c.offsetHeight : ℚ) *
        min 1 ((H : ℚ) / (orElse c.scrollHeight c.offsetHeight : ℚ)) ≤ (H : ℚ) ∧
      (min 1 ((H : ℚ) / (orElse c.scrollHeight c.offsetHeight : ℚ)) = 1 ↔
        orElse c.scrollHeight c.offsetHeight ≤ H) ∧
      (scaledStyle (min 1 ((H : ℚ) / (orElse c.scrollHeight c.offsetHeight : ℚ)))).widthPercent =
        100 / min 1 ((H : ℚ) / (orElse c.scrollHeight c.offsetHeight : ℚ)) ∧
      (scaledStyle (min 1 ((H : ℚ) / (orElse c.scrollHeight c.offsetHeight : ℚ)))).widthPercent *
        min 1 ((H : ℚ) / (orElse c.scrollHeight c.offsetHeight : ℚ)) = 100) ∧
    (∀ (dom : Dom),
      (dom.host = none ∨ dom.host = some 0 ∨ dom.wrapper = none ∨ dom.container = none ∨
        ∃ c, dom.container = some c ∧ orElse c.scrollHeight c.offsetHeight = 0) →
      EditorAdBanner.applyScale dom = dom ∧
      EscaletaTab.AdsterraNativeBanner.applyScale dom = dom) := by
  constructor
  · intro dom H w c hh hw hc hH hC
    obtain ⟨f1, f2, f3, f4, f5⟩ := scale_facts H _ hH hC
    refine ⟨?_, ?_, rfl, f1, f2, f3, f4, rfl, f5⟩
    · simp only [EditorAdBanner.applyScale, hh, hw, hc, orElse_zero]
      rw [if_neg (by omega)]
    · simp only [EscaletaTab.AdsterraNativeBanner.applyScale, hh, hw, hc, orElse_zero]
      rw [if_neg (by omega), if_neg (by omega)]
  · intro dom h
    obtain ⟨host, wrapper, container, clones⟩ := dom
    rcases h with h | h | h | h | ⟨c, h, h0⟩
    · simp only at h
      subst h
      cases wrapper <;> cases container <;>
        simp [EditorAdBanner.applyScale, EscaletaTab.AdsterraNativeBanner.applyScale]
    · simp only at h
      subst h
      cases wrapper <;> cases container <;>
        simp [EditorAdBanner.applyScale, EscaletaTab.AdsterraNativeBanner.applyScale, orElse]
    · simp only at h
      subst h
      cases host <;> cases container <;>
        simp [EditorAdBanner.applyScale, EscaletaTab.AdsterraNativeBanner.applyScale]
    · simp only at h
      subst h
      cases host <;> cases wrapper <;>
        simp [EditorAdBanner.applyScale, EscaletaTab.AdsterraNativeBanner.applyScale]
    · simp only at h
      subst h
      cases host <;> cases wrapper <;>
        simp [EditorAdBanner.applyScale, EscaletaTab.AdsterraNativeBanner.applyScale,
          orElse_zero, h0]

/-- A host of height 120 and content of height 300: the factor is
`min(1, 120 / 300)`, the scaled content is at most 120 high. -/
theorem applyScale_fits_host_witness :
    (((⟨some 120, some ⟨none, none, 100⟩, some ⟨300, 300, "x", 1⟩, none⟩ : Dom).host = some 120 ∧
      (⟨some 120, some ⟨none, none, 100⟩, some ⟨300, 300, "x", 1⟩, none⟩ : Dom).wrapper =
        some ⟨none, none, 100⟩ ∧
      (⟨some 120, some ⟨none, none, 100⟩, some ⟨300, 300, "x", 1⟩, none⟩ : Dom).container =
        some ⟨300, 300, "x", 1⟩) ∧
      0 < 120 ∧ 0 < orElse (⟨300, 300, "x", 1⟩ : Container).scrollHeight
        (⟨300, 300, "x", 1⟩ : Container).offsetHeight) ∧
    EditorAdBanner.applyScale ⟨some 120, some ⟨none, none, 100⟩, some ⟨300, 300, "x", 1⟩, none⟩ =
      { (⟨some 120, some ⟨none, none, 100⟩, some ⟨300, 300, "x", 1⟩, none⟩ : Dom) with
        wrapper := some (scaledStyle (min 1 (((120 : Nat) : ℚ) /
          (orElse (⟨300, 300, "x", 1⟩ : Container).scrollHeight
            (⟨300, 300, "x", 1⟩ : Container).offsetHeight : ℚ)))) } :=
  ⟨⟨⟨rfl, rfl, rfl⟩, by decide, by decide⟩,
    (applyScale_fits_host.1 ⟨some 120, some ⟨none, none, 100⟩, some ⟨300, 300, "x", 1⟩, none⟩
      120 ⟨none, none, 100⟩ ⟨300, 300, "x", 1⟩ rfl rfl rfl (by decide) (by decide)).1⟩

/-- The clone count of the specification, over exact rationals, for a host height
`H > 0` and a content height `C > 0`: with the row height `R = C * min(1, H / C)`
(the formula for the outline variant) or `R = C` (the treatment variant),
`k = max(0, ceil(H / R) - 1)` is the least number of further copies that covers
the host, `(k + 1) * R ≥ H` and `k * R < H`, and `k = 0` whenever `C ≥ H`. With
non-empty markup and the refs set, `updateClones` fills the clones node with
`clonesNeeded` copies of the markup (the outline variant only when the host
height is not 0); with empty markup it empties the clones node. -/
theorem clones_exact_least_cover :
    (∀ H C : Nat, 0 < H → 0 < C →
      ((EscaletaTab.AdsterraNativeBanner.clonesNeededExact H C : ℤ) =
          max 0 (⌈(H : ℚ) / ((C : ℚ) * min 1 ((H : ℚ) / (C : ℚ)))⌉ - 1) ∧
        (H : ℚ) ≤ ((EscaletaTab.AdsterraNativeBanner.clonesNeededExact H C : ℚ) + 1) *
          ((C : ℚ) * min 1 ((H : ℚ) / (C : ℚ))) ∧
        (EscaletaTab.AdsterraNativeBanner.clonesNeededExact H C : ℚ) *
          ((C : ℚ) * min 1 ((H : ℚ) / (C : ℚ))) < (H : ℚ) ∧
        (H ≤ C → EscaletaTab.AdsterraNativeBanner.clonesNeededExact H C = 0)) ∧
      ((TratamientoTab.AdsterraNativeBanner.clonesNeededExact H C : ℤ) =
          max 0 (⌈(H : ℚ) / (C : ℚ)⌉ - 1) ∧
        (H : ℚ) ≤ ((TratamientoTab.AdsterraNativeBanner.clonesNeededExact H C : ℚ) + 1) * (C : ℚ) ∧
        (TratamientoTab.AdsterraNativeBanner.clonesNeededExact H C : ℚ) * (C : ℚ) < (H : ℚ) ∧
        (H ≤ C → TratamientoTab.AdsterraNativeBanner.clonesNeededExact H C = 0))) ∧
    (∀ (dom : Dom) (c : Container) (old : List String) (H : Nat),
      dom.container = some c → dom.clones = some old → dom.host = some H →
      c.innerHTML ≠ "" → 0 < H →
      EscaletaTab.AdsterraNativeBanner.updateClones dom =
        { dom with clones := some (List.replicate
            (EscaletaTab.AdsterraNativeBanner.clonesNeeded H
              (orElse c.scrollHeight (orElse c.offsetHeight 1))) c.innerHTML) } ∧
      TratamientoTab.AdsterraNativeBanner.updateClones dom =
        { dom with clones := some (List.replicate
            (TratamientoTab.AdsterraNativeBanner.clonesNeeded H (orElse c.offsetHeight 1))
            c.innerHTML) }) ∧
    (∀ (dom : Dom) (c : Container) (old : List String) (H : Nat),
      dom.container = some c → dom.clones = some old → dom.host = some H →
      c.innerHTML = "" →
      EscaletaTab.AdsterraNativeBanner.updateClones dom = { dom with clones := some [] } ∧
      TratamientoTab.AdsterraNativeBanner.updateClones dom = { dom with clones := some [] }) := by
  refine ⟨?_, ?_, ?_⟩
  · intro H C hH hC
    have hHq : (0 : ℚ) < H := by exact_mod_cast hH
    have hCq : (0 : ℚ) < C := by exact_mod_cast hC
    obtain ⟨s1, _, _, s4, _⟩ := scale_facts H C hH hC
    have hR : (0 : ℚ) < (C : ℚ) * min 1 ((H : ℚ) / (C : ℚ)) := mul_pos hCq s1
    obtain ⟨a1, a2, a3⟩ := clones_cover (H : ℚ) _ hHq hR
    obtain ⟨b1, b2, b3⟩ := clones_cover (H : ℚ) (C : ℚ) hHq hCq
    have a1' : ((max 0 (⌈(H : ℚ) / ((C : ℚ) * min 1 ((H : ℚ) / (C : ℚ)))⌉ - 1)).toNat : ℤ) =
        max 0 (⌈(H : ℚ) / ((C : ℚ) * min 1 ((H : ℚ) / (C : ℚ)))⌉ - 1) :=
      Int.toNat_of_nonneg (le_max_left _ _)
    have b1' : ((max 0 (⌈(H : ℚ) / (C : ℚ)⌉ - 1)).toNat : ℤ) =
        max 0 (⌈(H : ℚ) / (C : ℚ)⌉ - 1) :=
      Int.toNat_of_nonneg (le_max_left _ _)
    refine ⟨⟨a1', a2, a3, ?_⟩, ⟨b1', b2, b3, ?_⟩⟩
    · intro hle
      apply clones_zero_of_row_ge _ (H : ℚ) _ hHq a3
      have hCH : (H : ℚ) ≤ (C : ℚ) := by exact_mod_cast hle
      have hmin : min 1 ((H : ℚ) / (C : ℚ)) = (H : ℚ) / (C : ℚ) :=
        min_eq_right ((div_le_one hCq).2 hCH)
      rw [hmin]
      field_simp
    · intro hle
      apply clones_zero_of_row_ge _ (H : ℚ) _ hHq b3
      exact_mod_cast hle
  · intro dom c old H hc hcl hh hhtml hH
    constructor
    · simp only [EscaletaTab.AdsterraNativeBanner.updateClones, hc, hcl, hh, orElse_zero]
      rw [if_neg hhtml, if_neg (by omega)]
    · simp only [TratamientoTab.AdsterraNativeBanner.updateClones, hc, hcl, hh, orElse_zero]
      rw [if_neg hhtml]
  · intro dom c old H hc hcl hh hhtml
    constructor
    · simp only [EscaletaTab.AdsterraNativeBanner.updateClones, hc, hcl, hh]
      rw [if_pos hhtml]
    · simp only [TratamientoTab.AdsterraNativeBanner.updateClones, hc, hcl, hh]
      rw [if_pos hhtml]

set_option maxRecDepth 100000 in
/-- C14 on the code: the outline tab's `updateClones` computes in binary64. With a
host of height 120 and content of height 149, `120 / 149` is rounded, `149 *` that
is rounded to a value just below 120, and `120 /` that is rounded to
`1 + 2 ^ (-52)`, whose ceiling is 2: one clone is made although the content is
higher than the host. The formula of the specification gives 0 clones there, and
so does the treatment tab's `updateClones`, also in binary64, which divides by
the row height itself. -/
theorem outline_clones_round_up :
    Binary64.mul (Binary64.ofNat 149) (Binary64.div (Binary64.ofNat 120) (Binary64.ofNat 149)) =
      ⟨8444249301319679, -46⟩ ∧
    Binary64.div (Binary64.ofNat 120)
        (Binary64.mul (Binary64.ofNat 149)
          (Binary64.div (Binary64.ofNat 120) (Binary64.ofNat 149))) =
      ⟨4503599627370497, -52⟩ ∧
    EscaletaTab.AdsterraNativeBanner.clonesNeeded 120 149 = 1 ∧
    (EscaletaTab.AdsterraNativeBanner.updateClones
      ⟨some 120, some ⟨none, none, 100⟩, some ⟨149, 149, "<a/>", 1⟩, some []⟩).clones =
        some ["<a/>"] ∧
    120 ≤ 149 ∧
    EscaletaTab.AdsterraNativeBanner.clonesNeededExact 120 149 = 0 ∧
    TratamientoTab.AdsterraNativeBanner.clonesNeeded 120 149 = 0 ∧
    (TratamientoTab.AdsterraNativeBanner.updateClones
      ⟨some 120, none, some ⟨149, 149, "<a/>", 1⟩, some ["<a/>"]⟩).clones = some [] :=
  ⟨by decide, by decide, by decide, by decide, by decide,
    (clones_exact_least_cover.1 120 149 (by decide) (by decide)).1.2.2.2 (by decide),
    by decide, by decide⟩

/-- C16. The reload throttle of `EditorAdBanner`, for every clock reading `now`.
A request with `now - lastReloadAt < 250` changes nothing at all; a request with
`now - lastReloadAt ≥ 250` sets `lastReloadAt` to `now`, resets the retry counter
to 0 and raises the refresh counter by exactly 1. Hence in every timed sequence of
reload requests and ad renderings, with the retry timers running in between, any
two honored reloads are at least 250 ms apart. -/
theorem reload_is_throttled :
    (∀ (st : EditorAdBanner.State) (now : Nat),
      (now : Int) - (st.lastReloadAt : Int) < 250 →
      EditorAdBanner.requestReload now st = st) ∧
    (∀ (st : EditorAdBanner.State) (now : Nat),
      250 ≤ (now : Int) - (st.lastReloadAt : Int) →
      (EditorAdBanner.requestReload now st).lastReloadAt = now ∧
      (EditorAdBanner.requestReload now st).retryCount = 0 ∧
      (EditorAdBanner.requestReload now st).refreshKey = st.refreshKey + 1) ∧
    (∀ (st : EditorAdBanner.State) (events : List (Nat × EditorAdBanner.Event)),
      (EditorAdBanner.honoredTimes st events).Pairwise fun a b => a + 250 ≤ b) := by
  refine ⟨?_, ?_, ?_⟩
  · intro st now h
    exact ban_requestReload_ignored now st h
  · intro st now h
    rw [ban_requestReload_honored now st h]
    exact ⟨rfl, rfl, rfl⟩
  · intro st events
    exact (ban_honoredTimes_spaced events st).1

/-- After a reload honored at 1000: a request at 1249 is ignored, a request at
1300 is honored and resets the retry counter. -/
theorem reload_is_throttled_witness :
    (((1249 : Nat) : Int) -
        (((EditorAdBanner.requestReload 1000 (EditorAdBanner.mount 0)).lastReloadAt : Nat) : Int) <
          250 ∧
      EditorAdBanner.requestReload 1249
          (EditorAdBanner.requestReload 1000 (EditorAdBanner.mount 0)) =
        EditorAdBanner.requestReload 1000 (EditorAdBanner.mount 0)) ∧
    (250 ≤ ((1300 : Nat) : Int) -
        (((EditorAdBanner.requestReload 1000 (EditorAdBanner.mount 0)).lastReloadAt : Nat) : Int) ∧
      (EditorAdBanner.requestReload 1300
          (EditorAdBanner.requestReload 1000 (EditorAdBanner.mount 0))).lastReloadAt = 1300 ∧
      (EditorAdBanner.requestReload 1300
          (EditorAdBanner.requestReload 1000 (EditorAdBanner.mount 0))).retryCount = 0 ∧
      (EditorAdBanner.requestReload 1300
          (EditorAdBanner.requestReload 1000 (EditorAdBanner.mount 0))).refreshKey =
        (EditorAdBanner.requestReload 1000 (EditorAdBanner.mount 0)).refreshKey + 1) ∧
    EditorAdBanner.honoredTimes (EditorAdBanner.mount 0)
        [(1000, .requestReload), (1249, .requestReload), (1300, .requestReload)] =
      [1000, 1300] :=
  ⟨⟨by decide,
      reload_is_throttled.1 (EditorAdBanner.requestReload 1000 (EditorAdBanner.mount 0)) 1249
        (by decide)⟩,
    ⟨by decide,
      reload_is_throttled.2.1 (EditorAdBanner.requestReload 1000 (EditorAdBanner.mount 0)) 1300
        (by decide)⟩,
    by decide⟩

/-- C15, as stated, fails: a banner mounted at time 0 whose container stays
empty, with no reload request, has retried three times by 1800 ms, not twice. The
retry at 600 ms remounts, which cancels the 1800 ms timer of the first mount and
sets timers for 1200 and 2400 ms; the retries come at 600, 1200 and 1800 ms. The
same holds when the ad script writes only white space (here a form feed and a
no-break space) into the container. -/
theorem empty_container_retries_three_times :
    (EditorAdBanner.advanceTo 600 (EditorAdBanner.mount 0)).timers =
      [⟨2, 1200⟩, ⟨3, 2400⟩] ∧
    (EditorAdBanner.advanceTo 600 (EditorAdBanner.mount 0)).refreshKey = 1 ∧
    (EditorAdBanner.advanceTo 1200 (EditorAdBanner.mount 0)).refreshKey = 2 ∧
    (EditorAdBanner.advanceTo 1800 (EditorAdBanner.mount 0)).refreshKey = 3 ∧
    (EditorAdBanner.advanceTo 1800 (EditorAdBanner.mount 0)).retryCount = 3 ∧
    (EditorAdBanner.advanceTo 1800 (EditorAdBanner.mount 0)).container =
      some EditorAdBanner.emptyContainer ∧
    (EditorAdBanner.advanceTo 100000 (EditorAdBanner.mount 0)).refreshKey = 3 ∧
    (EditorAdBanner.advanceTo 100000 (EditorAdBanner.mount 0)).refreshKey ≠ 2 ∧
    EditorAdBanner.isRenderable (some ⟨0, 0, "\x0c\xa0", 0⟩) = false ∧
    (EditorAdBanner.advanceTo 100000
      (EditorAdBanner.run (EditorAdBanner.mount 0)
        [(100, .adRendered ⟨0, 0, "\x0c\xa0", 0⟩)])).refreshKey = 3 := by
  decide

/-- C15, amended. The clock of the model always runs every timer that is due.
If the ad script fills the container before 600 ms have elapsed since the mount,
so that `isRenderable` holds at the checks, no retry remount occurs, at any later
time. If the container stays empty, whatever the ad script writes into it on the
way being not renderable (no child element and no markup other than white
space), and no reload request comes, a retry remount occurs 600 ms after each
mount or remount until the retry counter is 3: none before 600 ms, one from
600 ms, two from 1200 ms, and from 1800 ms on exactly three, with no further retry
after them. -/
theorem retries_are_bounded :
    (∀ (st : EditorAdBanner.State) (time : Nat),
      EditorAdBanner.nextDue time (EditorAdBanner.advanceTo time st).timers = none) ∧
    (∀ (t0 rendered time : Nat) (c : Container),
      rendered < t0 + 600 → EditorAdBanner.isRenderable (some c) = true →
      (EditorAdBanner.advanceTo time
        (EditorAdBanner.run (EditorAdBanner.mount t0) [(rendered, .adRendered c)])).refreshKey =
          0 ∧
      (EditorAdBanner.advanceTo time
        (EditorAdBanner.run (EditorAdBanner.mount t0) [(rendered, .adRendered c)])).retryCount =
          0) ∧
    (∀ (t0 time : Nat) (events : List (Nat × EditorAdBanner.Event)),
      EditorAdBanner.StaysEmpty events → EditorAdBanner.Timeline t0 time events →
      (time < t0 + 600 →
        (EditorAdBanner.advanceTo time
          (EditorAdBanner.run (EditorAdBanner.mount t0) events)).refreshKey = 0) ∧
      (t0 + 600 ≤ time → time < t0 + 1200 →
        (EditorAdBanner.advanceTo time
          (EditorAdBanner.run (EditorAdBanner.mount t0) events)).refreshKey = 1) ∧
      (t0 + 1200 ≤ time → time < t0 + 1800 →
        (EditorAdBanner.advanceTo time
          (EditorAdBanner.run (EditorAdBanner.mount t0) events)).refreshKey = 2) ∧
      (t0 + 1800 ≤ time →
        (EditorAdBanner.advanceTo time
          (EditorAdBanner.run (EditorAdBanner.mount t0) events)).refreshKey = 3 ∧
        (EditorAdBanner.advanceTo time
          (EditorAdBanner.run (EditorAdBanner.mount t0) events)).retryCount = 3)) := by
  have hmount : ∀ t0, EditorAdBanner.mount t0 = EditorAdBanner.waiting t0 0 0 := by
    intro t0
    simp [EditorAdBanner.mount, EditorAdBanner.mountEffect, EditorAdBanner.clearRetryTimers,
      EditorAdBanner.waiting]
  refine ⟨?_, ?_, ?_⟩
  · intro st time
    exact ban_advanceFuel_settled _ time st (le_refl _)
  · intro t0 rendered time c hlt hc
    have hpre : EditorAdBanner.advanceTo rendered (EditorAdBanner.mount t0) =
        EditorAdBanner.waiting t0 0 0 := by
      rw [hmount, EditorAdBanner.advanceTo, ban_waiting_stop _ t0 0 0 rendered hlt]
    have hrun : EditorAdBanner.run (EditorAdBanner.mount t0) [(rendered, .adRendered c)] =
        { EditorAdBanner.waiting t0 0 0 with container := some c } := by
      simp [EditorAdBanner.run, EditorAdBanner.step, EditorAdBanner.handle, hpre]
    rw [hrun]
    exact ban_advanceFuel_quiet _ time _ (Or.inr hc)
  · intro t0 time events hempty htl
    obtain ⟨reached, hr, hreached⟩ :=
      ban_retried_run t0 time events (EditorAdBanner.mount t0) t0 (ban_retried_mount t0) hempty
        htl
    have hle : min 3 ((reached - t0) / 600) ≤ (time - t0) / 600 := by
      rcases hreached with h | ⟨_, h⟩
      · subst h
        omega
      · omega
    obtain ⟨f1, f2, _⟩ := ban_retried_advance _ t0 reached time hr hle
    rw [f1, f2]
    refine ⟨?_, ?_, ?_, ?_⟩
    · intro h
      omega
    · intro h1 h2
      omega
    · intro h1 h2
      omega
    · intro h1
      constructor <;> omega

/-- An ad rendered 100 ms after a mount at 0: no retry by 5000 ms. With only a
form feed and a no-break space written at 100 ms and at 700 ms, three retries by
5000 ms. -/
theorem retries_are_bounded_witness :
    ((100 < 0 + 600 ∧
        EditorAdBanner.isRenderable (some ⟨50, 50, "<a/>", 1⟩) = true) ∧
      (EditorAdBanner.advanceTo 5000
        (EditorAdBanner.run (EditorAdBanner.mount 0)
          [(100, .adRendered ⟨50, 50, "<a/>", 1⟩)])).refreshKey = 0 ∧
      (EditorAdBanner.advanceTo 5000
        (EditorAdBanner.run (EditorAdBanner.mount 0)
          [(100, .adRendered ⟨50, 50, "<a/>", 1⟩)])).retryCount = 0) ∧
    ((EditorAdBanner.StaysEmpty
        [(100, .adRendered ⟨0, 0, "\x0c\xa0", 0⟩), (700, .adRendered ⟨0, 0, "\x0c\xa0", 0⟩)] ∧
      EditorAdBanner.Timeline 0 5000
        [(100, .adRendered ⟨0, 0, "\x0c\xa0", 0⟩), (700, .adRendered ⟨0, 0, "\x0c\xa0", 0⟩)] ∧
      0 + 1800 ≤ 5000) ∧
      (EditorAdBanner.advanceTo 5000
        (EditorAdBanner.run (EditorAdBanner.mount 0)
          [(100, .adRendered ⟨0, 0, "\x0c\xa0", 0⟩),
            (700, .adRendered ⟨0, 0, "\x0c\xa0", 0⟩)])).refreshKey = 3 ∧
      (EditorAdBanner.advanceTo 5000
        (EditorAdBanner.run (EditorAdBanner.mount 0)
          [(100, .adRendered ⟨0, 0, "\x0c\xa0", 0⟩),
            (700, .adRendered ⟨0, 0, "\x0c\xa0", 0⟩)])).retryCount = 3) :=
  ⟨⟨⟨by decide, by decide⟩,
      retries_are_bounded.2.1 0 100 5000 ⟨50, 50, "<a/>", 1⟩ (by decide) (by decide)⟩,
    ⟨⟨by simp [EditorAdBanner.StaysEmpty, EditorAdBanner.isRenderable, EditorAdBanner.jsTrim,
          EditorAdBanner.jsIsWhiteSpace],
        by simp [EditorAdBanner.Timeline], by decide⟩,
      (retries_are_bounded.2.2 0 5000
        [(100, .adRendered ⟨0, 0, "\x0c\xa0", 0⟩), (700, .adRendered ⟨0, 0, "\x0c\xa0", 0⟩)]
        (by simp [EditorAdBanner.StaysEmpty, EditorAdBanner.isRenderable, EditorAdBanner.jsTrim,
          EditorAdBanner.jsIsWhiteSpace])
        (by simp [EditorAdBanner.Timeline])).2.2.2 (by decide)⟩⟩

end Cineasta
